import Mathlib

set_option autoImplicit false
set_option linter.dupNamespace false

/-
Verification of the HanaExpress reconciler
(controllers/hanaexpress_controller.go, api/v1alpha1/hanaexpress_types.go).

The Go code is embedded as pure functions. The reconciler's collaborators (the
API client, the event recorder, the process environment, the clock) are the
fields of `World`, threaded through every call:

* the store keeps parents and children in lists keyed by namespace and name;
  `r.Get` replaces the held copy by the stored object, `r.Update` stores the
  held copy (the status stays with the status subresource), `r.Status().Update`
  stores the status of the held copy;
* `World.faults` lets the store answer any call with an error, by kind of call
  and position in the run; version conflicts are among these errors;
* every call is appended to `World.trace`, so that statements can speak of the
  calls a run issues;
* a Go panic (index out of range, nil dereference) is an outcome of its own.
-/

namespace HanaOperator

-- ===========================================================================
-- Constants (controllers/hanaexpress_controller.go:46-54)
-- ===========================================================================

def hanaExpressFinalizer : String := "db.sap-redhat.io/finalizer"

def typeAvailableHanaExpress : String := "Available"

def typeDegradedHanaExpress : String := "Degraded"

-- ===========================================================================
-- Go values used by the controller
-- ===========================================================================

/-- Outcome of evaluating Go code that may hit a run-time panic
(index out of range, nil dereference). -/
inductive Go (α : Type) where
  | ok (a : α)
  | panic (msg : String)
  deriving DecidableEq, Repr

/-- The reason carried by an API status error; `none` in `GoError.reason`
stands for a plain error value such as one built by fmt.Errorf. -/
inductive StatusReason where
  | NotFound
  | AlreadyExists
  | Conflict
  | InternalError
  | ServiceUnavailable
  deriving DecidableEq, Repr

/-- A Go `error` value: what apierrors.IsNotFound inspects, and the text
printed by the `%s` verb. -/
structure GoError where
  reason : Option StatusReason
  text : String
  deriving DecidableEq, Repr

/-- Modelled from the spec: apierrors.IsNotFound (k8s.io/apimachinery, not
under src/) reports whether the error is the store's `NotFound` answer. -/
def IsNotFound (e : GoError) : Bool :=
  e.reason == some StatusReason.NotFound

/-- Modelled from the spec: strings.Split (Go standard library, not under
src/) for a one-character separator, the only way the source calls it. The
result always has at least one element; a string without the separator yields
the one-element list holding the whole string. -/
def splitChars (sep : Char) : List Char → List (List Char)
  | [] => [[]]
  | x :: xs =>
    if x = sep then [] :: splitChars sep xs
    else
      match splitChars sep xs with
      | [] => [[x]]
      | y :: ys => (x :: y) :: ys

/-- The call strings.Split(s, ":") with the separator given as a character. -/
def stringsSplit (s : String) (sep : Char) : List String :=
  (splitChars sep s.data).map String.mk

-- ===========================================================================
-- imageForHanaExpress, labelsForHanaExpress
-- (controllers/hanaexpress_controller.go:466-491)
-- ===========================================================================

/-- The process environment as seen by os.LookupEnv. -/
abbrev Environ := String → Option String

/-- Source: imageForHanaExpress (lines 484-491). -/
def imageForHanaExpress (env : Environ) : Except GoError String :=
  let imageEnvVar := "HANAEXPRESS_IMAGE"
  match env imageEnvVar with
  | none =>
    Except.error
      { reason := none
        text := "Unable to find " ++ imageEnvVar ++ " environment variable with the image" }
  | some image => Except.ok image

/-- A Go map[string]string written as the list of its entries. -/
abbrev Labels := List (String × String)

/-- Source: labelsForHanaExpress (lines 468-480). The expression
strings.Split(image, ":")[1] panics when the split has fewer than two
elements. -/
def labelsForHanaExpress (env : Environ) (name : String) : Go Labels :=
  let withTag (imageTag : String) : Labels :=
    [ ("app.kubernetes.io/name", "HanaExpress"),
      ("app.kubernetes.io/instance", name),
      ("app.kubernetes.io/version", imageTag),
      ("app.kubernetes.io/part-of", "hanaexpress-operator"),
      ("app.kubernetes.io/created-by", "controller-manager") ]
  match imageForHanaExpress env with
  | Except.ok image =>
    match (stringsSplit image ':')[1]? with
    | some imageTag => Go.ok (withTag imageTag)
    | none => Go.panic "runtime error: index out of range [1]"
  | Except.error _ => Go.ok (withTag "")

-- ===========================================================================
-- API types (api/v1alpha1/hanaexpress_types.go)
-- ===========================================================================

/-- Source: metav1.ConditionStatus, the three values a condition may take. -/
inductive ConditionStatus where
  | ConditionTrue
  | ConditionFalse
  | ConditionUnknown
  deriving DecidableEq, Repr

/-- Source: metav1.Condition as stored in HanaExpressStatus.Conditions
(hanaexpress_types.go:60). Times are natural numbers, 0 being the zero
time. -/
structure Condition where
  CondType : String
  Status : ConditionStatus
  ObservedGeneration : Int
  LastTransitionTime : Nat
  Reason : String
  Message : String
  deriving DecidableEq, Repr

/-- Source: Credential (hanaexpress_types.go:24-32). -/
structure Credential where
  Name : String
  Key : String
  deriving DecidableEq, Repr

/-- Source: HanaExpressSpec (hanaexpress_types.go:35-46). -/
structure HanaExpressSpec where
  PVCSize : String
  Credential : Credential
  deriving DecidableEq, Repr

/-- Source: HanaExpressStatus (hanaexpress_types.go:49-61). -/
structure HanaExpressStatus where
  Conditions : List Condition
  deriving DecidableEq, Repr

/-- Source: HanaExpress (hanaexpress_types.go:67-73); of the embedded
ObjectMeta the fields the controller reads or writes are kept. -/
structure HanaExpress where
  Name : String
  Namespace : String
  UID : String
  DeletionTimestamp : Option Nat
  Finalizers : List String
  Spec : HanaExpressSpec
  Status : HanaExpressStatus
  deriving DecidableEq, Repr

/-- The zero value of HanaExpress, as allocated by &dbv1alpha1.HanaExpress{}. -/
def HanaExpress.zero : HanaExpress :=
  { Name := "", Namespace := "", UID := "", DeletionTimestamp := none, Finalizers := [],
    Spec := { PVCSize := "", Credential := { Name := "", Key := "" } },
    Status := { Conditions := [] } }

-- ===========================================================================
-- Library helpers on conditions and finalizers
-- ===========================================================================

/-- Modelled from the spec: meta.FindStatusCondition (k8s.io/apimachinery, not
under src/) returns the first condition of the given type. -/
def FindStatusCondition (conditions : List Condition) (conditionType : String) :
    Option Condition :=
  conditions.find? (fun c => c.CondType == conditionType)

/-- The in-place update meta.SetStatusCondition applies to the existing entry:
the transition time moves only when the status changes; reason, message and
observed generation are always overwritten. -/
def mergeCondition (now : Nat) (existing newCondition : Condition) : Condition :=
  let c1 : Condition :=
    if existing.Status ≠ newCondition.Status then
      { existing with
        Status := newCondition.Status
        LastTransitionTime :=
          if newCondition.LastTransitionTime ≠ 0 then newCondition.LastTransitionTime else now }
    else existing
  { c1 with
    Reason := newCondition.Reason
    Message := newCondition.Message
    ObservedGeneration := newCondition.ObservedGeneration }

/-- Modelled from the spec: meta.SetStatusCondition (k8s.io/apimachinery, not
under src/), the upsert-by-type of spec section 4.1: the first entry of the same
type is updated in place, otherwise the new condition is appended, stamped with
the current time when it carries none. -/
def SetStatusCondition (now : Nat) : List Condition → Condition → List Condition
  | [], newCondition =>
    [ if newCondition.LastTransitionTime = 0 then
        { newCondition with LastTransitionTime := now }
      else newCondition ]
  | c :: rest, newCondition =>
    if c.CondType = newCondition.CondType then mergeCondition now c newCondition :: rest
    else c :: SetStatusCondition now rest newCondition

/-- Modelled from the spec: controllerutil.ContainsFinalizer
(sigs.k8s.io/controller-runtime, not under src/). -/
def ContainsFinalizer (o : HanaExpress) (finalizer : String) : Bool :=
  o.Finalizers.any (fun e => e == finalizer)

/-- Modelled from the spec: controllerutil.AddFinalizer (not under src/):
appends the finalizer unless present; the flag tells whether the list
changed. -/
def AddFinalizer (o : HanaExpress) (finalizer : String) : Bool × HanaExpress :=
  if o.Finalizers.any (fun e => e == finalizer) then (false, o)
  else (true, { o with Finalizers := o.Finalizers ++ [finalizer] })

/-- Modelled from the spec: controllerutil.RemoveFinalizer (not under src/):
drops every occurrence of the finalizer; the flag tells whether the list
changed. -/
def RemoveFinalizer (o : HanaExpress) (finalizer : String) : Bool × HanaExpress :=
  let f := o.Finalizers.filter (fun e => !(e == finalizer))
  (decide (o.Finalizers.length ≠ f.length), { o with Finalizers := f })

-- ===========================================================================
-- Quantities
-- ===========================================================================

/-- Modelled from the spec: resource.Quantity (k8s.io/apimachinery, not under
src/), kept as the amount it denotes in base units (bytes for storage). The
zero Quantity has amount 0. -/
structure Quantity where
  amount : Nat
  deriving DecidableEq, Repr

/-- Multiplier of the binary and decimal suffixes of a quantity. -/
def suffixMultiplier : List Char → Option Nat
  | [] => some 1
  | ['K', 'i'] => some (2 ^ 10)
  | ['M', 'i'] => some (2 ^ 20)
  | ['G', 'i'] => some (2 ^ 30)
  | ['T', 'i'] => some (2 ^ 40)
  | ['P', 'i'] => some (2 ^ 50)
  | ['E', 'i'] => some (2 ^ 60)
  | ['k'] => some (10 ^ 3)
  | ['M'] => some (10 ^ 6)
  | ['G'] => some (10 ^ 9)
  | ['T'] => some (10 ^ 12)
  | ['P'] => some (10 ^ 15)
  | ['E'] => some (10 ^ 18)
  | _ => none

/-- Value of a string of decimal digits, most significant first. -/
def digitsValue (ds : List Char) : Nat :=
  ds.foldl (fun acc d => 10 * acc + (d.toNat - '0'.toNat)) 0

/-- Modelled from the spec: resource.ParseQuantity (not under src/) on
unsigned whole numbers followed by a binary or decimal suffix, the fragment
that contains every string of the validated pattern ^\d+Gi$ of
HanaExpressSpec.PVCSize; other inputs are reported as a parse error here. -/
def ParseQuantity (s : String) : Option Quantity :=
  let ds := s.data.takeWhile Char.isDigit
  let suffix := s.data.dropWhile Char.isDigit
  if ds.isEmpty then none
  else
    match suffixMultiplier suffix with
    | some m => some { amount := digitsValue ds * m }
    | none => none

/-- Source: resourceQuantity (lines 501-504): the parse error is dropped and
the zero Quantity is returned in that case. -/
def resourceQuantity (quantity : String) : Quantity :=
  match ParseQuantity quantity with
  | some q => q
  | none => { amount := 0 }

/-- The validation pattern ^\d+Gi$ of HanaExpressSpec.PVCSize
(hanaexpress_types.go:40): one or more ASCII digits followed by Gi. -/
def matchesPVCSizePattern (s : String) : Bool :=
  let ds := s.data.takeWhile Char.isDigit
  !ds.isEmpty && s.data.dropWhile Char.isDigit == ['G', 'i']

-- ===========================================================================
-- The child workload (appsv1.StatefulSet) as far as the controller builds it
-- ===========================================================================

/-- Source: metav1.OwnerReference as filled in by ctrl.SetControllerReference. -/
structure OwnerReference where
  APIVersion : String
  Kind : String
  Name : String
  UID : String
  Controller : Option Bool
  BlockOwnerDeletion : Option Bool
  deriving DecidableEq, Repr

/-- Source: corev1.PersistentVolumeClaim, the fields set at lines 298-312. -/
structure PersistentVolumeClaim where
  Name : String
  AccessModes : List String
  Requests : List (String × Quantity)
  deriving DecidableEq, Repr

/-- Source: corev1.Volume with a secret source (lines 358-369). -/
structure Volume where
  Name : String
  SecretName : String
  DefaultMode : Option Int
  deriving DecidableEq, Repr

/-- Source: corev1.VolumeMount. -/
structure VolumeMount where
  Name : String
  MountPath : String
  deriving DecidableEq, Repr

/-- Source: corev1.ContainerPort. -/
structure ContainerPort where
  ContainerPort : Int
  Protocol : String
  deriving DecidableEq, Repr

/-- Source: corev1.SecurityContext (lines 397-412). -/
structure SecurityContext where
  RunAsNonRoot : Option Bool
  RunAsUser : Option Int
  RunAsGroup : Option Int
  deriving DecidableEq, Repr

/-- Source: corev1.Probe with a TCP socket handler (lines 442-450). -/
structure Probe where
  TCPSocketPort : Int
  InitialDelaySeconds : Int
  PeriodSeconds : Int
  deriving DecidableEq, Repr

/-- Source: corev1.Container. -/
structure Container where
  Image : String
  Name : String
  ImagePullPolicy : String
  SecurityContext : Option SecurityContext
  Ports : List ContainerPort
  Command : List String
  VolumeMounts : List VolumeMount
  ReadinessProbe : Option Probe
  deriving DecidableEq, Repr

/-- Source: corev1.PodSpec. -/
structure PodSpec where
  Volumes : List Volume
  InitContainers : List Container
  Containers : List Container
  deriving DecidableEq, Repr

/-- Source: corev1.PodTemplateSpec. -/
structure PodTemplateSpec where
  Labels : Labels
  Spec : PodSpec
  deriving DecidableEq, Repr

/-- Source: appsv1.StatefulSetSpec; Replicas is a pointer in Go, MatchLabels
stands for Selector.MatchLabels. -/
structure StatefulSetSpec where
  Replicas : Option Int
  MatchLabels : Labels
  VolumeClaimTemplates : List PersistentVolumeClaim
  Template : PodTemplateSpec
  deriving DecidableEq, Repr

/-- Source: appsv1.StatefulSet. -/
structure StatefulSet where
  Name : String
  Namespace : String
  OwnerReferences : List OwnerReference
  Spec : StatefulSetSpec
  deriving DecidableEq, Repr

/-- Modelled from the spec: ctrl.SetControllerReference
(sigs.k8s.io/controller-runtime, not under src/). The owner check rejects a
namespaced owner of a cluster-scoped or foreign-namespace object; the kind
HanaExpress is registered with the scheme (hanaexpress_types.go:84-86), and the
freshly built object has no controller yet, so the reference is appended. -/
def SetControllerReference (owner : HanaExpress) (controlled : StatefulSet) :
    Except GoError StatefulSet :=
  if owner.Namespace ≠ "" ∧ controlled.Namespace = "" then
    Except.error
      { reason := none
        text := "cluster-scoped resource must not have a namespace-scoped owner, owner's namespace "
          ++ owner.Namespace }
  else if owner.Namespace ≠ "" ∧ owner.Namespace ≠ controlled.Namespace then
    Except.error
      { reason := none
        text := "cross-namespace owner references are disallowed, owner's namespace "
          ++ owner.Namespace ++ ", obj's namespace " ++ controlled.Namespace }
  else
    Except.ok
      { controlled with
        OwnerReferences := controlled.OwnerReferences ++
          [ { APIVersion := "db.sap-redhat.io/v1alpha1", Kind := "HanaExpress",
              Name := owner.Name, UID := owner.UID,
              Controller := some true, BlockOwnerDeletion := some true } ] }

/-- Source: statefulSetForHanaExpress (lines 276-464). The labels are computed
first, so their panic precedes the image lookup error. -/
def statefulSetForHanaExpress (env : Environ) (hanaExpress : HanaExpress) :
    Go (Except GoError StatefulSet) :=
  match labelsForHanaExpress env hanaExpress.Name with
  | Go.panic msg => Go.panic msg
  | Go.ok ls =>
    let replicas : Int := 1
    match imageForHanaExpress env with
    | Except.error err => Go.ok (Except.error err)
    | Except.ok image =>
      let sts : StatefulSet :=
        { Name := hanaExpress.Name
          Namespace := hanaExpress.Namespace
          OwnerReferences := []
          Spec :=
            { Replicas := some replicas
              MatchLabels := ls
              VolumeClaimTemplates :=
                [ { Name := "data"
                    AccessModes := ["ReadWriteOnce"]
                    Requests := [("storage", resourceQuantity hanaExpress.Spec.PVCSize)] } ]
              Template :=
                { Labels := ls
                  Spec :=
                    { Volumes :=
                        [ { Name := "hxepasswd"
                            SecretName := hanaExpress.Spec.Credential.Name
                            DefaultMode := some 329 } ]
                      InitContainers :=
                        [ { Image := "registry.access.redhat.com/ubi8/ubi:8.5-239.1651231664"
                            Name := "set-data-dir-ownership"
                            ImagePullPolicy := ""
                            SecurityContext := none
                            Ports := []
                            Command :=
                              ["sh", "-c",
                               "cp /tmp/mounts/* /hana/mounts && chown -R 12000:79 /hana/mounts"]
                            VolumeMounts :=
                              [ { Name := "hxepasswd", MountPath := "/tmp/mounts" },
                                { Name := "data", MountPath := "/hana/mounts" } ]
                            ReadinessProbe := none } ]
                      Containers :=
                        [ { Image := image
                            Name := "hana-express"
                            ImagePullPolicy := "IfNotPresent"
                            SecurityContext :=
                              some { RunAsNonRoot := some true
                                     RunAsUser := some 12000
                                     RunAsGroup := some 79 }
                            Ports :=
                              [ { ContainerPort := 39017, Protocol := "TCP" },
                                { ContainerPort := 39041, Protocol := "TCP" },
                                { ContainerPort := 59031, Protocol := "TCP" },
                                { ContainerPort := 8090, Protocol := "TCP" } ]
                            Command :=
                              ["/run_hana", "--passwords-url",
                               "file:///hana/mounts/hxepasswd.json", "--agree-to-sap-license"]
                            VolumeMounts :=
                              [ { Name := "hxepasswd", MountPath := "/tmp/mounts" },
                                { Name := "data", MountPath := "/hana/mounts" } ]
                            ReadinessProbe :=
                              some { TCPSocketPort := 39017
                                     InitialDelaySeconds := 10
                                     PeriodSeconds := 5 } } ] } } } }
      match SetControllerReference hanaExpress sts with
      | Except.error err => Go.ok (Except.error err)
      | Except.ok sts1 => Go.ok (Except.ok sts1)

-- ===========================================================================
-- The backing store, the event recorder and the clock
-- ===========================================================================

/-- Source: types.NamespacedName, the identifier carried by a request. -/
structure NamespacedName where
  Namespace : String
  Name : String
  deriving DecidableEq, Repr

/-- Key under which the store keeps a parent resource. -/
def HanaExpress.key (o : HanaExpress) : NamespacedName :=
  { Namespace := o.Namespace, Name := o.Name }

/-- Key under which the store keeps a child workload. -/
def StatefulSet.key (o : StatefulSet) : NamespacedName :=
  { Namespace := o.Namespace, Name := o.Name }

/-- Read of the object stored under a key. -/
def storeGet {α : Type} (keyOf : α → NamespacedName) (xs : List α) (key : NamespacedName) :
    Option α :=
  xs.find? (fun o => keyOf o == key)

/-- Replacement of the object stored under the key of `obj`; a store without
such an object is left as it is. -/
def storePut {α : Type} (keyOf : α → NamespacedName) : List α → α → List α
  | [], _ => []
  | x :: rest, obj =>
    if keyOf x = keyOf obj then obj :: rest else x :: storePut keyOf rest obj

/-- The kinds of call the reconciler makes against the store. -/
inductive Op where
  | getParent
  | updateParent
  | updateStatus
  | getChild
  | createChild
  | updateChild
  deriving DecidableEq, Repr

/-- One entry of the log of calls issued by the reconciler, in program order.
A store call is logged when it is issued, whether or not it succeeds. -/
inductive Call where
  | getParent (key : NamespacedName)
  | updateStatus (obj : HanaExpress)
  | updateParent (obj : HanaExpress)
  | getChild (key : NamespacedName)
  | createChild (obj : StatefulSet)
  | updateChild (obj : StatefulSet)
  | event (obj : HanaExpress) (eventtype reason message : String)
  deriving DecidableEq, Repr

/-- Everything outside the reconciler: the stored parents and children, the
process environment, the failures the store will answer with (by kind of call
and by the number of store calls issued before it), the clock (time read after
a given number of store calls) and the log of calls issued so far. -/
structure World where
  parents : List HanaExpress
  children : List StatefulSet
  env : Environ
  faults : Op → Nat → Option GoError
  clock : Nat → Nat
  calls : Nat
  trace : List Call

/-- The value of time.Now() at the present point of the run. -/
def World.now (w : World) : Nat := w.clock w.calls

/-- Logging of a store call: it counts as one more call issued. -/
def World.issue (w : World) (c : Call) : World :=
  { w with calls := w.calls + 1, trace := w.trace ++ [c] }

/-- The store's answer for an object that does not exist. -/
def notFoundError (key : NamespacedName) : GoError :=
  { reason := some StatusReason.NotFound, text := "resource " ++ key.Name ++ " not found" }

/-- The store's answer for an object that already exists. -/
def alreadyExistsError (key : NamespacedName) : GoError :=
  { reason := some StatusReason.AlreadyExists, text := "resource " ++ key.Name ++ " already exists" }

/-- Modelled from the spec: r.Get on a HanaExpress (client.Client, not under
src/): on success the held copy is replaced by the stored object; a failing
call leaves the held copy as it is. -/
def GetHanaExpress (w : World) (key : NamespacedName) (obj : HanaExpress) :
    Option GoError × HanaExpress × World :=
  let w1 := w.issue (Call.getParent key)
  match w.faults Op.getParent w.calls with
  | some e => (some e, obj, w1)
  | none =>
    match storeGet HanaExpress.key w.parents key with
    | some stored => (none, stored, w1)
    | none => (some (notFoundError key), obj, w1)

/-- Modelled from the spec: r.Update on a HanaExpress (not under src/): the
held copy is stored; the status belongs to the status subresource and keeps its
stored value. The held copy becomes the object as stored. -/
def UpdateHanaExpress (w : World) (obj : HanaExpress) :
    Option GoError × HanaExpress × World :=
  let w1 := w.issue (Call.updateParent obj)
  match w.faults Op.updateParent w.calls with
  | some e => (some e, obj, w1)
  | none =>
    match storeGet HanaExpress.key w.parents obj.key with
    | some stored =>
      let obj1 := { obj with Status := stored.Status }
      (none, obj1, { w1 with parents := storePut HanaExpress.key w.parents obj1 })
    | none => (some (notFoundError obj.key), obj, w1)

/-- Modelled from the spec: r.Status().Update on a HanaExpress (not under
src/): only the status of the held copy is stored. The held copy becomes the
object as stored. -/
def StatusUpdate (w : World) (obj : HanaExpress) :
    Option GoError × HanaExpress × World :=
  let w1 := w.issue (Call.updateStatus obj)
  match w.faults Op.updateStatus w.calls with
  | some e => (some e, obj, w1)
  | none =>
    match storeGet HanaExpress.key w.parents obj.key with
    | some stored =>
      let obj1 := { stored with Status := obj.Status }
      (none, obj1, { w1 with parents := storePut HanaExpress.key w.parents obj1 })
    | none => (some (notFoundError obj.key), obj, w1)

/-- Modelled from the spec: r.Get on a StatefulSet (not under src/). -/
def GetStatefulSet (w : World) (key : NamespacedName) (obj : StatefulSet) :
    Option GoError × StatefulSet × World :=
  let w1 := w.issue (Call.getChild key)
  match w.faults Op.getChild w.calls with
  | some e => (some e, obj, w1)
  | none =>
    match storeGet StatefulSet.key w.children key with
    | some stored => (none, stored, w1)
    | none => (some (notFoundError key), obj, w1)

/-- Modelled from the spec: r.Create on a StatefulSet (not under src/): the
object is added unless one is already stored under its key. -/
def CreateStatefulSet (w : World) (obj : StatefulSet) : Option GoError × World :=
  let w1 := w.issue (Call.createChild obj)
  match w.faults Op.createChild w.calls with
  | some e => (some e, w1)
  | none =>
    match storeGet StatefulSet.key w.children obj.key with
    | some _ => (some (alreadyExistsError obj.key), w1)
    | none => (none, { w1 with children := w.children ++ [obj] })

/-- Modelled from the spec: r.Update on a StatefulSet (not under src/). -/
def UpdateStatefulSet (w : World) (obj : StatefulSet) : Option GoError × World :=
  let w1 := w.issue (Call.updateChild obj)
  match w.faults Op.updateChild w.calls with
  | some e => (some e, w1)
  | none =>
    match storeGet StatefulSet.key w.children obj.key with
    | some _ => (none, { w1 with children := storePut StatefulSet.key w.children obj })
    | none => (some (notFoundError obj.key), w1)

/-- Modelled from the spec: r.Recorder.Event (record.EventRecorder, not under
src/): the notification is logged; it cannot fail and is not a store call. -/
def RecorderEvent (w : World) (obj : HanaExpress) (eventtype reason message : String) : World :=
  { w with trace := w.trace ++ [Call.event obj eventtype reason message] }

-- ===========================================================================
-- Reconcile (controllers/hanaexpress_controller.go:72-273)
-- ===========================================================================

/-- Source: ctrl.Result, the requeue directive; the delay is in nanoseconds. -/
structure Result where
  Requeue : Bool
  RequeueAfter : Nat
  deriving DecidableEq, Repr

/-- The directive ctrl.Result{}: no requeue. -/
def Result.none : Result := { Requeue := false, RequeueAfter := 0 }

/-- The directive ctrl.Result with Requeue set: requeue at once. -/
def Result.immediate : Result := { Requeue := true, RequeueAfter := 0 }

/-- Source: time.Minute, in nanoseconds. -/
def Minute : Nat := 60 * 1000000000

/-- What a call of Reconcile ends in: a returned directive with an optional
error, or a run-time panic. -/
inductive Outcome where
  | returned (res : Result) (err : Option GoError)
  | panicked (msg : String)
  deriving DecidableEq, Repr

/-- How a block of Reconcile ends: with a return statement, or by falling
through to the next block with the held copy of the parent. -/
inductive Flow where
  | ret (o : Outcome)
  | next (hanaExpress : HanaExpress)
  deriving DecidableEq, Repr

/-- A condition literal as written in the source: type, status, reason and
message are given, the other fields are zero. -/
def newCondition (condType : String) (status : ConditionStatus) (reason message : String) :
    Condition :=
  { CondType := condType, Status := status, ObservedGeneration := 0, LastTransitionTime := 0,
    Reason := reason, Message := message }

/-- The condition written at line 88. -/
def condStarting : Condition :=
  newCondition typeAvailableHanaExpress ConditionStatus.ConditionUnknown "Reconciling"
    "Starting reconciliation"

/-- The condition written at lines 127-129. -/
def condFinalizing (name : String) : Condition :=
  newCondition typeDegradedHanaExpress ConditionStatus.ConditionUnknown "Finalizing"
    ("Performing finalizer operations for the custom resource: " ++ name ++ " ")

/-- The condition written at lines 149-151. -/
def condFinalized (name : String) : Condition :=
  newCondition typeDegradedHanaExpress ConditionStatus.ConditionTrue "Finalizing"
    ("Finalizer operations for custom resource " ++ name ++
      " name were successfully accomplished")

/-- The condition written at lines 182-184. -/
def condCreateFailed (name : String) (err : GoError) : Condition :=
  newCondition typeAvailableHanaExpress ConditionStatus.ConditionFalse "Reconciling"
    ("Failed to create StatefulSet for the custom resource (" ++ name ++ "): (" ++ err.text ++ ")")

/-- The condition written at lines 225-227. -/
def condResizeFailed (name : String) (err : GoError) : Condition :=
  newCondition typeAvailableHanaExpress ConditionStatus.ConditionFalse "Resizing"
    ("Failed to update the size for the custom resource (" ++ name ++ "): (" ++ err.text ++ ")")

/-- The condition written at lines 243-245. -/
def condAvailable (name : String) (size : Int) : Condition :=
  newCondition typeAvailableHanaExpress ConditionStatus.ConditionTrue "Reconciling"
    ("StatefulSet for custom resource (" ++ name ++ ") with " ++ toString size ++
      " replicas created successfully")

/-- The statement meta.SetStatusCondition(&hanaExpress.Status.Conditions, c). -/
def setCondition (w : World) (hanaExpress : HanaExpress) (c : Condition) : HanaExpress :=
  { hanaExpress with
    Status := { Conditions := SetStatusCondition w.now hanaExpress.Status.Conditions c } }

/-- Source: doFinalizerOperationsForHanaExpress (lines 256-273). -/
def doFinalizerOperationsForHanaExpress (w : World) (cr : HanaExpress) : World :=
  RecorderEvent w cr "Warning" "Deleting"
    ("Custom Resource " ++ cr.Name ++ " is being deleted from the namespace " ++ cr.Namespace)

/-- Source: Reconcile, lines 86-98: a parent without conditions is stamped
Available=Unknown, its status is written and the parent is fetched again. -/
def Reconcile_initStatus (w : World) (req : NamespacedName) (hanaExpress : HanaExpress) :
    Flow × World :=
  if hanaExpress.Status.Conditions.isEmpty then
    let h1 := setCondition w hanaExpress condStarting
    match StatusUpdate w h1 with
    | (some err, _, w1) => (Flow.ret (Outcome.returned Result.none (some err)), w1)
    | (none, h2, w1) =>
      match GetHanaExpress w1 req h2 with
      | (some err, _, w2) => (Flow.ret (Outcome.returned Result.none (some err)), w2)
      | (none, h3, w2) => (Flow.next h3, w2)
  else (Flow.next hanaExpress, w)

/-- Source: Reconcile, lines 100-118: when the finalizer is absent it is added
to the held copy, the parent is fetched again and the held copy is written. -/
def Reconcile_addFinalizer (w : World) (req : NamespacedName) (hanaExpress : HanaExpress) :
    Flow × World :=
  if !ContainsFinalizer hanaExpress hanaExpressFinalizer then
    match AddFinalizer hanaExpress hanaExpressFinalizer with
    | (false, _) => (Flow.ret (Outcome.returned Result.immediate none), w)
    | (true, h1) =>
      match GetHanaExpress w req h1 with
      | (some err, _, w1) => (Flow.ret (Outcome.returned Result.none (some err)), w1)
      | (none, h2, w1) =>
        match UpdateHanaExpress w1 h2 with
        | (some err, _, w2) => (Flow.ret (Outcome.returned Result.none (some err)), w2)
        | (none, h3, w2) => (Flow.next h3, w2)
  else (Flow.next hanaExpress, w)

/-- Source: Reconcile, lines 120-170, the branch taken when the deletion
timestamp is set. -/
def Reconcile_finalize (w : World) (req : NamespacedName) (hanaExpress : HanaExpress) :
    Outcome × World :=
  if ContainsFinalizer hanaExpress hanaExpressFinalizer then
    let h1 := setCondition w hanaExpress (condFinalizing hanaExpress.Name)
    match StatusUpdate w h1 with
    | (some err, _, w1) => (Outcome.returned Result.none (some err), w1)
    | (none, h2, w1) =>
      let w2 := doFinalizerOperationsForHanaExpress w1 h2
      match GetHanaExpress w2 req h2 with
      | (some err, _, w3) => (Outcome.returned Result.none (some err), w3)
      | (none, h3, w3) =>
        let h4 := setCondition w3 h3 (condFinalized h3.Name)
        match StatusUpdate w3 h4 with
        | (some err, _, w4) => (Outcome.returned Result.none (some err), w4)
        | (none, h5, w4) =>
          match RemoveFinalizer h5 hanaExpressFinalizer with
          | (false, _) => (Outcome.returned Result.immediate none, w4)
          | (true, h6) =>
            match UpdateHanaExpress w4 h6 with
            | (some err, _, w5) => (Outcome.returned Result.none (some err), w5)
            | (none, _, w5) => (Outcome.returned Result.none none, w5)
  else (Outcome.returned Result.none none, w)

/-- The zero value of StatefulSet, as allocated by &appsv1.StatefulSet{}. -/
def StatefulSet.zero : StatefulSet :=
  { Name := "", Namespace := "", OwnerReferences := [],
    Spec := { Replicas := none, MatchLabels := [], VolumeClaimTemplates := [],
              Template := { Labels := [], Spec := { Volumes := [], InitContainers := [],
                                                    Containers := [] } } } }

/-- Source: Reconcile, lines 172-253, the branch of a parent that is not being
deleted: create the child when absent, set its replica count to 1 when it
differs, record Available=True otherwise. -/
def Reconcile_statefulSet (w : World) (req : NamespacedName) (hanaExpress : HanaExpress) :
    Outcome × World :=
  match GetStatefulSet w { Namespace := hanaExpress.Namespace, Name := hanaExpress.Name }
      StatefulSet.zero with
  | (some err, _, w1) =>
    if IsNotFound err then
      match statefulSetForHanaExpress w1.env hanaExpress with
      | Go.panic msg => (Outcome.panicked msg, w1)
      | Go.ok (Except.error err1) =>
        let h1 := setCondition w1 hanaExpress (condCreateFailed hanaExpress.Name err1)
        match StatusUpdate w1 h1 with
        | (some err2, _, w2) => (Outcome.returned Result.none (some err2), w2)
        | (none, _, w2) => (Outcome.returned Result.none (some err1), w2)
      | Go.ok (Except.ok sts) =>
        match CreateStatefulSet w1 sts with
        | (some err1, w2) => (Outcome.returned Result.none (some err1), w2)
        | (none, w2) =>
          (Outcome.returned { Requeue := false, RequeueAfter := Minute } none, w2)
    else (Outcome.returned Result.none (some err), w1)
  | (none, found, w1) =>
    let size : Int := 1
    match found.Spec.Replicas with
    | none => (Outcome.panicked "invalid memory address or nil pointer dereference", w1)
    | some replicas =>
      if replicas ≠ size then
        let found1 := { found with Spec := { found.Spec with Replicas := some size } }
        match UpdateStatefulSet w1 found1 with
        | (some err, w2) =>
          match GetHanaExpress w2 req hanaExpress with
          | (some err1, _, w3) => (Outcome.returned Result.none (some err1), w3)
          | (none, h1, w3) =>
            let h2 := setCondition w3 h1 (condResizeFailed h1.Name err)
            match StatusUpdate w3 h2 with
            | (some err2, _, w4) => (Outcome.returned Result.none (some err2), w4)
            | (none, _, w4) => (Outcome.returned Result.none (some err), w4)
        | (none, w2) => (Outcome.returned Result.immediate none, w2)
      else
        let h1 := setCondition w1 hanaExpress (condAvailable hanaExpress.Name size)
        match StatusUpdate w1 h1 with
        | (some err, _, w2) => (Outcome.returned Result.none (some err), w2)
        | (none, _, w2) => (Outcome.returned Result.none none, w2)

/-- Source: HanaExpressReconciler.Reconcile (lines 72-253). The reconciler's
client, recorder and environment are the world; the request is the identifier
of the parent. -/
def Reconcile (w : World) (req : NamespacedName) : Outcome × World :=
  match GetHanaExpress w req HanaExpress.zero with
  | (some err, _, w1) =>
    if IsNotFound err then (Outcome.returned Result.none none, w1)
    else (Outcome.returned Result.none (some err), w1)
  | (none, h0, w1) =>
    match Reconcile_initStatus w1 req h0 with
    | (Flow.ret o, w2) => (o, w2)
    | (Flow.next h1, w2) =>
      match Reconcile_addFinalizer w2 req h1 with
      | (Flow.ret o, w3) => (o, w3)
      | (Flow.next h2, w3) =>
        if h2.DeletionTimestamp.isSome then Reconcile_finalize w3 req h2
        else Reconcile_statefulSet w3 req h2


-- ===========================================================================
-- Vocabulary of the statements
-- ===========================================================================

/-- Every store call succeeds: the store answers no call with an injected
failure (a read of an absent object still answers not-found). -/
def NoFaults (w : World) : Prop := ∀ (op : Op) (n : Nat), w.faults op n = none

/-- The parent as persisted in the store under the identifier. -/
def storedParent (w : World) (req : NamespacedName) : Option HanaExpress :=
  storeGet HanaExpress.key w.parents req

/-- The child workload as persisted in the store under the identifier. -/
def storedChild (w : World) (key : NamespacedName) : Option StatefulSet :=
  storeGet StatefulSet.key w.children key

/-- The world after a successful write of `obj` to the parent store, logged as
the call `c`. -/
def World.stored (w : World) (c : Call) (obj : HanaExpress) : World :=
  { w.issue c with parents := storePut HanaExpress.key w.parents obj }

/-- The calls issued by one run of Reconcile: what the run appended to the
log. -/
def issued (w : World) (req : NamespacedName) : List Call :=
  (Reconcile w req).2.trace.drop w.trace.length

/-- The objects passed to r.Status().Update, in order. -/
def statusWrites (tr : List Call) : List HanaExpress :=
  tr.filterMap (fun c => match c with
    | Call.updateStatus o => some o
    | _ => none)

/-- The objects passed to r.Update on the parent, in order. -/
def parentWrites (tr : List Call) : List HanaExpress :=
  tr.filterMap (fun c => match c with
    | Call.updateParent o => some o
    | _ => none)

/-- The events handed to the recorder, in order: type, reason, message. -/
def events (tr : List Call) : List (String × String × String) :=
  tr.filterMap (fun c => match c with
    | Call.event _ t r m => some (t, r, m)
    | _ => none)

/-- The calls that read or write the child workload, in order. -/
def childCalls (tr : List Call) : List Call :=
  tr.filter (fun c => match c with
    | Call.getChild _ => true
    | Call.createChild _ => true
    | Call.updateChild _ => true
    | _ => false)

/-- The child workloads passed to r.Create, in order. -/
def childCreates (tr : List Call) : List StatefulSet :=
  tr.filterMap (fun c => match c with
    | Call.createChild o => some o
    | _ => none)

/-- The child workloads passed to r.Update, in order. -/
def childUpdates (tr : List Call) : List StatefulSet :=
  tr.filterMap (fun c => match c with
    | Call.updateChild o => some o
    | _ => none)

/-- The status holds a condition of the given type with the given status and
reason (the first entry of that type, the one the library reads). -/
def holdsCondition (o : HanaExpress) (condType : String) (status : ConditionStatus)
    (reason : String) : Prop :=
  ∃ c, FindStatusCondition o.Status.Conditions condType = some c ∧
    c.Status = status ∧ c.Reason = reason

/-- The condition types present in a status, in order. -/
def conditionTypes (o : HanaExpress) : List String :=
  o.Status.Conditions.map (fun c => c.CondType)

/-- Text `sub` occurs inside text `s`. -/
def occursIn (sub s : String) : Prop := sub.data <:+: s.data

/-- Every call of the given kind succeeds. -/
def CallsSucceed (w : World) (op : Op) : Prop := ∀ n, w.faults op n = none

/-- Every call of the given kind fails with the error `e`. -/
def CallFails (w : World) (op : Op) (e : GoError) : Prop := ∀ n, w.faults op n = some e

/-- Every read of the parent and every write of its main resource succeeds, and
the store holds `p` under the identifier. -/
def ParentAt (w : World) (req : NamespacedName) (p : HanaExpress) : Prop :=
  (CallsSucceed w Op.getParent ∧ CallsSucceed w Op.updateParent) ∧
    storeGet HanaExpress.key w.parents req = some p

/-- The world after a successful write to the child store, logged as the
call `c`. -/
def World.childStored (w : World) (c : Call) (cs : List StatefulSet) : World :=
  { w.issue c with children := cs }

/-- The parent as stored and held once lines 75-118 have run without a failing
call: stamped with the starting condition when it had no condition. -/
def stampedParent (w : World) (p : HanaExpress) : HanaExpress :=
  if p.Status.Conditions.isEmpty then
    setCondition (w.issue (Call.getParent p.key)) p condStarting
  else p

/-- The calls issued by lines 75-118 when none of them fails. -/
def fetchCalls (w : World) (req : NamespacedName) (p : HanaExpress) : List Call :=
  [Call.getParent req] ++
  (if p.Status.Conditions.isEmpty then
    [Call.updateStatus (stampedParent w p), Call.getParent req] else []) ++
  (if ContainsFinalizer p hanaExpressFinalizer then []
    else [Call.getParent req, Call.updateParent (stampedParent w p)])

/-- The world once lines 75-118 have run without a failing call. -/
def afterFetch (w : World) (req : NamespacedName) (p : HanaExpress) : World :=
  let w1 := w.issue (Call.getParent req)
  let w2 :=
    if p.Status.Conditions.isEmpty then
      (w1.stored (Call.updateStatus (stampedParent w p)) (stampedParent w p)).issue
        (Call.getParent req)
    else w1
  if ContainsFinalizer p hanaExpressFinalizer then w2
  else (w2.issue (Call.getParent req)).stored (Call.updateParent (stampedParent w p))
    (stampedParent w p)

/-- The parent as written by the first status write of the finalization
(lines 127-134). -/
def finalizingParent (w : World) (p : HanaExpress) : HanaExpress :=
  setCondition w p (condFinalizing p.Name)

/-- The world in which the second condition of the finalization is set: after
the first status write, the event and the fetch (lines 131-147). -/
def finalizingWorld (w : World) (req : NamespacedName) (p : HanaExpress) : World :=
  (RecorderEvent
    (w.stored (Call.updateStatus (finalizingParent w p)) (finalizingParent w p))
    (finalizingParent w p) "Warning" "Deleting"
    ("Custom Resource " ++ p.Name ++ " is being deleted from the namespace " ++
      p.Namespace)).issue (Call.getParent req)

/-- The parent as written by the second status write of the finalization
(lines 149-156). -/
def finalizedStatus (w : World) (req : NamespacedName) (p : HanaExpress) : HanaExpress :=
  setCondition (finalizingWorld w req p) (finalizingParent w p) (condFinalized p.Name)

/-- The parent as written by the last write of the finalization, the marker
removed (lines 158-167). -/
def finalizedParent (w : World) (req : NamespacedName) (p : HanaExpress) : HanaExpress :=
  { finalizedStatus w req p with
    Finalizers := p.Finalizers.filter (fun e => !(e == hanaExpressFinalizer)) }

-- ===========================================================================
-- Concrete inputs
-- ===========================================================================

/-- A freshly created parent: live, no finalizer, no status. -/
def exParent : HanaExpress :=
  { Name := "hxe", Namespace := "db", UID := "uid-1", DeletionTimestamp := none,
    Finalizers := [],
    Spec := { PVCSize := "10Gi", Credential := { Name := "hxe-secret", Key := "password" } },
    Status := { Conditions := [] } }

/-- The identifier of `exParent`. -/
def exReq : NamespacedName := { Namespace := "db", Name := "hxe" }

/-- An environment in which HANAEXPRESS_IMAGE has the given value, if any. -/
def exEnv (image : Option String) : Environ :=
  fun k => if k = "HANAEXPRESS_IMAGE" then image else none

/-- A world whose store answers every call, holding the given parents and
children. -/
def exWorld (parents : List HanaExpress) (children : List StatefulSet)
    (image : Option String) : World :=
  { parents := parents, children := children, env := exEnv image,
    faults := fun _ _ => none, clock := fun n => 1000 + n, calls := 0, trace := [] }

/-- The value a label map holds under a key. -/
def labelValue (ls : Go Labels) (key : String) : Option String :=
  match ls with
  | Go.ok l => l.lookup key
  | Go.panic _ => none

/-- A parent for which deletion has been requested while it carries the
finalizer. -/
def exDeleting : HanaExpress :=
  { exParent with DeletionTimestamp := some 5, Finalizers := [hanaExpressFinalizer] }

/-- A parent for which deletion has been requested and whose finalizer has been
removed. -/
def exRemoved : HanaExpress :=
  { exParent with DeletionTimestamp := some 5 }

/-- A live parent that carries the finalizer and an Available condition. -/
def exActive : HanaExpress :=
  { exParent with
    Finalizers := [hanaExpressFinalizer]
    Status := { Conditions :=
      [ { CondType := "Available", Status := ConditionStatus.ConditionUnknown,
          ObservedGeneration := 0, LastTransitionTime := 7, Reason := "Reconciling",
          Message := "Starting reconciliation" } ] } }

/-- A live parent whose status holds a Progressing condition and no Available
condition. -/
def exProgressing : HanaExpress :=
  { exParent with
    Finalizers := [hanaExpressFinalizer]
    Status := { Conditions :=
      [ { CondType := "Progressing", Status := ConditionStatus.ConditionTrue,
          ObservedGeneration := 0, LastTransitionTime := 7, Reason := "Rollout",
          Message := "rollout in progress" } ] } }

/-- A stored child workload of `exParent` with the given replica count. -/
def exChild (replicas : Int) : StatefulSet :=
  { StatefulSet.zero with
    Name := "hxe", Namespace := "db",
    Spec := { StatefulSet.zero.Spec with Replicas := some replicas } }

/-- A failure of the backing store that is not a not-found answer. -/
def exInternalError : GoError :=
  { reason := some StatusReason.InternalError, text := "etcdserver: request timed out" }

/-- The world `exWorld` in which every call of the kind `op` fails with
`exInternalError`. -/
def exFaultyWorld (op : Op) (parents : List HanaExpress) (children : List StatefulSet)
    (image : Option String) : World :=
  { exWorld parents children image with
    faults := fun o _ => if o = op then some exInternalError else none }

/-- A world from which a run of Reconcile without a failing call changes
neither the condition types nor the child workload: the stored parent `q`
holds an Available condition and is either marked for deletion without the
marker, or live with a child that is absent and cannot be built, or live with a
child whose replica count is 1 or unset. -/
def Settled (w : World) (req : NamespacedName) (q : HanaExpress) : Prop :=
  storedParent w req = some q ∧ typeAvailableHanaExpress ∈ conditionTypes q ∧
  ((q.DeletionTimestamp.isSome = true ∧ ContainsFinalizer q hanaExpressFinalizer = false) ∨
   (q.DeletionTimestamp = none ∧
     ((storedChild w q.key = none ∧
        (w.env "HANAEXPRESS_IMAGE" = none ∨
          ∃ image, w.env "HANAEXPRESS_IMAGE" = some image ∧ ':' ∉ image.data)) ∨
      (∃ c, storedChild w q.key = some c ∧
        (c.Spec.Replicas = none ∨ c.Spec.Replicas = some 1)))))

/-- A stretch of the call log that writes no parent carrying the finalizer and
emits no event. -/
def Quiet (tr : List Call) : Prop :=
  (∀ o ∈ parentWrites tr, ContainsFinalizer o hanaExpressFinalizer = false) ∧
  (∀ o ∈ statusWrites tr, ContainsFinalizer o hanaExpressFinalizer = false) ∧
  events tr = []

/-- The world `W` extends the log of `w` by a quiet stretch and stores, under
the identifier, a parent that is marked for deletion and does not carry the
finalizer. -/
def QuietStep (w W : World) (req : NamespacedName) : Prop :=
  (∃ tr, W.trace = w.trace ++ tr ∧ Quiet tr) ∧
  (∃ q, storeGet HanaExpress.key W.parents req = some q ∧
    ContainsFinalizer q hanaExpressFinalizer = false ∧ q.DeletionTimestamp.isSome = true)

/-- The number of store calls issued by lines 75-118 when none of them fails:
the initial read, the stamp write and the fetch after it for a parent without
conditions, the fetch and the write of lines 109-114 for a parent without the
marker. -/
def fetchLength (p : HanaExpress) : Nat :=
  1 + (if p.Status.Conditions.isEmpty then 2 else 0) +
    (if ContainsFinalizer p hanaExpressFinalizer then 0 else 2)

/-- Each store call issued by lines 75-118 succeeds, call by call: the initial
read; for a parent without conditions the stamp write and the fetch after it;
for a parent without the marker the fetch and the write of lines 109-114.
Nothing is assumed of any later call. -/
def FetchSucceeds (w : World) (p : HanaExpress) : Prop :=
  w.faults Op.getParent w.calls = none ∧
  (p.Status.Conditions.isEmpty = true →
    w.faults Op.updateStatus (w.calls + 1) = none ∧
    w.faults Op.getParent (w.calls + 2) = none) ∧
  (ContainsFinalizer p hanaExpressFinalizer = false →
    w.faults Op.getParent
      (w.calls + 1 + (if p.Status.Conditions.isEmpty then 2 else 0)) = none ∧
    w.faults Op.updateParent
      (w.calls + 2 + (if p.Status.Conditions.isEmpty then 2 else 0)) = none)

/-- A live parent that carries the finalizer and has no condition yet. -/
def exMarked : HanaExpress :=
  { exParent with Finalizers := [hanaExpressFinalizer] }

/-- A version conflict answered by the store. -/
def exConflictError : GoError :=
  { reason := some StatusReason.Conflict,
    text := "the object has been modified; please apply your changes to the latest version" }

/-- A world holding `exMarked` and its child without replica, in which the
replica update fails with `exInternalError` and, of the status writes, only the
one at position 6 of the run fails, with `exConflictError`: the starting stamp
(position 1) succeeds and the write that records the failed update fails. -/
def exRecordingFaultWorld : World :=
  { exWorld [exMarked] [exChild 0] none with
    faults := fun o n =>
      if o = Op.updateChild then some exInternalError
      else if o = Op.updateStatus ∧ n = 6 then some exConflictError
      else none }

-- ===========================================================================
-- The store
-- ===========================================================================

section Store
variable {α : Type} (keyOf : α → NamespacedName)

theorem storeGet_key {xs : List α} {k : NamespacedName} {p : α}
    (h : storeGet keyOf xs k = some p) : keyOf p = k := by
  unfold storeGet at h
  have := List.find?_some h
  simpa using this

theorem storeGet_storePut (xs : List α) (obj : α) (k : NamespacedName) :
    storeGet keyOf (storePut keyOf xs obj) k =
      if k = keyOf obj then (storeGet keyOf xs k).map (fun _ => obj) else storeGet keyOf xs k := by
  induction xs with
  | nil => simp [storePut, storeGet]
  | cons x rest ih =>
    unfold storeGet at ih ⊢
    by_cases hx : keyOf x = keyOf obj
    · by_cases hk : k = keyOf obj
      · simp [storePut, hx, hk, List.find?_cons]
      · have hk2 : ¬ keyOf obj = k := fun h => hk h.symm
        simp [storePut, hx, hk, hk2, List.find?_cons]
    · by_cases hk : k = keyOf obj
      · subst hk
        simp [storePut, hx, List.find?_cons] at ih ⊢
        exact ih
      · by_cases hxk : keyOf x = k
        · simp [storePut, hx, hk, hxk, List.find?_cons]
        · simp [storePut, hx, hk, hxk, List.find?_cons] at ih ⊢
          exact ih

theorem storePut_same {xs : List α} {p : α}
    (h : storeGet keyOf xs (keyOf p) = some p) : storePut keyOf xs p = xs := by
  induction xs with
  | nil => rfl
  | cons x rest ih =>
    unfold storeGet at h ih
    by_cases hx : keyOf x = keyOf p
    · simp [List.find?_cons, hx] at h
      simp [storePut, hx, h]
    · simp [List.find?_cons, hx] at h
      simp [storePut, hx, ih h]

theorem storeGet_append_new {xs : List α} {o : α}
    (h : storeGet keyOf xs (keyOf o) = none) : storeGet keyOf (xs ++ [o]) (keyOf o) = some o := by
  unfold storeGet at h ⊢
  rw [List.find?_append, h]
  simp

theorem storeGet_storePut_self {xs : List α} {obj p : α}
    (h : storeGet keyOf xs (keyOf obj) = some p) :
    storeGet keyOf (storePut keyOf xs obj) (keyOf obj) = some obj := by
  rw [storeGet_storePut, h]; simp

end Store

-- ===========================================================================
-- Fields of the world after a call; parent calls that succeed
-- ===========================================================================

@[simp] theorem issue_parents (w : World) (c : Call) : (w.issue c).parents = w.parents := rfl
@[simp] theorem issue_children (w : World) (c : Call) : (w.issue c).children = w.children := rfl
@[simp] theorem issue_env (w : World) (c : Call) : (w.issue c).env = w.env := rfl
@[simp] theorem issue_trace (w : World) (c : Call) : (w.issue c).trace = w.trace ++ [c] := rfl
@[simp] theorem stored_parents (w : World) (c : Call) (obj : HanaExpress) :
    (w.stored c obj).parents = storePut HanaExpress.key w.parents obj := rfl
@[simp] theorem stored_children (w : World) (c : Call) (obj : HanaExpress) :
    (w.stored c obj).children = w.children := rfl
@[simp] theorem stored_env (w : World) (c : Call) (obj : HanaExpress) :
    (w.stored c obj).env = w.env := rfl
@[simp] theorem stored_trace (w : World) (c : Call) (obj : HanaExpress) :
    (w.stored c obj).trace = w.trace ++ [c] := rfl
@[simp] theorem event_parents (w : World) (obj : HanaExpress) (t r m : String) :
    (RecorderEvent w obj t r m).parents = w.parents := rfl
@[simp] theorem event_children (w : World) (obj : HanaExpress) (t r m : String) :
    (RecorderEvent w obj t r m).children = w.children := rfl
@[simp] theorem event_env (w : World) (obj : HanaExpress) (t r m : String) :
    (RecorderEvent w obj t r m).env = w.env := rfl
@[simp] theorem event_trace (w : World) (obj : HanaExpress) (t r m : String) :
    (RecorderEvent w obj t r m).trace = w.trace ++ [Call.event obj t r m] := rfl

@[simp] theorem setCondition_key (w : World) (h : HanaExpress) (c : Condition) :
    (setCondition w h c).key = h.key := rfl
@[simp] theorem setCondition_Finalizers (w : World) (h : HanaExpress) (c : Condition) :
    (setCondition w h c).Finalizers = h.Finalizers := rfl

@[simp] theorem issue_faults (w : World) (c : Call) : (w.issue c).faults = w.faults := rfl
@[simp] theorem stored_faults (w : World) (c : Call) (obj : HanaExpress) :
    (w.stored c obj).faults = w.faults := rfl
@[simp] theorem event_faults (w : World) (obj : HanaExpress) (t r m : String) :
    (RecorderEvent w obj t r m).faults = w.faults := rfl
@[simp] theorem childStored_faults (w : World) (c : Call) (cs : List StatefulSet) :
    (w.childStored c cs).faults = w.faults := rfl
@[simp] theorem childStored_parents (w : World) (c : Call) (cs : List StatefulSet) :
    (w.childStored c cs).parents = w.parents := rfl
@[simp] theorem childStored_children (w : World) (c : Call) (cs : List StatefulSet) :
    (w.childStored c cs).children = cs := rfl
@[simp] theorem childStored_env (w : World) (c : Call) (cs : List StatefulSet) :
    (w.childStored c cs).env = w.env := rfl
@[simp] theorem childStored_trace (w : World) (c : Call) (cs : List StatefulSet) :
    (w.childStored c cs).trace = w.trace ++ [c] := rfl

theorem NoFaults.calls {w : World} (hf : NoFaults w) (op : Op) : CallsSucceed w op :=
  fun n => hf op n

theorem NoFaults.parentAt {w : World} {req : NamespacedName} {p : HanaExpress}
    (hf : NoFaults w) (hp : storedParent w req = some p) : ParentAt w req p :=
  ⟨⟨hf.calls _, hf.calls _⟩, hp⟩

theorem ParentAt.key {w : World} {req : NamespacedName} {p : HanaExpress}
    (h : ParentAt w req p) : p.key = req := storeGet_key _ h.2

theorem ParentAt.issue {w : World} {req : NamespacedName} {p : HanaExpress}
    (h : ParentAt w req p) (c : Call) : ParentAt (w.issue c) req p := h

theorem ParentAt.event {w : World} {req : NamespacedName} {p : HanaExpress}
    (h : ParentAt w req p) (obj : HanaExpress) (t r m : String) :
    ParentAt (RecorderEvent w obj t r m) req p := h

theorem ParentAt.childStored {w : World} {req : NamespacedName} {p : HanaExpress}
    (h : ParentAt w req p) (c : Call) (cs : List StatefulSet) :
    ParentAt (w.childStored c cs) req p := h

theorem ParentAt.stored {w : World} {req : NamespacedName} {p : HanaExpress}
    (h : ParentAt w req p) (c : Call) {obj : HanaExpress} (hk : obj.key = req) :
    ParentAt (w.stored c obj) req obj := by
  refine ⟨h.1, ?_⟩
  subst hk
  exact storeGet_storePut_self _ h.2

theorem GetHanaExpress_at {w : World} {req : NamespacedName} {p : HanaExpress}
    (h : ParentAt w req p) (obj : HanaExpress) :
    GetHanaExpress w req obj = (none, p, w.issue (Call.getParent req)) := by
  simp [GetHanaExpress, h.1.1 w.calls, h.2]

theorem StatusUpdate_at {w : World} {req : NamespacedName} {p : HanaExpress}
    (h : ParentAt w req p) (hs : CallsSucceed w Op.updateStatus) (w0 : World) (c : Condition) :
    StatusUpdate w (setCondition w0 p c) =
      (none, setCondition w0 p c,
        w.stored (Call.updateStatus (setCondition w0 p c)) (setCondition w0 p c)) := by
  have hk := h.key
  subst hk
  have h2 : storeGet HanaExpress.key w.parents (setCondition w0 p c).key = some p := h.2
  simp only [StatusUpdate, hs w.calls, h2]
  rfl

theorem UpdateHanaExpress_at {w : World} {req : NamespacedName} {p : HanaExpress}
    (h : ParentAt w req p) {o : HanaExpress} (hk : o.key = req)
    (hs : o.Status = p.Status) :
    UpdateHanaExpress w o = (none, o, w.stored (Call.updateParent o) o) := by
  subst hk
  simp only [UpdateHanaExpress, h.1.2 w.calls, h.2, ← hs]
  rfl

@[simp] theorem stampedParent_key (w : World) (p : HanaExpress) :
    (stampedParent w p).key = p.key := by
  unfold stampedParent; split <;> rfl

@[simp] theorem stampedParent_Finalizers (w : World) (p : HanaExpress) :
    (stampedParent w p).Finalizers = p.Finalizers := by
  unfold stampedParent; split <;> rfl

@[simp] theorem stampedParent_DeletionTimestamp (w : World) (p : HanaExpress) :
    (stampedParent w p).DeletionTimestamp = p.DeletionTimestamp := by
  unfold stampedParent; split <;> rfl

@[simp] theorem stampedParent_Name (w : World) (p : HanaExpress) :
    (stampedParent w p).Name = p.Name := by
  unfold stampedParent; split <;> rfl

@[simp] theorem stampedParent_Namespace (w : World) (p : HanaExpress) :
    (stampedParent w p).Namespace = p.Namespace := by
  unfold stampedParent; split <;> rfl

@[simp] theorem stampedParent_Spec (w : World) (p : HanaExpress) :
    (stampedParent w p).Spec = p.Spec := by
  unfold stampedParent; split <;> rfl

@[simp] theorem stampedParent_UID (w : World) (p : HanaExpress) :
    (stampedParent w p).UID = p.UID := by
  unfold stampedParent; split <;> rfl

theorem ContainsFinalizer_stamped (w : World) (p : HanaExpress) (f : String) :
    ContainsFinalizer (stampedParent w p) f = ContainsFinalizer p f := by
  simp [ContainsFinalizer]

/-- Lines 86-98 on a parent that is stored as held. -/
theorem Reconcile_initStatus_at {w : World} {req : NamespacedName} {p : HanaExpress}
    (h : ParentAt w req p)
    (hs : p.Status.Conditions.isEmpty = true → CallsSucceed w Op.updateStatus) :
    Reconcile_initStatus w req p =
      (Flow.next (if p.Status.Conditions.isEmpty then setCondition w p condStarting else p),
        if p.Status.Conditions.isEmpty then
          (w.stored (Call.updateStatus (setCondition w p condStarting))
            (setCondition w p condStarting)).issue (Call.getParent req)
        else w) := by
  unfold Reconcile_initStatus
  by_cases he : p.Status.Conditions.isEmpty
  · simp only [he, if_true]
    rw [StatusUpdate_at h (hs he)]
    simp only []
    rw [GetHanaExpress_at (h.stored _ (by simpa using h.key))]
  · simp only [he, if_false]
    rfl

/-- Lines 100-118 on a parent that is stored as held: the marker added to the
held copy is overwritten by the fetch, and the stored object is written back
as it was. -/
theorem Reconcile_addFinalizer_at {w : World} {req : NamespacedName} {p : HanaExpress}
    (h : ParentAt w req p) :
    Reconcile_addFinalizer w req p =
      (Flow.next p,
        if ContainsFinalizer p hanaExpressFinalizer then w
        else (w.issue (Call.getParent req)).stored (Call.updateParent p) p) := by
  unfold Reconcile_addFinalizer
  by_cases hc : ContainsFinalizer p hanaExpressFinalizer
  · simp [hc]
  · have hc2 : ContainsFinalizer p hanaExpressFinalizer = false := by simpa using hc
    have ha : AddFinalizer p hanaExpressFinalizer =
        (true, { p with Finalizers := p.Finalizers ++ [hanaExpressFinalizer] }) := by
      unfold AddFinalizer
      unfold ContainsFinalizer at hc2
      simp [hc2]
    simp only [hc2, ha]
    rw [GetHanaExpress_at h]
    simp only []
    rw [UpdateHanaExpress_at (h.issue _) h.key rfl]
    simp

/-- Lines 75-118 on a stored parent when the parent calls succeed. -/
theorem Reconcile_fetch {w : World} {req : NamespacedName} {p : HanaExpress}
    (h : ParentAt w req p)
    (hs : p.Status.Conditions.isEmpty = true → CallsSucceed w Op.updateStatus) :
    Reconcile w req =
      if p.DeletionTimestamp.isSome then
        Reconcile_finalize (afterFetch w req p) req (stampedParent w p)
      else Reconcile_statefulSet (afterFetch w req p) req (stampedParent w p) := by
  have hk := h.key
  unfold Reconcile
  rw [GetHanaExpress_at h]
  simp only []
  rw [Reconcile_initStatus_at (h.issue _) hs]
  simp only []
  by_cases he : p.Status.Conditions.isEmpty
  · have hst : stampedParent w p = setCondition (w.issue (Call.getParent req)) p condStarting := by
      simp [stampedParent, he, hk]
    have h2 : ParentAt ((((w.issue (Call.getParent req)).stored
        (Call.updateStatus (stampedParent w p)) (stampedParent w p))).issue (Call.getParent req))
        req (stampedParent w p) :=
      ((h.issue _).stored _ (by simpa using hk)).issue _
    simp only [he, if_true, ← hst]
    rw [Reconcile_addFinalizer_at h2]
    simp only [afterFetch, he, if_true, ContainsFinalizer_stamped, stampedParent_DeletionTimestamp]
  · have hst : stampedParent w p = p := by simp [stampedParent, he]
    have he2 : p.Status.Conditions.isEmpty = false := by simpa using he
    simp only [he2, hst, Bool.false_eq_true, if_false]
    rw [Reconcile_addFinalizer_at (h.issue _)]
    simp only [afterFetch, he, hst]
    by_cases hc : ContainsFinalizer p hanaExpressFinalizer <;> simp [hc]


theorem afterFetch_at {w : World} {req : NamespacedName} {p : HanaExpress}
    (h : ParentAt w req p) : ParentAt (afterFetch w req p) req (stampedParent w p) := by
  have hk := h.key
  have hk2 : (stampedParent w p).key = req := by simpa using hk
  unfold afterFetch
  by_cases he : p.Status.Conditions.isEmpty
  · by_cases hc : ContainsFinalizer p hanaExpressFinalizer
    · simp only [he, hc, if_true]
      exact ((h.issue _).stored _ hk2).issue _
    · simp only [he, hc, if_true, if_false]
      exact ((((h.issue _).stored _ hk2).issue _).issue _).stored _ hk2
  · have hst : stampedParent w p = p := by simp [stampedParent, he]
    by_cases hc : ContainsFinalizer p hanaExpressFinalizer
    · simp only [he, hc, if_true, if_false, hst]
      exact h.issue _
    · simp only [he, hc, if_false, hst]
      exact ((h.issue _).issue _).stored _ hk

@[simp] theorem afterFetch_children (w : World) (req : NamespacedName) (p : HanaExpress) :
    (afterFetch w req p).children = w.children := by
  unfold afterFetch
  by_cases he : p.Status.Conditions.isEmpty <;>
    by_cases hc : ContainsFinalizer p hanaExpressFinalizer <;> simp [he, hc]

@[simp] theorem afterFetch_env (w : World) (req : NamespacedName) (p : HanaExpress) :
    (afterFetch w req p).env = w.env := by
  unfold afterFetch
  by_cases he : p.Status.Conditions.isEmpty <;>
    by_cases hc : ContainsFinalizer p hanaExpressFinalizer <;> simp [he, hc]

@[simp] theorem afterFetch_faults (w : World) (req : NamespacedName) (p : HanaExpress) :
    (afterFetch w req p).faults = w.faults := by
  unfold afterFetch
  by_cases he : p.Status.Conditions.isEmpty <;>
    by_cases hc : ContainsFinalizer p hanaExpressFinalizer <;> simp [he, hc]

theorem afterFetch_trace (w : World) (req : NamespacedName) (p : HanaExpress) :
    (afterFetch w req p).trace = w.trace ++ fetchCalls w req p := by
  unfold afterFetch fetchCalls
  by_cases he : p.Status.Conditions.isEmpty <;>
    by_cases hc : ContainsFinalizer p hanaExpressFinalizer <;> simp [he, hc]

-- ===========================================================================
-- Conditions
-- ===========================================================================

theorem FindStatusCondition_set (now : Nat) (cs : List Condition) (c : Condition) :
    ∃ c1, FindStatusCondition (SetStatusCondition now cs c) c.CondType = some c1 ∧
      c1.Status = c.Status ∧ c1.Reason = c.Reason ∧ c1.Message = c.Message := by
  induction cs with
  | nil =>
    unfold SetStatusCondition FindStatusCondition
    by_cases h0 : c.LastTransitionTime = 0 <;> simp [h0]
  | cons x rest ih =>
    unfold SetStatusCondition
    by_cases hx : x.CondType = c.CondType
    · simp only [hx, if_true]
      refine ⟨mergeCondition now x c, ?_, ?_, rfl, rfl⟩
      · unfold FindStatusCondition
        have : (mergeCondition now x c).CondType = c.CondType := by
          unfold mergeCondition
          by_cases hs : x.Status ≠ c.Status <;> simp [hs, hx]
        simp [List.find?_cons, this]
      · unfold mergeCondition
        by_cases hs : x.Status = c.Status <;> simp [hs]
    · simp only [hx, if_false]
      obtain ⟨c1, h1, h2⟩ := ih
      refine ⟨c1, ?_, h2⟩
      unfold FindStatusCondition at h1 ⊢
      simp [List.find?_cons, hx, h1]

theorem holdsCondition_setCondition (w : World) (h : HanaExpress) (c : Condition) :
    holdsCondition (setCondition w h c) c.CondType c.Status c.Reason := by
  obtain ⟨c1, h1, h2, h3, _⟩ := FindStatusCondition_set w.now h.Status.Conditions c
  exact ⟨c1, h1, h2, h3⟩

theorem map_type_SetStatusCondition (now : Nat) (cs : List Condition) (c : Condition) :
    (SetStatusCondition now cs c).map (fun x => x.CondType) =
      if c.CondType ∈ cs.map (fun x => x.CondType) then cs.map (fun x => x.CondType)
      else cs.map (fun x => x.CondType) ++ [c.CondType] := by
  induction cs with
  | nil =>
    unfold SetStatusCondition
    by_cases h0 : c.LastTransitionTime = 0 <;> simp [h0]
  | cons x rest ih =>
    unfold SetStatusCondition
    by_cases hx : x.CondType = c.CondType
    · have : (mergeCondition now x c).CondType = c.CondType := by
        unfold mergeCondition
        by_cases hs : x.Status ≠ c.Status <;> simp [hs, hx]
      simp [hx, this]
    · have hx2 : ¬ c.CondType = x.CondType := fun h => hx h.symm
      simp only [hx, if_false, List.map_cons, List.mem_cons, hx2, false_or, ih]
      split <;> simp

theorem conditionTypes_setCondition (w : World) (h : HanaExpress) (c : Condition) :
    conditionTypes (setCondition w h c) =
      if c.CondType ∈ conditionTypes h then conditionTypes h
      else conditionTypes h ++ [c.CondType] :=
  map_type_SetStatusCondition w.now h.Status.Conditions c

@[simp] theorem setCondition_DeletionTimestamp (w : World) (h : HanaExpress) (c : Condition) :
    (setCondition w h c).DeletionTimestamp = h.DeletionTimestamp := rfl
@[simp] theorem setCondition_Name (w : World) (h : HanaExpress) (c : Condition) :
    (setCondition w h c).Name = h.Name := rfl
@[simp] theorem setCondition_Namespace (w : World) (h : HanaExpress) (c : Condition) :
    (setCondition w h c).Namespace = h.Namespace := rfl
@[simp] theorem setCondition_Spec (w : World) (h : HanaExpress) (c : Condition) :
    (setCondition w h c).Spec = h.Spec := rfl

theorem ContainsFinalizer_setCondition (w : World) (h : HanaExpress) (c : Condition)
    (f : String) : ContainsFinalizer (setCondition w h c) f = ContainsFinalizer h f := rfl

theorem RemoveFinalizer_of_contains {o : HanaExpress} {f : String}
    (h : ContainsFinalizer o f = true) :
    RemoveFinalizer o f =
      (true, { o with Finalizers := o.Finalizers.filter (fun e => !(e == f)) }) := by
  unfold RemoveFinalizer
  simp only [Prod.mk.injEq, and_true, decide_eq_true_eq]
  unfold ContainsFinalizer at h
  rw [List.any_eq_true] at h
  obtain ⟨x, hx, hxf⟩ := h
  have hlt : (o.Finalizers.filter (fun e => !(e == f))).length < o.Finalizers.length := by
    apply List.length_filter_lt_length_iff_exists.mpr
    exact ⟨x, hx, by simpa using hxf⟩
  omega

theorem ContainsFinalizer_filter (o : HanaExpress) (f : String) :
    ContainsFinalizer { o with Finalizers := o.Finalizers.filter (fun e => !(e == f)) } f
      = false := by
  unfold ContainsFinalizer
  simp [List.any_eq_false]

/-- Lines 120-170 on a stored parent that carries the marker. -/
theorem Reconcile_finalize_at {w : World} {req : NamespacedName} {p : HanaExpress}
    (h : ParentAt w req p) (hs : CallsSucceed w Op.updateStatus) (hfin : ContainsFinalizer p hanaExpressFinalizer = true) :
    ∃ W,
      Reconcile_finalize w req p = (Outcome.returned Result.none none, W) ∧
      W.trace = w.trace ++
        [ Call.updateStatus (finalizingParent w p),
          Call.event (finalizingParent w p) "Warning" "Deleting"
            ("Custom Resource " ++ p.Name ++ " is being deleted from the namespace " ++
              p.Namespace),
          Call.getParent req,
          Call.updateStatus (finalizedStatus w req p),
          Call.updateParent (finalizedParent w req p) ] ∧
      ParentAt W req (finalizedParent w req p) ∧
      W.children = w.children ∧ W.env = w.env ∧ W.faults = w.faults := by
  have hk := h.key
  have hk1 : (finalizingParent w p).key = req := hk
  have hk2 : (finalizedStatus w req p).key = req := hk
  have hk3 : (finalizedParent w req p).key = req := hk
  have h1 : ParentAt (finalizingWorld w req p) req (finalizingParent w p) :=
    (((h.stored (Call.updateStatus (finalizingParent w p)) hk1).event
      (finalizingParent w p) "Warning" "Deleting"
      ("Custom Resource " ++ p.Name ++ " is being deleted from the namespace " ++
        p.Namespace)).issue (Call.getParent req))
  have h2 := h1.stored (Call.updateStatus (finalizedStatus w req p)) hk2
  have e1 := StatusUpdate_at h hs w (condFinalizing p.Name)
  have e2 := GetHanaExpress_at ((h.stored (Call.updateStatus (finalizingParent w p)) hk1).event
      (finalizingParent w p) "Warning" "Deleting"
      ("Custom Resource " ++ p.Name ++ " is being deleted from the namespace " ++
        p.Namespace)) (finalizingParent w p)
  have e3 := StatusUpdate_at h1 hs (finalizingWorld w req p) (condFinalized p.Name)
  have e4 : RemoveFinalizer (finalizedStatus w req p) hanaExpressFinalizer =
      (true, finalizedParent w req p) := RemoveFinalizer_of_contains hfin
  have e5 := UpdateHanaExpress_at h2 hk3 (o := finalizedParent w req p) rfl
  refine ⟨_, ?_, ?_, h2.stored (Call.updateParent (finalizedParent w req p)) hk3, rfl, rfl, rfl⟩
  · unfold Reconcile_finalize
    rw [if_pos hfin]
    simp only []
    erw [e1]
    simp only [doFinalizerOperationsForHanaExpress]
    erw [e2]
    simp only []
    erw [e3]
    simp only []
    erw [e4]
    simp only []
    erw [e5]
  · simp [finalizingWorld]

-- ===========================================================================
-- The split of the image reference and the builder
-- ===========================================================================

theorem splitChars_ne_nil (sep : Char) (l : List Char) : splitChars sep l ≠ [] := by
  cases l with
  | nil => simp [splitChars]
  | cons x xs =>
    unfold splitChars
    by_cases hx : x = sep
    · simp [hx]
    · simp only [hx, if_false]
      split <;> simp

theorem splitChars_of_not_mem {sep : Char} {l : List Char} (h : sep ∉ l) :
    splitChars sep l = [l] := by
  induction l with
  | nil => rfl
  | cons x xs ih =>
    have hx : ¬ x = sep := fun e => h (by simp [e])
    have hxs : sep ∉ xs := fun e => h (by simp [e])
    unfold splitChars
    simp [hx, ih hxs]

theorem splitChars_of_mem {sep : Char} {l : List Char} (h : sep ∈ l) :
    ∃ a b rest, splitChars sep l = a :: b :: rest := by
  induction l with
  | nil => simp at h
  | cons x xs ih =>
    unfold splitChars
    by_cases hx : x = sep
    · simp only [hx, if_true]
      cases hs : splitChars sep xs with
      | nil => exact absurd hs (splitChars_ne_nil sep xs)
      | cons y ys => exact ⟨[], y, ys, rfl⟩
    · have hxs : sep ∈ xs := by
        rcases List.mem_cons.mp h with e | e
        · exact absurd e.symm hx
        · exact e
      obtain ⟨a, b, rest, hab⟩ := ih hxs
      simp only [hx, if_false, hab]
      exact ⟨x :: a, b, rest, rfl⟩

theorem stringsSplit_second_none {image : String} (h : ':' ∉ image.data) :
    (stringsSplit image ':')[1]? = none := by
  simp [stringsSplit, splitChars_of_not_mem h]

theorem stringsSplit_second_some {image : String} (h : ':' ∈ image.data) :
    ∃ tag, (stringsSplit image ':')[1]? = some tag := by
  obtain ⟨a, b, rest, hab⟩ := splitChars_of_mem h
  exact ⟨String.mk b, by simp [stringsSplit, hab]⟩

/-- The error returned by imageForHanaExpress when the variable is unset. -/
theorem imageForHanaExpress_unset {env : Environ} (h : env "HANAEXPRESS_IMAGE" = none) :
    imageForHanaExpress env = Except.error
      { reason := none
        text := "Unable to find HANAEXPRESS_IMAGE environment variable with the image" } := by
  simp only [imageForHanaExpress, h]
  rfl

theorem imageForHanaExpress_set {env : Environ} {image : String}
    (h : env "HANAEXPRESS_IMAGE" = some image) : imageForHanaExpress env = Except.ok image := by
  simp only [imageForHanaExpress, h]

theorem statefulSetForHanaExpress_unset {env : Environ} (p : HanaExpress)
    (h : env "HANAEXPRESS_IMAGE" = none) :
    statefulSetForHanaExpress env p = Go.ok (Except.error
      { reason := none
        text := "Unable to find HANAEXPRESS_IMAGE environment variable with the image" }) := by
  simp only [statefulSetForHanaExpress, labelsForHanaExpress, imageForHanaExpress_unset h]

theorem statefulSetForHanaExpress_untagged {env : Environ} {image : String} (p : HanaExpress)
    (h : env "HANAEXPRESS_IMAGE" = some image) (hc : ':' ∉ image.data) :
    statefulSetForHanaExpress env p = Go.panic "runtime error: index out of range [1]" := by
  simp only [statefulSetForHanaExpress, labelsForHanaExpress, imageForHanaExpress_set h,
    stringsSplit_second_none hc]

theorem statefulSetForHanaExpress_tagged {env : Environ} {image : String} (p : HanaExpress)
    (h : env "HANAEXPRESS_IMAGE" = some image) (hc : ':' ∈ image.data) :
    ∃ sts, statefulSetForHanaExpress env p = Go.ok (Except.ok sts) ∧
      sts.Name = p.Name ∧ sts.Namespace = p.Namespace ∧ sts.Spec.Replicas = some 1 ∧
      sts.Spec.VolumeClaimTemplates =
        [ { Name := "data", AccessModes := ["ReadWriteOnce"],
            Requests := [("storage", resourceQuantity p.Spec.PVCSize)] } ] := by
  obtain ⟨tag, htag⟩ := stringsSplit_second_some hc
  simp only [statefulSetForHanaExpress, labelsForHanaExpress, imageForHanaExpress_set h, htag,
    SetControllerReference]
  by_cases hn : p.Namespace = ""
  · simp [hn]
  · simp [hn]

-- ===========================================================================
-- Calls on the child workload
-- ===========================================================================

theorem GetStatefulSet_ok {w : World} {key : NamespacedName} {c : StatefulSet}
    (hg : CallsSucceed w Op.getChild) (hc : storedChild w key = some c) (obj : StatefulSet) :
    GetStatefulSet w key obj = (none, c, w.issue (Call.getChild key)) := by
  unfold storedChild at hc
  simp [GetStatefulSet, hg w.calls, hc]

theorem GetStatefulSet_absent {w : World} {key : NamespacedName}
    (hg : CallsSucceed w Op.getChild) (hc : storedChild w key = none) (obj : StatefulSet) :
    GetStatefulSet w key obj =
      (some (notFoundError key), obj, w.issue (Call.getChild key)) := by
  unfold storedChild at hc
  simp [GetStatefulSet, hg w.calls, hc]

theorem GetStatefulSet_fault {w : World} {e : GoError} (key : NamespacedName)
    (hg : CallFails w Op.getChild e) (obj : StatefulSet) :
    GetStatefulSet w key obj = (some e, obj, w.issue (Call.getChild key)) := by
  simp [GetStatefulSet, hg w.calls]

theorem CreateStatefulSet_ok {w : World} {obj : StatefulSet}
    (hg : CallsSucceed w Op.createChild) (hc : storedChild w obj.key = none) :
    CreateStatefulSet w obj =
      (none, w.childStored (Call.createChild obj) (w.children ++ [obj])) := by
  unfold storedChild at hc
  simp [CreateStatefulSet, hg w.calls, hc, World.childStored]

theorem CreateStatefulSet_fault {w : World} {e : GoError} (obj : StatefulSet)
    (hg : CallFails w Op.createChild e) :
    CreateStatefulSet w obj = (some e, w.issue (Call.createChild obj)) := by
  simp [CreateStatefulSet, hg w.calls]

theorem UpdateStatefulSet_ok {w : World} {obj c : StatefulSet}
    (hg : CallsSucceed w Op.updateChild) (hc : storedChild w obj.key = some c) :
    UpdateStatefulSet w obj =
      (none, w.childStored (Call.updateChild obj)
        (storePut StatefulSet.key w.children obj)) := by
  unfold storedChild at hc
  simp [UpdateStatefulSet, hg w.calls, hc, World.childStored]

theorem UpdateStatefulSet_fault {w : World} {e : GoError} (obj : StatefulSet)
    (hg : CallFails w Op.updateChild e) :
    UpdateStatefulSet w obj = (some e, w.issue (Call.updateChild obj)) := by
  simp [UpdateStatefulSet, hg w.calls]

theorem IsNotFound_notFoundError (key : NamespacedName) :
    IsNotFound (notFoundError key) = true := by
  simp [IsNotFound, notFoundError]

-- ===========================================================================
-- Lines 172-253, case by case
-- ===========================================================================

/-- The configuration error of an unset HANAEXPRESS_IMAGE. -/
theorem Reconcile_statefulSet_unset {w : World} {req : NamespacedName} {p : HanaExpress}
    (h : ParentAt w req p) (hs : CallsSucceed w Op.updateStatus)
    (hg : CallsSucceed w Op.getChild) (habs : storedChild w p.key = none)
    (henv : w.env "HANAEXPRESS_IMAGE" = none) :
    Reconcile_statefulSet w req p =
      (Outcome.returned Result.none (some
          { reason := none
            text := "Unable to find HANAEXPRESS_IMAGE environment variable with the image" }),
        (w.issue (Call.getChild p.key)).stored
          (Call.updateStatus (setCondition (w.issue (Call.getChild p.key)) p
            (condCreateFailed p.Name
              { reason := none
                text := "Unable to find HANAEXPRESS_IMAGE environment variable with the image" })))
          (setCondition (w.issue (Call.getChild p.key)) p
            (condCreateFailed p.Name
              { reason := none
                text :=
                  "Unable to find HANAEXPRESS_IMAGE environment variable with the image" }))) := by
  unfold Reconcile_statefulSet
  erw [GetStatefulSet_absent hg habs]
  simp only [IsNotFound_notFoundError, if_true]
  erw [statefulSetForHanaExpress_unset p henv]
  simp only []
  erw [StatusUpdate_at (h.issue _) hs]

/-- The panic of an image reference without a colon. -/
theorem Reconcile_statefulSet_untagged {w : World} {req : NamespacedName} {p : HanaExpress}
    {image : String}
    (hg : CallsSucceed w Op.getChild) (habs : storedChild w p.key = none)
    (henv : w.env "HANAEXPRESS_IMAGE" = some image) (hc : ':' ∉ image.data) :
    Reconcile_statefulSet w req p =
      (Outcome.panicked "runtime error: index out of range [1]",
        w.issue (Call.getChild p.key)) := by
  unfold Reconcile_statefulSet
  erw [GetStatefulSet_absent hg habs]
  simp only [IsNotFound_notFoundError, if_true]
  erw [statefulSetForHanaExpress_untagged p henv hc]

/-- The creation of the child workload. -/
theorem Reconcile_statefulSet_create {w : World} {req : NamespacedName} {p : HanaExpress}
    {sts : StatefulSet}
    (hg : CallsSucceed w Op.getChild) (hcr : CallsSucceed w Op.createChild)
    (habs : storedChild w p.key = none)
    (hsts : statefulSetForHanaExpress w.env p = Go.ok (Except.ok sts))
    (hkey : sts.key = p.key) :
    Reconcile_statefulSet w req p =
      (Outcome.returned { Requeue := false, RequeueAfter := Minute } none,
        (w.issue (Call.getChild p.key)).childStored (Call.createChild sts)
          (w.children ++ [sts])) := by
  unfold Reconcile_statefulSet
  erw [GetStatefulSet_absent hg habs]
  simp only [IsNotFound_notFoundError, if_true]
  erw [hsts]
  simp only []
  have hab2 : storedChild (w.issue (Call.getChild p.key)) sts.key = none := by
    rw [hkey]; exact habs
  erw [CreateStatefulSet_ok (w := w.issue (Call.getChild p.key)) hcr hab2]
  rfl

/-- A failing creation: the error is returned, no status is written. -/
theorem Reconcile_statefulSet_create_fault {w : World} {req : NamespacedName} {p : HanaExpress}
    {sts : StatefulSet} {e : GoError}
    (hg : CallsSucceed w Op.getChild) (hcr : CallFails w Op.createChild e)
    (habs : storedChild w p.key = none)
    (hsts : statefulSetForHanaExpress w.env p = Go.ok (Except.ok sts)) :
    Reconcile_statefulSet w req p =
      (Outcome.returned Result.none (some e),
        (w.issue (Call.getChild p.key)).issue (Call.createChild sts)) := by
  unfold Reconcile_statefulSet
  erw [GetStatefulSet_absent hg habs]
  simp only [IsNotFound_notFoundError, if_true]
  erw [hsts]
  simp only []
  erw [CreateStatefulSet_fault (w := w.issue (Call.getChild p.key)) sts hcr]

/-- A failing read of the child: the error is returned, no status is written. -/
theorem Reconcile_statefulSet_get_fault {w : World} {req : NamespacedName} {p : HanaExpress}
    {e : GoError} (hg : CallFails w Op.getChild e) (hne : IsNotFound e = false) :
    Reconcile_statefulSet w req p =
      (Outcome.returned Result.none (some e), w.issue (Call.getChild p.key)) := by
  unfold Reconcile_statefulSet
  erw [GetStatefulSet_fault p.key hg]
  simp [hne]

/-- A stored child without a replica count: the dereference panics. -/
theorem Reconcile_statefulSet_nil {w : World} {req : NamespacedName} {p : HanaExpress}
    {c : StatefulSet}
    (hg : CallsSucceed w Op.getChild) (hc : storedChild w p.key = some c)
    (hr : c.Spec.Replicas = none) :
    Reconcile_statefulSet w req p =
      (Outcome.panicked "invalid memory address or nil pointer dereference",
        w.issue (Call.getChild p.key)) := by
  unfold Reconcile_statefulSet
  erw [GetStatefulSet_ok hg hc]
  simp only [hr]

/-- A replica count other than 1 is set to 1. -/
theorem Reconcile_statefulSet_resize {w : World} {req : NamespacedName} {p : HanaExpress}
    {c : StatefulSet} {r : Int}
    (hg : CallsSucceed w Op.getChild) (hu : CallsSucceed w Op.updateChild)
    (hc : storedChild w p.key = some c) (hr : c.Spec.Replicas = some r) (hne : r ≠ 1) :
    Reconcile_statefulSet w req p =
      (Outcome.returned Result.immediate none,
        (w.issue (Call.getChild p.key)).childStored
          (Call.updateChild { c with Spec := { c.Spec with Replicas := some 1 } })
          (storePut StatefulSet.key w.children
            { c with Spec := { c.Spec with Replicas := some 1 } })) := by
  have hck : c.key = p.key := storeGet_key _ hc
  unfold Reconcile_statefulSet
  erw [GetStatefulSet_ok hg hc]
  simp only [hr, ne_eq, hne, not_false_eq_true, if_true]
  have hc2 : storedChild (w.issue (Call.getChild p.key))
      (StatefulSet.key { c with Spec := { c.Spec with Replicas := some 1 } }) = some c := by
    have : StatefulSet.key { c with Spec := { c.Spec with Replicas := some 1 } } = p.key := hck
    rw [this]; exact hc
  erw [UpdateStatefulSet_ok (w := w.issue (Call.getChild p.key)) hu hc2]
  rfl

/-- A failing replica update: the parent is fetched again, the failure is
recorded and the update error is returned. -/
theorem Reconcile_statefulSet_resize_fault {w : World} {req : NamespacedName} {p : HanaExpress}
    {c : StatefulSet} {r : Int} {e : GoError}
    (h : ParentAt w req p) (hs : CallsSucceed w Op.updateStatus)
    (hg : CallsSucceed w Op.getChild) (hu : CallFails w Op.updateChild e)
    (hc : storedChild w p.key = some c) (hr : c.Spec.Replicas = some r) (hne : r ≠ 1) :
    Reconcile_statefulSet w req p =
      (Outcome.returned Result.none (some e),
        ((((w.issue (Call.getChild p.key)).issue
          (Call.updateChild { c with Spec := { c.Spec with Replicas := some 1 } })).issue
          (Call.getParent req))).stored
          (Call.updateStatus (setCondition
            (((w.issue (Call.getChild p.key)).issue
              (Call.updateChild { c with Spec := { c.Spec with Replicas := some 1 } })).issue
              (Call.getParent req)) p (condResizeFailed p.Name e)))
          (setCondition
            (((w.issue (Call.getChild p.key)).issue
              (Call.updateChild { c with Spec := { c.Spec with Replicas := some 1 } })).issue
              (Call.getParent req)) p (condResizeFailed p.Name e))) := by
  unfold Reconcile_statefulSet
  erw [GetStatefulSet_ok hg hc]
  simp only [hr, ne_eq, hne, not_false_eq_true, if_true]
  erw [UpdateStatefulSet_fault (w := w.issue (Call.getChild p.key)) _ hu]
  simp only []
  erw [GetHanaExpress_at ((h.issue _).issue _)]
  simp only []
  erw [StatusUpdate_at (((h.issue _).issue _).issue _) hs]

/-- A replica count of 1: Available=True is recorded. -/
theorem Reconcile_statefulSet_available {w : World} {req : NamespacedName} {p : HanaExpress}
    {c : StatefulSet}
    (h : ParentAt w req p) (hs : CallsSucceed w Op.updateStatus)
    (hg : CallsSucceed w Op.getChild)
    (hc : storedChild w p.key = some c) (hr : c.Spec.Replicas = some 1) :
    Reconcile_statefulSet w req p =
      (Outcome.returned Result.none none,
        (w.issue (Call.getChild p.key)).stored
          (Call.updateStatus
            (setCondition (w.issue (Call.getChild p.key)) p (condAvailable p.Name 1)))
          (setCondition (w.issue (Call.getChild p.key)) p (condAvailable p.Name 1))) := by
  unfold Reconcile_statefulSet
  erw [GetStatefulSet_ok hg hc]
  simp only [hr, ne_eq, not_true_eq_false, if_false]
  erw [StatusUpdate_at (h.issue _) hs]

-- ===========================================================================
-- Runs from a settled world
-- ===========================================================================

/-- Lines 75-84 when the store holds no parent under the identifier. -/
theorem Reconcile_absent {w : World} {req : NamespacedName}
    (hg : CallsSucceed w Op.getParent) (hp : storedParent w req = none) :
    Reconcile w req = (Outcome.returned Result.none none, w.issue (Call.getParent req)) := by
  unfold storedParent at hp
  unfold Reconcile
  simp [GetHanaExpress, hg w.calls, hp, IsNotFound_notFoundError]

/-- Lines 120-170 on a parent without the marker: nothing is done. -/
theorem Reconcile_finalize_removed (w : World) (req : NamespacedName) {p : HanaExpress}
    (hfin : ContainsFinalizer p hanaExpressFinalizer = false) :
    Reconcile_finalize w req p = (Outcome.returned Result.none none, w) := by
  unfold Reconcile_finalize
  simp [hfin]

theorem mem_conditionTypes_setCondition {w : World} {h : HanaExpress} {t : String}
    (c : Condition) (ht : t ∈ conditionTypes h) : t ∈ conditionTypes (setCondition w h c) := by
  rw [conditionTypes_setCondition]
  split
  · exact ht
  · exact List.mem_append_left _ ht

theorem type_mem_conditionTypes_setCondition (w : World) (h : HanaExpress) (c : Condition) :
    c.CondType ∈ conditionTypes (setCondition w h c) := by
  rw [conditionTypes_setCondition]
  split
  · assumption
  · simp

theorem conditionTypes_setCondition_of_mem {w : World} {h : HanaExpress} {c : Condition}
    (hc : c.CondType ∈ conditionTypes h) :
    conditionTypes (setCondition w h c) = conditionTypes h := by
  rw [conditionTypes_setCondition, if_pos hc]

theorem available_mem_stamped (w : World) {p : HanaExpress}
    (h : p.Status.Conditions = [] ∨ typeAvailableHanaExpress ∈ conditionTypes p) :
    typeAvailableHanaExpress ∈ conditionTypes (stampedParent w p) := by
  unfold stampedParent
  by_cases he : p.Status.Conditions.isEmpty
  · simp only [he, if_true]
    exact type_mem_conditionTypes_setCondition _ _ condStarting
  · simp only [he]
    rcases h with h | h
    · simp [h] at he
    · exact h

theorem stampedParent_of_available (w : World) {q : HanaExpress}
    (h : typeAvailableHanaExpress ∈ conditionTypes q) : stampedParent w q = q := by
  unfold stampedParent
  have : q.Status.Conditions.isEmpty = false := by
    unfold conditionTypes at h
    cases hq : q.Status.Conditions with
    | nil => rw [hq] at h; simp at h
    | cons x xs => rfl
  simp [this]

theorem fetchCalls_childCreates (w : World) (req : NamespacedName) (p : HanaExpress) :
    childCreates (fetchCalls w req p) = [] := by
  by_cases he : p.Status.Conditions.isEmpty <;>
    by_cases hm : ContainsFinalizer p hanaExpressFinalizer <;>
      simp [childCreates, fetchCalls, he, hm]

theorem fetchCalls_childUpdates (w : World) (req : NamespacedName) (p : HanaExpress) :
    childUpdates (fetchCalls w req p) = [] := by
  by_cases he : p.Status.Conditions.isEmpty <;>
    by_cases hm : ContainsFinalizer p hanaExpressFinalizer <;>
      simp [childUpdates, fetchCalls, he, hm]

theorem childCreates_append (a b : List Call) :
    childCreates (a ++ b) = childCreates a ++ childCreates b := by
  simp [childCreates]

theorem childUpdates_append (a b : List Call) :
    childUpdates (a ++ b) = childUpdates a ++ childUpdates b := by
  simp [childUpdates]

theorem issued_of_run {w W : World} {req : NamespacedName} {o : Outcome} {t : List Call}
    {p : HanaExpress}
    (hR : Reconcile w req = (o, W)) (ht : W.trace = (afterFetch w req p).trace ++ t) :
    issued w req = fetchCalls w req p ++ t := by
  unfold issued
  rw [hR]
  simp only [ht, afterFetch_trace, List.append_assoc, List.drop_left]

/-- A run from a settled world, no call failing, leaves the condition types as
they are and neither creates nor updates the child. -/
theorem Reconcile_settled {w : World} {req : NamespacedName} {q : HanaExpress}
    (hf : NoFaults w) (hs : Settled w req q) :
    (storedParent (Reconcile w req).2 req).map conditionTypes = some (conditionTypes q) ∧
      childCreates (issued w req) = [] ∧ childUpdates (issued w req) = [] := by
  obtain ⟨hp, hav, hcase⟩ := hs
  have hpa := hf.parentAt hp
  have hW := afterFetch_at hpa
  have hsp : stampedParent w q = q := stampedParent_of_available w hav
  rw [hsp] at hW
  have hcs : ∀ op, CallsSucceed (afterFetch w req q) op := fun op n => by
    rw [afterFetch_faults]; exact hf op n
  have hfetch := Reconcile_fetch hpa (fun _ => hf.calls Op.updateStatus)
  rw [hsp] at hfetch
  have key : ∀ (o : Outcome) (W : World) (tr : List Call) (q1 : HanaExpress),
      Reconcile w req = (o, W) → W.trace = (afterFetch w req q).trace ++ tr →
      storeGet HanaExpress.key W.parents req = some q1 →
      conditionTypes q1 = conditionTypes q →
      childCreates tr = [] → childUpdates tr = [] →
      (storedParent (Reconcile w req).2 req).map conditionTypes = some (conditionTypes q) ∧
        childCreates (issued w req) = [] ∧ childUpdates (issued w req) = [] := by
    intro o W tr q1 hR ht hq1 hty hc1 hc2
    have hiss := issued_of_run hR ht
    refine ⟨?_, ?_, ?_⟩
    · rw [hR]; unfold storedParent; simp [hq1, hty]
    · rw [hiss, childCreates_append, fetchCalls_childCreates, hc1]; rfl
    · rw [hiss, childUpdates_append, fetchCalls_childUpdates, hc2]; rfl
  rcases hcase with ⟨hdel, hfin⟩ | ⟨hlive, hchild⟩
  · rw [if_pos hdel, Reconcile_finalize_removed _ _ hfin] at hfetch
    exact key _ _ [] q hfetch (by simp) hW.2 rfl rfl rfl
  · simp only [hlive, Option.isSome_none, Bool.false_eq_true, if_false] at hfetch
    rcases hchild with ⟨hch, henv⟩ | ⟨c, hch, hrep⟩
    · have hch1 : storedChild (afterFetch w req q) q.key = none := by
        unfold storedChild; rw [afterFetch_children]; exact hch
      rcases henv with henv | ⟨image, henv, hc⟩
      · have henv1 : (afterFetch w req q).env "HANAEXPRESS_IMAGE" = none := by
          rw [afterFetch_env]; exact henv
        rw [Reconcile_statefulSet_unset hW (hcs _) (hcs _) hch1 henv1] at hfetch
        exact key _ _ [Call.getChild q.key,
            Call.updateStatus (setCondition ((afterFetch w req q).issue (Call.getChild q.key)) q
              (condCreateFailed q.Name
                { reason := none
                  text :=
                    "Unable to find HANAEXPRESS_IMAGE environment variable with the image" }))]
          _ hfetch (by simp)
          ((hW.issue _).stored _ (show (setCondition _ q _).key = req from hW.key)).2
          (conditionTypes_setCondition_of_mem hav) (by simp [childCreates])
          (by simp [childUpdates])
      · have henv1 : (afterFetch w req q).env "HANAEXPRESS_IMAGE" = some image := by
          rw [afterFetch_env]; exact henv
        rw [Reconcile_statefulSet_untagged (hcs _) hch1 henv1 hc] at hfetch
        exact key _ _ [Call.getChild q.key] q hfetch (by simp) (hW.issue _).2 rfl
          (by simp [childCreates]) (by simp [childUpdates])
    · have hch1 : storedChild (afterFetch w req q) q.key = some c := by
        unfold storedChild; rw [afterFetch_children]; exact hch
      rcases hrep with hrep | hrep
      · rw [Reconcile_statefulSet_nil (hcs _) hch1 hrep] at hfetch
        exact key _ _ [Call.getChild q.key] q hfetch (by simp) (hW.issue _).2 rfl
          (by simp [childCreates]) (by simp [childUpdates])
      · rw [Reconcile_statefulSet_available hW (hcs _) (hcs _) hch1 hrep] at hfetch
        exact key _ _ [Call.getChild q.key,
            Call.updateStatus (setCondition ((afterFetch w req q).issue (Call.getChild q.key)) q
              (condAvailable q.Name 1))]
          _ hfetch (by simp)
          ((hW.issue _).stored _ (show (setCondition _ q _).key = req from hW.key)).2
          (conditionTypes_setCondition_of_mem hav) (by simp [childCreates])
          (by simp [childUpdates])

/-- A run without a failing call, from a world whose parent has no condition or
already holds an Available condition, ends in a settled world whose store still
answers every call. -/
theorem Reconcile_settles {w : World} {req : NamespacedName} {p : HanaExpress}
    (hf : NoFaults w) (hp : storedParent w req = some p)
    (hav : p.Status.Conditions = [] ∨ typeAvailableHanaExpress ∈ conditionTypes p) :
    ∃ q, Settled (Reconcile w req).2 req q ∧ NoFaults (Reconcile w req).2 := by
  have hpa := hf.parentAt hp
  have hW := afterFetch_at hpa
  have hk1 : (stampedParent w p).key = req := hW.key
  have hcs : ∀ op, CallsSucceed (afterFetch w req p) op := fun op n => by
    rw [afterFetch_faults]; exact hf op n
  have havs := available_mem_stamped w hav
  have hfetch := Reconcile_fetch hpa (fun _ => hf.calls Op.updateStatus)
  cases hdel : p.DeletionTimestamp with
  | some t =>
    simp only [hdel, Option.isSome_some, if_true] at hfetch
    have hdel1 : (stampedParent w p).DeletionTimestamp.isSome = true := by simp [hdel]
    by_cases hfin : ContainsFinalizer p hanaExpressFinalizer = true
    · have hfin1 : ContainsFinalizer (stampedParent w p) hanaExpressFinalizer = true := by
        rw [ContainsFinalizer_stamped]; exact hfin
      obtain ⟨W, hrun, -, hWp, -, -, hfl⟩ := Reconcile_finalize_at hW (hcs _) hfin1
      rw [hrun] at hfetch
      rw [hfetch]
      refine ⟨finalizedParent (afterFetch w req p) req (stampedParent w p),
        ⟨hWp.2, ?_, Or.inl ⟨hdel1, ContainsFinalizer_filter _ _⟩⟩, ?_⟩
      · exact mem_conditionTypes_setCondition (w := finalizingWorld (afterFetch w req p) req
          (stampedParent w p)) (condFinalized (stampedParent w p).Name)
          (mem_conditionTypes_setCondition (condFinalizing (stampedParent w p).Name) havs)
      · intro op n
        show W.faults op n = none
        rw [hfl]; exact hcs op n
    · have hfin0 : ContainsFinalizer p hanaExpressFinalizer = false := by simpa using hfin
      have hfin1 : ContainsFinalizer (stampedParent w p) hanaExpressFinalizer = false := by
        rw [ContainsFinalizer_stamped]; exact hfin0
      rw [Reconcile_finalize_removed _ _ hfin1] at hfetch
      rw [hfetch]
      exact ⟨stampedParent w p, ⟨hW.2, havs, Or.inl ⟨hdel1, hfin1⟩⟩, fun op n => hcs op n⟩
  | none =>
    simp only [hdel, Option.isSome_none, Bool.false_eq_true, if_false] at hfetch
    have hlive1 : (stampedParent w p).DeletionTimestamp = none := by simp [hdel]
    cases hch : storedChild (afterFetch w req p) (stampedParent w p).key with
    | none =>
      cases henv : (afterFetch w req p).env "HANAEXPRESS_IMAGE" with
      | none =>
        rw [Reconcile_statefulSet_unset hW (hcs _) (hcs _) hch henv] at hfetch
        rw [hfetch]
        refine ⟨_, ⟨((hW.issue _).stored _ (show (setCondition _ (stampedParent w p) _).key = req
          from hk1)).2, mem_conditionTypes_setCondition _ havs,
          Or.inr ⟨hlive1, Or.inl ⟨hch, Or.inl henv⟩⟩⟩, fun op n => hcs op n⟩
      | some image =>
        by_cases hc : ':' ∈ image.data
        · obtain ⟨sts, hsts, hn, hns, hrep, -⟩ :=
            statefulSetForHanaExpress_tagged (stampedParent w p) henv hc
          have hkey : sts.key = (stampedParent w p).key := by
            simp [StatefulSet.key, HanaExpress.key, hn, hns]
          rw [Reconcile_statefulSet_create (hcs _) (hcs _) hch hsts hkey] at hfetch
          rw [hfetch]
          refine ⟨stampedParent w p, ⟨((hW.issue _).childStored _ _).2, havs,
            Or.inr ⟨hlive1, Or.inr ⟨sts, ?_, Or.inr hrep⟩⟩⟩, fun op n => hcs op n⟩
          unfold storedChild at hch ⊢
          simp only [childStored_children]
          rw [← hkey] at hch ⊢
          exact storeGet_append_new _ hch
        · rw [Reconcile_statefulSet_untagged (hcs _) hch henv hc] at hfetch
          rw [hfetch]
          exact ⟨stampedParent w p, ⟨(hW.issue _).2, havs,
            Or.inr ⟨hlive1, Or.inl ⟨hch, Or.inr ⟨image, henv, hc⟩⟩⟩⟩, fun op n => hcs op n⟩
    | some c =>
      cases hr : c.Spec.Replicas with
      | none =>
        rw [Reconcile_statefulSet_nil (hcs _) hch hr] at hfetch
        rw [hfetch]
        exact ⟨stampedParent w p, ⟨(hW.issue _).2, havs,
          Or.inr ⟨hlive1, Or.inr ⟨c, hch, Or.inl hr⟩⟩⟩, fun op n => hcs op n⟩
      | some r =>
        by_cases h1 : r = 1
        · subst h1
          rw [Reconcile_statefulSet_available hW (hcs _) (hcs _) hch hr] at hfetch
          rw [hfetch]
          exact ⟨_, ⟨((hW.issue _).stored _ (show (setCondition _ (stampedParent w p) _).key = req
            from hk1)).2, mem_conditionTypes_setCondition _ havs,
            Or.inr ⟨hlive1, Or.inr ⟨c, hch, Or.inr hr⟩⟩⟩, fun op n => hcs op n⟩
        · rw [Reconcile_statefulSet_resize (hcs _) (hcs _) hch hr h1] at hfetch
          rw [hfetch]
          have hck : c.key = (stampedParent w p).key := storeGet_key _ hch
          refine ⟨stampedParent w p, ⟨((hW.issue _).childStored _ _).2, havs,
            Or.inr ⟨hlive1, Or.inr ⟨{ c with Spec := { c.Spec with Replicas := some 1 } }, ?_,
              Or.inr rfl⟩⟩⟩, fun op n => hcs op n⟩
          unfold storedChild at hch ⊢
          simp only [childStored_children]
          have hk2 : (stampedParent w p).key =
              StatefulSet.key { c with Spec := { c.Spec with Replicas := some 1 } } := hck.symm
          rw [hk2] at hch ⊢
          exact storeGet_storePut_self _ hch

-- ===========================================================================
-- Store calls that may fail
-- ===========================================================================

theorem GetHanaExpress_cases (w : World) (key : NamespacedName) (obj : HanaExpress)
    {p : HanaExpress} (hp : storeGet HanaExpress.key w.parents key = some p) :
    (∃ e, GetHanaExpress w key obj = (some e, obj, w.issue (Call.getParent key))) ∨
      GetHanaExpress w key obj = (none, p, w.issue (Call.getParent key)) := by
  unfold GetHanaExpress
  cases hfl : w.faults Op.getParent w.calls with
  | some e => exact Or.inl ⟨e, by simp⟩
  | none => exact Or.inr (by simp [hp])

theorem StatusUpdate_cases (w : World) (obj : HanaExpress)
    {p : HanaExpress} (hp : storeGet HanaExpress.key w.parents obj.key = some p) :
    (∃ e, StatusUpdate w obj = (some e, obj, w.issue (Call.updateStatus obj))) ∨
      StatusUpdate w obj =
        (none, { p with Status := obj.Status },
          w.stored (Call.updateStatus obj) { p with Status := obj.Status }) := by
  unfold StatusUpdate
  cases hfl : w.faults Op.updateStatus w.calls with
  | some e => exact Or.inl ⟨e, by simp⟩
  | none => exact Or.inr (by simp [hp, World.stored])

theorem UpdateHanaExpress_cases (w : World) (obj : HanaExpress)
    {p : HanaExpress} (hp : storeGet HanaExpress.key w.parents obj.key = some p) :
    (∃ e, UpdateHanaExpress w obj = (some e, obj, w.issue (Call.updateParent obj))) ∨
      UpdateHanaExpress w obj =
        (none, { obj with Status := p.Status },
          w.stored (Call.updateParent obj) { obj with Status := p.Status }) := by
  unfold UpdateHanaExpress
  cases hfl : w.faults Op.updateParent w.calls with
  | some e => exact Or.inl ⟨e, by simp⟩
  | none => exact Or.inr (by simp [hp, World.stored])

-- ===========================================================================
-- Quiet stretches of the log
-- ===========================================================================

theorem Quiet_nil : Quiet [] := by
  simp [Quiet, parentWrites, statusWrites, events]

theorem Quiet_append {a b : List Call} (ha : Quiet a) (hb : Quiet b) : Quiet (a ++ b) := by
  obtain ⟨a1, a2, a3⟩ := ha
  obtain ⟨b1, b2, b3⟩ := hb
  refine ⟨?_, ?_, ?_⟩
  · intro o ho
    simp only [parentWrites, List.filterMap_append, List.mem_append] at ho
    rcases ho with ho | ho
    · exact a1 o ho
    · exact b1 o ho
  · intro o ho
    simp only [statusWrites, List.filterMap_append, List.mem_append] at ho
    rcases ho with ho | ho
    · exact a2 o ho
    · exact b2 o ho
  · simp only [events, List.filterMap_append] at a3 b3 ⊢
    rw [a3, b3]; rfl

theorem Quiet_getParent (key : NamespacedName) : Quiet [Call.getParent key] := by
  simp [Quiet, parentWrites, statusWrites, events]

theorem Quiet_updateStatus {o : HanaExpress}
    (h : ContainsFinalizer o hanaExpressFinalizer = false) : Quiet [Call.updateStatus o] := by
  simp [Quiet, parentWrites, statusWrites, events, h]

theorem Quiet_updateParent {o : HanaExpress}
    (h : ContainsFinalizer o hanaExpressFinalizer = false) : Quiet [Call.updateParent o] := by
  simp [Quiet, parentWrites, statusWrites, events, h]

theorem QuietStep.trans {w W V : World} {req : NamespacedName}
    (h1 : QuietStep w W req) (h2 : QuietStep W V req) : QuietStep w V req := by
  obtain ⟨⟨t1, e1, q1⟩, -⟩ := h1
  obtain ⟨⟨t2, e2, q2⟩, hs⟩ := h2
  exact ⟨⟨t1 ++ t2, by rw [e2, e1, List.append_assoc], Quiet_append q1 q2⟩, hs⟩

theorem QuietStep_refl {w : World} {req : NamespacedName} {q : HanaExpress}
    (hq : storeGet HanaExpress.key w.parents req = some q)
    (hm : ContainsFinalizer q hanaExpressFinalizer = false)
    (hd : q.DeletionTimestamp.isSome = true) : QuietStep w w req :=
  ⟨⟨[], by simp, Quiet_nil⟩, ⟨q, hq, hm, hd⟩⟩

theorem QuietStep_issue {w : World} {req : NamespacedName} {q : HanaExpress} {c : Call}
    (hq : storeGet HanaExpress.key w.parents req = some q)
    (hm : ContainsFinalizer q hanaExpressFinalizer = false)
    (hd : q.DeletionTimestamp.isSome = true) (hc : Quiet [c]) :
    QuietStep w (w.issue c) req :=
  ⟨⟨[c], rfl, hc⟩, ⟨q, hq, hm, hd⟩⟩

theorem QuietStep_stored {w : World} {req : NamespacedName} {q o : HanaExpress} {c : Call}
    (hq : storeGet HanaExpress.key w.parents req = some q) (hk : o.key = req)
    (hm : ContainsFinalizer o hanaExpressFinalizer = false)
    (hd : o.DeletionTimestamp.isSome = true) (hc : Quiet [c]) :
    QuietStep w (w.stored c o) req := by
  refine ⟨⟨[c], rfl, hc⟩, ⟨o, ?_, hm, hd⟩⟩
  subst hk
  exact storeGet_storePut_self _ hq

/-- Lines 86-98, whatever the store answers, on a stored parent that is marked
for deletion and does not carry the finalizer. -/
theorem Reconcile_initStatus_quiet {w : World} {r : NamespacedName} {p : HanaExpress}
    (hp : storeGet HanaExpress.key w.parents r = some p)
    (hm : ContainsFinalizer p hanaExpressFinalizer = false)
    (hd : p.DeletionTimestamp.isSome = true) :
    ∃ fl W, Reconcile_initStatus w r p = (fl, W) ∧ QuietStep w W r ∧
      ∀ h, fl = Flow.next h → storeGet HanaExpress.key W.parents r = some h ∧
        ContainsFinalizer h hanaExpressFinalizer = false ∧ h.DeletionTimestamp.isSome = true := by
  have hk : p.key = r := storeGet_key _ hp
  unfold Reconcile_initStatus
  by_cases he : p.Status.Conditions.isEmpty
  · simp only [he, if_true]
    have hk1 : (setCondition w p condStarting).key = r := hk
    have hp1 : storeGet HanaExpress.key w.parents (setCondition w p condStarting).key = some p := by
      rw [hk1]; exact hp
    have hq1 : Quiet [Call.updateStatus (setCondition w p condStarting)] :=
      Quiet_updateStatus hm
    rcases StatusUpdate_cases w (setCondition w p condStarting) hp1 with ⟨e, h1⟩ | h1
    · rw [h1]
      exact ⟨_, _, rfl, QuietStep_issue hp hm hd hq1, fun h hh => by simp at hh⟩
    · rw [h1]
      simp only []
      have hs1 : QuietStep w (w.stored (Call.updateStatus (setCondition w p condStarting))
          (setCondition w p condStarting)) r :=
        QuietStep_stored hp hk1 hm hd hq1
      have hst : storeGet HanaExpress.key
          (w.stored (Call.updateStatus (setCondition w p condStarting))
            (setCondition w p condStarting)).parents r
          = some (setCondition w p condStarting) := by
        have := storeGet_storePut_self HanaExpress.key hp1
        rw [hk1] at this
        exact this
      rcases GetHanaExpress_cases (w.stored (Call.updateStatus (setCondition w p condStarting))
          (setCondition w p condStarting)) r (setCondition w p condStarting) hst
        with ⟨e, h2⟩ | h2
      · erw [h2]
        exact ⟨_, _, rfl, hs1.trans (QuietStep_issue hst hm hd (Quiet_getParent r)),
          fun h hh => by simp at hh⟩
      · erw [h2]
        refine ⟨_, _, rfl, hs1.trans (QuietStep_issue hst hm hd (Quiet_getParent r)), ?_⟩
        intro h hh
        simp only [Flow.next.injEq] at hh
        subst hh
        exact ⟨hst, hm, hd⟩
  · simp only [he]
    refine ⟨_, _, rfl, QuietStep_refl hp hm hd, ?_⟩
    intro h hh
    simp only [Flow.next.injEq] at hh
    subst hh
    exact ⟨hp, hm, hd⟩

/-- Lines 100-118, whatever the store answers, on a stored parent that is
marked for deletion and does not carry the finalizer: the object written is
the stored one, without the marker. -/
theorem Reconcile_addFinalizer_quiet {w : World} {req : NamespacedName} {p : HanaExpress}
    (hp : storeGet HanaExpress.key w.parents req = some p)
    (hm : ContainsFinalizer p hanaExpressFinalizer = false)
    (hd : p.DeletionTimestamp.isSome = true) :
    ∃ fl W, Reconcile_addFinalizer w req p = (fl, W) ∧ QuietStep w W req ∧
      ∀ h, fl = Flow.next h → storeGet HanaExpress.key W.parents req = some h ∧
        ContainsFinalizer h hanaExpressFinalizer = false ∧ h.DeletionTimestamp.isSome = true := by
  have hk : p.key = req := storeGet_key _ hp
  have ha : AddFinalizer p hanaExpressFinalizer =
      (true, { p with Finalizers := p.Finalizers ++ [hanaExpressFinalizer] }) := by
    unfold AddFinalizer
    unfold ContainsFinalizer at hm
    simp [hm]
  unfold Reconcile_addFinalizer
  simp only [hm, ha, Bool.not_false, if_true]
  rcases GetHanaExpress_cases w req
      { p with Finalizers := p.Finalizers ++ [hanaExpressFinalizer] } hp with ⟨e, h1⟩ | h1
  · rw [h1]
    exact ⟨_, _, rfl, QuietStep_issue hp hm hd (Quiet_getParent req),
      fun h hh => by simp at hh⟩
  · rw [h1]
    simp only []
    have hs1 : QuietStep w (w.issue (Call.getParent req)) req :=
      QuietStep_issue hp hm hd (Quiet_getParent req)
    have hp1 : storeGet HanaExpress.key (w.issue (Call.getParent req)).parents p.key
        = some p := by rw [hk]; exact hp
    have hp2 : storeGet HanaExpress.key (w.issue (Call.getParent req)).parents req
        = some p := hp
    rcases UpdateHanaExpress_cases (w.issue (Call.getParent req)) p hp1 with ⟨e, h2⟩ | h2
    · rw [h2]
      exact ⟨_, _, rfl, hs1.trans (QuietStep_issue hp2 hm hd (Quiet_updateParent hm)),
        fun h hh => by simp at hh⟩
    · rw [h2]
      refine ⟨_, _, rfl, hs1.trans (QuietStep_stored hp2 hk hm hd (Quiet_updateParent hm)), ?_⟩
      intro h hh
      simp only [Flow.next.injEq] at hh
      subst hh
      refine ⟨?_, hm, hd⟩
      have := storeGet_storePut_self HanaExpress.key hp1
      rw [hk] at this
      exact this

/-- A run on a stored parent that is marked for deletion and does not carry the
finalizer, whatever the store answers: the calls issued are quiet and the
stored parent stays without the marker. -/
theorem Reconcile_quiet {w : World} {req : NamespacedName} {p : HanaExpress}
    (hp : storeGet HanaExpress.key w.parents req = some p)
    (hm : ContainsFinalizer p hanaExpressFinalizer = false)
    (hd : p.DeletionTimestamp.isSome = true) :
    QuietStep w (Reconcile w req).2 req := by
  unfold Reconcile
  have hs0 : QuietStep w (w.issue (Call.getParent req)) req :=
    QuietStep_issue hp hm hd (Quiet_getParent req)
  rcases GetHanaExpress_cases w req HanaExpress.zero hp with ⟨e, h0⟩ | h0
  · rw [h0]
    simp only []
    split <;> exact hs0
  · rw [h0]
    simp only []
    obtain ⟨fl, W1, h1, hs1, hn1⟩ :=
      Reconcile_initStatus_quiet (w := w.issue (Call.getParent req)) (r := req) hp hm hd
    rw [h1]
    cases fl with
    | ret o => exact hs0.trans hs1
    | next h =>
      simp only []
      obtain ⟨hq, hmq, hdq⟩ := hn1 h rfl
      obtain ⟨fl2, W2, h2, hs2, hn2⟩ := Reconcile_addFinalizer_quiet hq hmq hdq
      rw [h2]
      cases fl2 with
      | ret o => exact (hs0.trans hs1).trans hs2
      | next h3 =>
        simp only []
        obtain ⟨-, hm3, hd3⟩ := hn2 h3 rfl
        rw [if_pos hd3, Reconcile_finalize_removed _ _ hm3]
        exact (hs0.trans hs1).trans hs2

-- ===========================================================================
-- Lines 75-118, call by call
-- ===========================================================================

@[simp] theorem issue_calls (w : World) (c : Call) : (w.issue c).calls = w.calls + 1 := rfl
@[simp] theorem stored_calls (w : World) (c : Call) (obj : HanaExpress) :
    (w.stored c obj).calls = w.calls + 1 := rfl
@[simp] theorem childStored_calls (w : World) (c : Call) (cs : List StatefulSet) :
    (w.childStored c cs).calls = w.calls + 1 := rfl
@[simp] theorem event_calls (w : World) (obj : HanaExpress) (t r m : String) :
    (RecorderEvent w obj t r m).calls = w.calls := rfl

theorem GetHanaExpress_pt {w : World} {key : NamespacedName} {p : HanaExpress}
    (hg : w.faults Op.getParent w.calls = none)
    (hp : storeGet HanaExpress.key w.parents key = some p) (obj : HanaExpress) :
    GetHanaExpress w key obj = (none, p, w.issue (Call.getParent key)) := by
  simp [GetHanaExpress, hg, hp]

theorem GetHanaExpress_pt_fault {w : World} {e : GoError} (key : NamespacedName)
    (hg : w.faults Op.getParent w.calls = some e) (obj : HanaExpress) :
    GetHanaExpress w key obj = (some e, obj, w.issue (Call.getParent key)) := by
  simp [GetHanaExpress, hg]

theorem StatusUpdate_pt {w : World} {p : HanaExpress}
    (hs : w.faults Op.updateStatus w.calls = none)
    (hp : storeGet HanaExpress.key w.parents p.key = some p) (w0 : World) (c : Condition) :
    StatusUpdate w (setCondition w0 p c) =
      (none, setCondition w0 p c,
        w.stored (Call.updateStatus (setCondition w0 p c)) (setCondition w0 p c)) := by
  have h2 : storeGet HanaExpress.key w.parents (setCondition w0 p c).key = some p := hp
  simp only [StatusUpdate, hs, h2]
  rfl

theorem StatusUpdate_pt_fault {w : World} {e : GoError} (obj : HanaExpress)
    (hs : w.faults Op.updateStatus w.calls = some e) :
    StatusUpdate w obj = (some e, obj, w.issue (Call.updateStatus obj)) := by
  simp [StatusUpdate, hs]

theorem UpdateHanaExpress_pt {w : World} {p : HanaExpress}
    (hu : w.faults Op.updateParent w.calls = none)
    (hp : storeGet HanaExpress.key w.parents p.key = some p) :
    UpdateHanaExpress w p = (none, p, w.stored (Call.updateParent p) p) := by
  simp only [UpdateHanaExpress, hu, hp]
  rfl

theorem storeGet_stored {w : World} {p o : HanaExpress} (c : Call)
    (hp : storeGet HanaExpress.key w.parents o.key = some p) :
    storeGet HanaExpress.key (w.stored c o).parents o.key = some o :=
  storeGet_storePut_self _ hp

/-- Lines 86-98 on a parent that is stored as held, when the stamp write and the
fetch after it succeed. -/
theorem Reconcile_initStatus_pt {w : World} {req : NamespacedName} {p : HanaExpress}
    (hp : storeGet HanaExpress.key w.parents req = some p)
    (hs : p.Status.Conditions.isEmpty = true →
      w.faults Op.updateStatus w.calls = none ∧ w.faults Op.getParent (w.calls + 1) = none) :
    Reconcile_initStatus w req p =
      (Flow.next (if p.Status.Conditions.isEmpty then setCondition w p condStarting else p),
        if p.Status.Conditions.isEmpty then
          (w.stored (Call.updateStatus (setCondition w p condStarting))
            (setCondition w p condStarting)).issue (Call.getParent req)
        else w) := by
  have hk : p.key = req := storeGet_key _ hp
  subst hk
  unfold Reconcile_initStatus
  by_cases he : p.Status.Conditions.isEmpty
  · obtain ⟨h1, h2⟩ := hs he
    simp only [he, if_true]
    rw [StatusUpdate_pt h1 hp]
    simp only []
    have hst : storeGet HanaExpress.key
        (w.stored (Call.updateStatus (setCondition w p condStarting))
          (setCondition w p condStarting)).parents p.key
        = some (setCondition w p condStarting) :=
      storeGet_stored (o := setCondition w p condStarting) _ hp
    rw [GetHanaExpress_pt (w := w.stored (Call.updateStatus (setCondition w p condStarting))
      (setCondition w p condStarting)) h2 hst]
  · simp only [he, if_false]
    rfl

/-- Lines 100-118 on a parent that is stored as held, when the fetch and the
write succeed. -/
theorem Reconcile_addFinalizer_pt {w : World} {req : NamespacedName} {p : HanaExpress}
    (hp : storeGet HanaExpress.key w.parents req = some p)
    (hf : ContainsFinalizer p hanaExpressFinalizer = false →
      w.faults Op.getParent w.calls = none ∧ w.faults Op.updateParent (w.calls + 1) = none) :
    Reconcile_addFinalizer w req p =
      (Flow.next p,
        if ContainsFinalizer p hanaExpressFinalizer then w
        else (w.issue (Call.getParent req)).stored (Call.updateParent p) p) := by
  have hk : p.key = req := storeGet_key _ hp
  subst hk
  unfold Reconcile_addFinalizer
  by_cases hc : ContainsFinalizer p hanaExpressFinalizer
  · simp [hc]
  · have hc2 : ContainsFinalizer p hanaExpressFinalizer = false := by simpa using hc
    obtain ⟨h1, h2⟩ := hf hc2
    have ha : AddFinalizer p hanaExpressFinalizer =
        (true, { p with Finalizers := p.Finalizers ++ [hanaExpressFinalizer] }) := by
      unfold AddFinalizer
      unfold ContainsFinalizer at hc2
      simp [hc2]
    simp only [hc2, ha]
    rw [GetHanaExpress_pt h1 hp]
    simp only []
    rw [UpdateHanaExpress_pt (w := w.issue (Call.getParent p.key)) h2 hp]
    simp

theorem afterFetch_calls (w : World) (req : NamespacedName) (p : HanaExpress) :
    (afterFetch w req p).calls = w.calls + fetchLength p := by
  unfold afterFetch fetchLength
  by_cases he : p.Status.Conditions.isEmpty <;>
    by_cases hc : ContainsFinalizer p hanaExpressFinalizer <;> simp [he, hc]

theorem afterFetch_stored {w : World} {req : NamespacedName} {p : HanaExpress}
    (hp : storeGet HanaExpress.key w.parents req = some p) :
    storeGet HanaExpress.key (afterFetch w req p).parents req = some (stampedParent w p) := by
  have hk : p.key = req := storeGet_key _ hp
  subst hk
  have hk2 : (stampedParent w p).key = p.key := stampedParent_key w p
  have h1 : storeGet HanaExpress.key w.parents (stampedParent w p).key = some p := by
    rw [hk2]; exact hp
  have h2 := storeGet_storePut_self HanaExpress.key h1
  have h3 := storeGet_storePut_self HanaExpress.key h2
  rw [hk2] at h2 h3
  unfold afterFetch
  by_cases he : p.Status.Conditions.isEmpty
  · by_cases hc : ContainsFinalizer p hanaExpressFinalizer
    · simp only [he, hc, if_true, issue_parents, stored_parents]; exact h2
    · simp only [he, hc, if_true, if_false, issue_parents, stored_parents]; exact h3
  · have hst : stampedParent w p = p := by simp [stampedParent, he]
    rw [hst] at h2
    by_cases hc : ContainsFinalizer p hanaExpressFinalizer
    · simp only [he, hc, if_true, if_false, issue_parents, hst]; exact hp
    · simp only [he, hc, if_false, issue_parents, stored_parents, hst]; exact h2

/-- Lines 75-118 on a stored parent when each of their calls succeeds. -/
theorem Reconcile_fetch_pt {w : World} {req : NamespacedName} {p : HanaExpress}
    (hp : storeGet HanaExpress.key w.parents req = some p) (hfs : FetchSucceeds w p) :
    Reconcile w req =
      if p.DeletionTimestamp.isSome then
        Reconcile_finalize (afterFetch w req p) req (stampedParent w p)
      else Reconcile_statefulSet (afterFetch w req p) req (stampedParent w p) := by
  have hk : p.key = req := storeGet_key _ hp
  obtain ⟨h0, hs, hf⟩ := hfs
  unfold Reconcile
  rw [GetHanaExpress_pt h0 hp]
  simp only []
  rw [Reconcile_initStatus_pt (w := w.issue (Call.getParent req)) hp
    (fun he => by simpa [Nat.add_assoc] using hs he)]
  simp only []
  by_cases he : p.Status.Conditions.isEmpty
  · have hst : stampedParent w p = setCondition (w.issue (Call.getParent req)) p condStarting := by
      simp [stampedParent, he, hk]
    have hk2 : (stampedParent w p).key = p.key := stampedParent_key w p
    have hp1 : storeGet HanaExpress.key w.parents (stampedParent w p).key = some p := by
      rw [hk2, hk]; exact hp
    have hp2 := storeGet_storePut_self HanaExpress.key hp1
    rw [hk2, hk] at hp2
    simp only [he, if_true, ← hst]
    rw [Reconcile_addFinalizer_pt (w := ((w.issue (Call.getParent req)).stored
        (Call.updateStatus (stampedParent w p)) (stampedParent w p)).issue (Call.getParent req))
      hp2 (fun hc => by
        have := hf (by rw [← ContainsFinalizer_stamped w p]; exact hc)
        simpa [he, Nat.add_assoc] using this)]
    simp only [afterFetch, he, if_true, ContainsFinalizer_stamped, stampedParent_DeletionTimestamp]
  · have hst : stampedParent w p = p := by simp [stampedParent, he]
    have he2 : p.Status.Conditions.isEmpty = false := by simpa using he
    simp only [he2, hst, Bool.false_eq_true, if_false]
    rw [Reconcile_addFinalizer_pt (w := w.issue (Call.getParent req)) hp
      (fun hc => by
        have := hf hc
        simpa [he2, Nat.add_assoc] using this)]
    simp only [afterFetch, he2, hst]
    by_cases hc : ContainsFinalizer p hanaExpressFinalizer <;> simp [hc]

-- ===========================================================================
-- Lines 172-253 when a call on the child fails, call by call
-- ===========================================================================

theorem GetStatefulSet_pt {w : World} {key : NamespacedName} {c : StatefulSet}
    (hg : w.faults Op.getChild w.calls = none) (hc : storedChild w key = some c)
    (obj : StatefulSet) :
    GetStatefulSet w key obj = (none, c, w.issue (Call.getChild key)) := by
  unfold storedChild at hc
  simp [GetStatefulSet, hg, hc]

theorem GetStatefulSet_pt_absent {w : World} {key : NamespacedName}
    (hg : w.faults Op.getChild w.calls = none) (hc : storedChild w key = none)
    (obj : StatefulSet) :
    GetStatefulSet w key obj =
      (some (notFoundError key), obj, w.issue (Call.getChild key)) := by
  unfold storedChild at hc
  simp [GetStatefulSet, hg, hc]

theorem GetStatefulSet_pt_fault {w : World} {e : GoError} (key : NamespacedName)
    (hg : w.faults Op.getChild w.calls = some e) (obj : StatefulSet) :
    GetStatefulSet w key obj = (some e, obj, w.issue (Call.getChild key)) := by
  simp [GetStatefulSet, hg]

theorem CreateStatefulSet_pt_fault {w : World} {e : GoError} (obj : StatefulSet)
    (hg : w.faults Op.createChild w.calls = some e) :
    CreateStatefulSet w obj = (some e, w.issue (Call.createChild obj)) := by
  simp [CreateStatefulSet, hg]

theorem UpdateStatefulSet_pt_fault {w : World} {e : GoError} (obj : StatefulSet)
    (hg : w.faults Op.updateChild w.calls = some e) :
    UpdateStatefulSet w obj = (some e, w.issue (Call.updateChild obj)) := by
  simp [UpdateStatefulSet, hg]

/-- The read of the child fails: the error is returned at once. -/
theorem Reconcile_statefulSet_get_fault_pt {w : World} {req : NamespacedName}
    {p : HanaExpress} {e : GoError}
    (hg : w.faults Op.getChild w.calls = some e) (hne : IsNotFound e = false) :
    Reconcile_statefulSet w req p =
      (Outcome.returned Result.none (some e), w.issue (Call.getChild p.key)) := by
  unfold Reconcile_statefulSet
  erw [GetStatefulSet_pt_fault p.key hg]
  simp [hne]

/-- The creation of the child fails: the error is returned at once. -/
theorem Reconcile_statefulSet_create_fault_pt {w : World} {req : NamespacedName}
    {p : HanaExpress} {sts : StatefulSet} {e : GoError}
    (hg : w.faults Op.getChild w.calls = none)
    (hcr : w.faults Op.createChild (w.calls + 1) = some e)
    (habs : storedChild w p.key = none)
    (hsts : statefulSetForHanaExpress w.env p = Go.ok (Except.ok sts)) :
    Reconcile_statefulSet w req p =
      (Outcome.returned Result.none (some e),
        (w.issue (Call.getChild p.key)).issue (Call.createChild sts)) := by
  unfold Reconcile_statefulSet
  erw [GetStatefulSet_pt_absent hg habs]
  simp only [IsNotFound_notFoundError, if_true]
  erw [hsts]
  simp only []
  erw [CreateStatefulSet_pt_fault (w := w.issue (Call.getChild p.key)) sts hcr]

/-- The replica update fails, the fetch and the status write after it succeed:
the failure is recorded and the update error returned. -/
theorem Reconcile_statefulSet_resize_fault_pt {w : World} {req : NamespacedName}
    {p : HanaExpress} {c : StatefulSet} {r : Int} {e : GoError}
    (hp : storeGet HanaExpress.key w.parents req = some p)
    (hg : w.faults Op.getChild w.calls = none)
    (hu : w.faults Op.updateChild (w.calls + 1) = some e)
    (hgp : w.faults Op.getParent (w.calls + 2) = none)
    (hs : w.faults Op.updateStatus (w.calls + 3) = none)
    (hc : storedChild w p.key = some c) (hr : c.Spec.Replicas = some r) (hne : r ≠ 1) :
    Reconcile_statefulSet w req p =
      (Outcome.returned Result.none (some e),
        ((((w.issue (Call.getChild p.key)).issue
          (Call.updateChild { c with Spec := { c.Spec with Replicas := some 1 } })).issue
          (Call.getParent req))).stored
          (Call.updateStatus (setCondition
            (((w.issue (Call.getChild p.key)).issue
              (Call.updateChild { c with Spec := { c.Spec with Replicas := some 1 } })).issue
              (Call.getParent req)) p (condResizeFailed p.Name e)))
          (setCondition
            (((w.issue (Call.getChild p.key)).issue
              (Call.updateChild { c with Spec := { c.Spec with Replicas := some 1 } })).issue
              (Call.getParent req)) p (condResizeFailed p.Name e))) := by
  have hk : p.key = req := storeGet_key _ hp
  subst hk
  unfold Reconcile_statefulSet
  erw [GetStatefulSet_pt hg hc]
  simp only [hr, ne_eq, hne, not_false_eq_true, if_true]
  erw [UpdateStatefulSet_pt_fault (w := w.issue (Call.getChild p.key)) _ hu]
  simp only []
  erw [GetHanaExpress_pt (w := (w.issue (Call.getChild p.key)).issue
    (Call.updateChild { c with Spec := { c.Spec with Replicas := some 1 } })) hgp hp]
  simp only []
  erw [StatusUpdate_pt (w := ((w.issue (Call.getChild p.key)).issue
    (Call.updateChild { c with Spec := { c.Spec with Replicas := some 1 } })).issue
    (Call.getParent p.key)) hs hp]

/-- The replica update fails and so does the status write that records it: the
error of the status write is returned, nothing is stored. -/
theorem Reconcile_statefulSet_resize_unrecorded_pt {w : World} {req : NamespacedName}
    {p : HanaExpress} {c : StatefulSet} {r : Int} {e e2 : GoError}
    (hp : storeGet HanaExpress.key w.parents req = some p)
    (hg : w.faults Op.getChild w.calls = none)
    (hu : w.faults Op.updateChild (w.calls + 1) = some e)
    (hgp : w.faults Op.getParent (w.calls + 2) = none)
    (hs : w.faults Op.updateStatus (w.calls + 3) = some e2)
    (hc : storedChild w p.key = some c) (hr : c.Spec.Replicas = some r) (hne : r ≠ 1) :
    Reconcile_statefulSet w req p =
      (Outcome.returned Result.none (some e2),
        ((((w.issue (Call.getChild p.key)).issue
          (Call.updateChild { c with Spec := { c.Spec with Replicas := some 1 } })).issue
          (Call.getParent req))).issue
          (Call.updateStatus (setCondition
            (((w.issue (Call.getChild p.key)).issue
              (Call.updateChild { c with Spec := { c.Spec with Replicas := some 1 } })).issue
              (Call.getParent req)) p (condResizeFailed p.Name e)))) := by
  have hk : p.key = req := storeGet_key _ hp
  subst hk
  unfold Reconcile_statefulSet
  erw [GetStatefulSet_pt hg hc]
  simp only [hr, ne_eq, hne, not_false_eq_true, if_true]
  erw [UpdateStatefulSet_pt_fault (w := w.issue (Call.getChild p.key)) _ hu]
  simp only []
  erw [GetHanaExpress_pt (w := (w.issue (Call.getChild p.key)).issue
    (Call.updateChild { c with Spec := { c.Spec with Replicas := some 1 } })) hgp hp]
  simp only []
  erw [StatusUpdate_pt_fault (w := ((w.issue (Call.getChild p.key)).issue
    (Call.updateChild { c with Spec := { c.Spec with Replicas := some 1 } })).issue
    (Call.getParent p.key)) _ hs]

/-- The replica update fails and so does the fetch of the parent after it: the
error of the fetch is returned, no status is written. -/
theorem Reconcile_statefulSet_resize_refetch_pt {w : World} {req : NamespacedName}
    {p : HanaExpress} {c : StatefulSet} {r : Int} {e e3 : GoError}
    (hg : w.faults Op.getChild w.calls = none)
    (hu : w.faults Op.updateChild (w.calls + 1) = some e)
    (hgp : w.faults Op.getParent (w.calls + 2) = some e3)
    (hc : storedChild w p.key = some c) (hr : c.Spec.Replicas = some r) (hne : r ≠ 1) :
    Reconcile_statefulSet w req p =
      (Outcome.returned Result.none (some e3),
        ((w.issue (Call.getChild p.key)).issue
          (Call.updateChild { c with Spec := { c.Spec with Replicas := some 1 } })).issue
          (Call.getParent req)) := by
  unfold Reconcile_statefulSet
  erw [GetStatefulSet_pt hg hc]
  simp only [hr, ne_eq, hne, not_false_eq_true, if_true]
  erw [UpdateStatefulSet_pt_fault (w := w.issue (Call.getChild p.key)) _ hu]
  simp only []
  erw [GetHanaExpress_pt_fault (w := (w.issue (Call.getChild p.key)).issue
    (Call.updateChild { c with Spec := { c.Spec with Replicas := some 1 } })) req hgp]

/-- The read of the child answers not-found, by the store or by an injected
answer, and the creation fails, by an injected answer or because the store
already holds the child: the error of the creation is returned at once. -/
theorem Reconcile_statefulSet_create_fault_any {w : World} {req : NamespacedName}
    {p : HanaExpress} {sts : StatefulSet} {e : GoError}
    (hread : (w.faults Op.getChild w.calls = none ∧ storedChild w p.key = none) ∨
      (∃ e0, w.faults Op.getChild w.calls = some e0 ∧ IsNotFound e0 = true))
    (hsts : statefulSetForHanaExpress w.env p = Go.ok (Except.ok sts))
    (hcr : w.faults Op.createChild (w.calls + 1) = some e ∨
      (w.faults Op.createChild (w.calls + 1) = none ∧
        (∃ c, storedChild w sts.key = some c) ∧ e = alreadyExistsError sts.key)) :
    Reconcile_statefulSet w req p =
      (Outcome.returned Result.none (some e),
        (w.issue (Call.getChild p.key)).issue (Call.createChild sts)) := by
  have hget : ∃ e0, IsNotFound e0 = true ∧
      GetStatefulSet w p.key StatefulSet.zero =
        (some e0, StatefulSet.zero, w.issue (Call.getChild p.key)) := by
    rcases hread with ⟨hg, habs⟩ | ⟨e0, hg, hnf⟩
    · exact ⟨_, IsNotFound_notFoundError _, GetStatefulSet_pt_absent hg habs _⟩
    · exact ⟨e0, hnf, GetStatefulSet_pt_fault _ hg _⟩
  have hcreate : CreateStatefulSet (w.issue (Call.getChild p.key)) sts =
      (some e, (w.issue (Call.getChild p.key)).issue (Call.createChild sts)) := by
    rcases hcr with hf | ⟨hf, ⟨c, hc⟩, he⟩
    · exact CreateStatefulSet_pt_fault (w := w.issue (Call.getChild p.key)) sts hf
    · have hf1 : (w.issue (Call.getChild p.key)).faults Op.createChild
          (w.issue (Call.getChild p.key)).calls = none := hf
      have hc1 : storeGet StatefulSet.key (w.issue (Call.getChild p.key)).children sts.key
          = some c := hc
      simp only [CreateStatefulSet, hf1, hc1, he]
  obtain ⟨e0, hnf, hget⟩ := hget
  unfold Reconcile_statefulSet
  erw [hget]
  simp only [hnf, if_true]
  erw [hsts]
  simp only []
  erw [hcreate]

-- ===========================================================================
-- C1: the finalizer of a live parent
-- ===========================================================================

/-- C1 (behaviour of the code): for every live parent that does not
carry the finalizer, when every store call succeeds, the parent persisted after
Reconcile still does not carry "db.sap-redhat.io/finalizer": the marker is
added to the held copy at line 104, the fetch at line 109 replaces the held
copy by the stored object, and line 114 writes that object back. -/
theorem Reconcile_live_finalizer_not_persisted (w : World) (req : NamespacedName)
    (p : HanaExpress) (hf : NoFaults w) (hp : storedParent w req = some p)
    (hlive : p.DeletionTimestamp = none)
    (hfin : ContainsFinalizer p hanaExpressFinalizer = false) :
    ∃ p1, storedParent (Reconcile w req).2 req = some p1 ∧
      ContainsFinalizer p1 hanaExpressFinalizer = false := by
  have hpa := hf.parentAt hp
  have hk := hpa.key
  have hW := afterFetch_at hpa
  have hcs : ∀ op, CallsSucceed (afterFetch w req p) op := fun op n => by
    rw [afterFetch_faults]; exact hf op n
  have hfin1 : ContainsFinalizer (stampedParent w p) hanaExpressFinalizer = false := by
    rw [ContainsFinalizer_stamped]; exact hfin
  have hk1 : (stampedParent w p).key = req := by simpa using hk
  rw [Reconcile_fetch hpa (fun _ => hf.calls _)]
  simp only [hlive, Option.isSome_none, Bool.false_eq_true, if_false]
  cases hch : storedChild (afterFetch w req p) (stampedParent w p).key with
  | none =>
    cases henv : (afterFetch w req p).env "HANAEXPRESS_IMAGE" with
    | none =>
      rw [Reconcile_statefulSet_unset hW (hcs _) (hcs _) hch henv]
      exact ⟨_, ((hW.issue _).stored _ (show (setCondition _ (stampedParent w p) _).key = req
        from hk1)).2, hfin1⟩
    | some image =>
      by_cases hc : ':' ∈ image.data
      · obtain ⟨sts, hsts, hn, hns, _⟩ :=
          statefulSetForHanaExpress_tagged (stampedParent w p) henv hc
        have hkey : sts.key = (stampedParent w p).key := by
          simp [StatefulSet.key, HanaExpress.key, hn, hns]
        rw [Reconcile_statefulSet_create (hcs _) (hcs _) hch hsts hkey]
        exact ⟨_, ((hW.issue _).childStored _ _).2, hfin1⟩
      · rw [Reconcile_statefulSet_untagged (hcs _) hch henv hc]
        exact ⟨_, (hW.issue _).2, hfin1⟩
  | some c =>
    cases hr : c.Spec.Replicas with
    | none =>
      rw [Reconcile_statefulSet_nil (hcs _) hch hr]
      exact ⟨_, (hW.issue _).2, hfin1⟩
    | some r =>
      by_cases h1 : r = 1
      · subst h1
        rw [Reconcile_statefulSet_available hW (hcs _) (hcs _) hch hr]
        exact ⟨_, ((hW.issue _).stored _ (show (setCondition _ (stampedParent w p) _).key = req
          from hk1)).2, hfin1⟩
      · rw [Reconcile_statefulSet_resize (hcs _) (hcs _) hch hr h1]
        exact ⟨_, ((hW.issue _).childStored _ _).2, hfin1⟩

/-- C1, at the fresh parent `exParent` with a tagged image configured. -/
theorem Reconcile_live_finalizer_not_persisted_witness :
    (NoFaults (exWorld [exParent] [] (some "saplabs/hanaexpress:2.00.061")) ∧
      storedParent (exWorld [exParent] [] (some "saplabs/hanaexpress:2.00.061")) exReq =
        some exParent ∧
      exParent.DeletionTimestamp = none ∧
      ContainsFinalizer exParent hanaExpressFinalizer = false) ∧
    ∃ p1, storedParent (Reconcile (exWorld [exParent] [] (some "saplabs/hanaexpress:2.00.061"))
        exReq).2 exReq = some p1 ∧
      ContainsFinalizer p1 hanaExpressFinalizer = false :=
  ⟨⟨fun _ _ => rfl, by decide, by decide, by decide⟩,
    Reconcile_live_finalizer_not_persisted
      (exWorld [exParent] [] (some "saplabs/hanaexpress:2.00.061")) exReq exParent
      (fun _ _ => rfl) (by decide) (by decide) (by decide)⟩

-- ===========================================================================
-- C2, C3: the version label
-- ===========================================================================

/-- C2 (behaviour of the code): for the image reference
"registry:5000/hana:2.0" labelsForHanaExpress sets "app.kubernetes.io/version"
to "5000/hana", the second element of the split at every colon, and not to
"2.0", the text after the last colon; the instance label is the resource
name. -/
theorem labelsForHanaExpress_registry_port :
    labelValue (labelsForHanaExpress (exEnv (some "registry:5000/hana:2.0")) "hxe")
        "app.kubernetes.io/version" = some "5000/hana" ∧
      labelValue (labelsForHanaExpress (exEnv (some "registry:5000/hana:2.0")) "hxe")
        "app.kubernetes.io/version" ≠ some "2.0" ∧
      labelValue (labelsForHanaExpress (exEnv (some "registry:5000/hana:2.0")) "hxe")
        "app.kubernetes.io/instance" = some "hxe" := by
  decide

/-- C3 (behaviour of the code): for every image reference without a
colon the index 1 into the split result is out of range, so
labelsForHanaExpress panics, and statefulSetForHanaExpress with it; no label
map is returned. -/
theorem labelsForHanaExpress_untagged_panics (env : Environ) (image name : String)
    (p : HanaExpress) (henv : env "HANAEXPRESS_IMAGE" = some image)
    (hc : ':' ∉ image.data) :
    (stringsSplit image ':').length = 1 ∧
      labelsForHanaExpress env name = Go.panic "runtime error: index out of range [1]" ∧
      statefulSetForHanaExpress env p = Go.panic "runtime error: index out of range [1]" := by
  refine ⟨?_, ?_, statefulSetForHanaExpress_untagged p henv hc⟩
  · simp [stringsSplit, splitChars_of_not_mem hc]
  · simp only [labelsForHanaExpress, imageForHanaExpress_set henv, stringsSplit_second_none hc]

/-- C3, at the image reference "saplabs/hanaexpress". -/
theorem labelsForHanaExpress_untagged_panics_witness :
    (stringsSplit "saplabs/hanaexpress" ':').length = 1 ∧
      labelsForHanaExpress (exEnv (some "saplabs/hanaexpress")) "hxe" =
        Go.panic "runtime error: index out of range [1]" ∧
      statefulSetForHanaExpress (exEnv (some "saplabs/hanaexpress")) exParent =
        Go.panic "runtime error: index out of range [1]" :=
  labelsForHanaExpress_untagged_panics (exEnv (some "saplabs/hanaexpress"))
    "saplabs/hanaexpress" "hxe" exParent rfl (by decide)

-- ===========================================================================
-- C4: finalization
-- ===========================================================================

/-- C4: for every parent for which deletion has been requested and which
carries the finalizer, when every store call succeeds, Reconcile returns the
directive none with no error; it emits exactly one event, Warning/Deleting; its
status writes are the starting stamp (only when the parent had no condition)
followed by one with Degraded=Unknown, reason Finalizing, and then one with
Degraded=True, reason Finalizing; its only write of the parent is the object
without the marker, which is what the store holds afterwards; and it issues no
call on the child workload. -/
theorem Reconcile_finalizing (w : World) (req : NamespacedName) (p : HanaExpress)
    (hf : NoFaults w) (hp : storedParent w req = some p)
    (hdel : p.DeletionTimestamp.isSome = true)
    (hfin : ContainsFinalizer p hanaExpressFinalizer = true) :
    (Reconcile w req).1 = Outcome.returned Result.none none ∧
    (∃ msg, events (issued w req) = [("Warning", "Deleting", msg)]) ∧
    (∃ s1 s2,
      statusWrites (issued w req) =
        (if p.Status.Conditions.isEmpty then [stampedParent w p] else []) ++ [s1, s2] ∧
      holdsCondition s1 typeDegradedHanaExpress ConditionStatus.ConditionUnknown "Finalizing" ∧
      holdsCondition s2 typeDegradedHanaExpress ConditionStatus.ConditionTrue "Finalizing") ∧
    (∃ p1, parentWrites (issued w req) = [p1] ∧
      storedParent (Reconcile w req).2 req = some p1 ∧
      ContainsFinalizer p1 hanaExpressFinalizer = false ∧
      p1.Finalizers = p.Finalizers.filter (fun e => !(e == hanaExpressFinalizer)) ∧
      holdsCondition p1 typeDegradedHanaExpress ConditionStatus.ConditionTrue "Finalizing") ∧
    childCalls (issued w req) = [] := by
  have hpa := hf.parentAt hp
  have hW := afterFetch_at hpa
  have hcs : CallsSucceed (afterFetch w req p) Op.updateStatus := fun n => by
    rw [afterFetch_faults]; exact hf _ n
  have hfin1 : ContainsFinalizer (stampedParent w p) hanaExpressFinalizer = true := by
    rw [ContainsFinalizer_stamped]; exact hfin
  obtain ⟨W, hrun, htr, hWp, -, -, -⟩ := Reconcile_finalize_at hW hcs hfin1
  have hR : Reconcile w req = (Outcome.returned Result.none none, W) := by
    rw [Reconcile_fetch hpa (fun _ => hf.calls _), if_pos hdel, hrun]
  have hiss : issued w req = fetchCalls w req p ++
      [ Call.updateStatus (finalizingParent (afterFetch w req p) (stampedParent w p)),
        Call.event (finalizingParent (afterFetch w req p) (stampedParent w p))
          "Warning" "Deleting"
          ("Custom Resource " ++ (stampedParent w p).Name ++
            " is being deleted from the namespace " ++ (stampedParent w p).Namespace),
        Call.getParent req,
        Call.updateStatus (finalizedStatus (afterFetch w req p) req (stampedParent w p)),
        Call.updateParent (finalizedParent (afterFetch w req p) req (stampedParent w p)) ] := by
    unfold issued
    rw [hR]
    simp only [htr, afterFetch_trace, List.append_assoc, List.drop_left]
  have hS1 : holdsCondition (finalizingParent (afterFetch w req p) (stampedParent w p))
      typeDegradedHanaExpress ConditionStatus.ConditionUnknown "Finalizing" :=
    holdsCondition_setCondition _ _ (condFinalizing (stampedParent w p).Name)
  have hS2 : holdsCondition (finalizedStatus (afterFetch w req p) req (stampedParent w p))
      typeDegradedHanaExpress ConditionStatus.ConditionTrue "Finalizing" :=
    holdsCondition_setCondition _ _ (condFinalized (stampedParent w p).Name)
  refine ⟨by rw [hR],
    ⟨"Custom Resource " ++ (stampedParent w p).Name ++
      " is being deleted from the namespace " ++ (stampedParent w p).Namespace, ?_⟩,
    ⟨finalizingParent (afterFetch w req p) (stampedParent w p),
      finalizedStatus (afterFetch w req p) req (stampedParent w p), ?_, hS1, hS2⟩,
    ⟨finalizedParent (afterFetch w req p) req (stampedParent w p), ?_, ?_, ?_, ?_, hS2⟩, ?_⟩
  · rw [hiss]
    by_cases he : p.Status.Conditions.isEmpty <;>
      simp [events, fetchCalls, he, hfin]
  · rw [hiss]
    by_cases he : p.Status.Conditions.isEmpty <;>
      simp [statusWrites, fetchCalls, he, hfin]
  · rw [hiss]
    by_cases he : p.Status.Conditions.isEmpty <;>
      simp [parentWrites, fetchCalls, he, hfin]
  · rw [hR]; exact hWp.2
  · exact ContainsFinalizer_filter _ _
  · simp [finalizedParent]
  · rw [hiss]
    by_cases he : p.Status.Conditions.isEmpty <;>
      simp [childCalls, fetchCalls, he, hfin]

/-- C4, at the parent `exDeleting`. -/
theorem Reconcile_finalizing_witness :
    (NoFaults (exWorld [exDeleting] [] none) ∧
      storedParent (exWorld [exDeleting] [] none) exReq = some exDeleting ∧
      exDeleting.DeletionTimestamp.isSome = true ∧
      ContainsFinalizer exDeleting hanaExpressFinalizer = true) ∧
    (Reconcile (exWorld [exDeleting] [] none) exReq).1 = Outcome.returned Result.none none ∧
    (∃ msg, events (issued (exWorld [exDeleting] [] none) exReq) =
      [("Warning", "Deleting", msg)]) ∧
    childCalls (issued (exWorld [exDeleting] [] none) exReq) = [] :=
  have h := Reconcile_finalizing (exWorld [exDeleting] [] none) exReq exDeleting
    (fun _ _ => rfl) (by decide) (by decide) (by decide)
  ⟨⟨fun _ _ => rfl, by decide, by decide, by decide⟩, h.1, h.2.1, h.2.2.2.2⟩

-- ===========================================================================
-- C5: creation of the child workload
-- ===========================================================================

theorem ParseQuantity_of_pattern {s : String} (h : matchesPVCSizePattern s = true) :
    ParseQuantity s =
      some { amount := digitsValue (s.data.takeWhile Char.isDigit) * 2 ^ 30 } := by
  unfold matchesPVCSizePattern at h
  simp only [Bool.and_eq_true, Bool.not_eq_true', beq_iff_eq] at h
  obtain ⟨h1, h2⟩ := h
  unfold ParseQuantity
  simp only [h1, h2, suffixMultiplier]
  rfl

/-- C5 (behaviour of the code when the image reference has no colon): for
every live parent without a child workload, when every store call
succeeds and HANAEXPRESS_IMAGE resolves to a reference without a colon,
Reconcile panics in labelsForHanaExpress before the child is built: no child is
created and no directive is returned. -/
theorem Reconcile_untagged_image_panics (w : World) (req : NamespacedName) (p : HanaExpress)
    (image : String) (hf : NoFaults w) (hp : storedParent w req = some p)
    (hlive : p.DeletionTimestamp = none) (hch : storedChild w p.key = none)
    (henv : w.env "HANAEXPRESS_IMAGE" = some image) (hc : ':' ∉ image.data) :
    (Reconcile w req).1 = Outcome.panicked "runtime error: index out of range [1]" ∧
      childCreates (issued w req) = [] ∧
      (Reconcile w req).2.children = w.children := by
  have hpa := hf.parentAt hp
  have hcs : ∀ op, CallsSucceed (afterFetch w req p) op := fun op n => by
    rw [afterFetch_faults]; exact hf op n
  have hch1 : storedChild (afterFetch w req p) (stampedParent w p).key = none := by
    unfold storedChild; rw [afterFetch_children, stampedParent_key]; exact hch
  have henv1 : (afterFetch w req p).env "HANAEXPRESS_IMAGE" = some image := by
    rw [afterFetch_env]; exact henv
  have hR : Reconcile w req = (Outcome.panicked "runtime error: index out of range [1]",
      (afterFetch w req p).issue (Call.getChild (stampedParent w p).key)) := by
    rw [Reconcile_fetch hpa (fun _ => hf.calls _)]
    simp only [hlive, Option.isSome_none, Bool.false_eq_true, if_false]
    rw [Reconcile_statefulSet_untagged (hcs _) hch1 henv1 hc]
  refine ⟨by rw [hR], ?_, by rw [hR]; simp⟩
  unfold issued
  rw [hR]
  simp only [issue_trace, afterFetch_trace, List.append_assoc, List.drop_left]
  by_cases he : p.Status.Conditions.isEmpty <;>
    by_cases hm : ContainsFinalizer p hanaExpressFinalizer <;>
      simp [childCreates, fetchCalls, he, hm]

/-- C5, at the fresh parent `exParent` with the image "saplabs/hanaexpress". -/
theorem Reconcile_untagged_image_panics_witness :
    (NoFaults (exWorld [exParent] [] (some "saplabs/hanaexpress")) ∧
      storedParent (exWorld [exParent] [] (some "saplabs/hanaexpress")) exReq = some exParent ∧
      exParent.DeletionTimestamp = none ∧ exParent.Status.Conditions = [] ∧
      matchesPVCSizePattern exParent.Spec.PVCSize = true ∧
      storedChild (exWorld [exParent] [] (some "saplabs/hanaexpress")) exParent.key = none) ∧
    (Reconcile (exWorld [exParent] [] (some "saplabs/hanaexpress")) exReq).1 =
      Outcome.panicked "runtime error: index out of range [1]" ∧
    childCreates (issued (exWorld [exParent] [] (some "saplabs/hanaexpress")) exReq) = [] ∧
    (Reconcile (exWorld [exParent] [] (some "saplabs/hanaexpress")) exReq).2.children = [] :=
  ⟨⟨fun _ _ => rfl, by decide, by decide, by decide, by decide, by decide⟩,
    Reconcile_untagged_image_panics (exWorld [exParent] [] (some "saplabs/hanaexpress")) exReq
      exParent "saplabs/hanaexpress" (fun _ _ => rfl) (by decide) (by decide) (by decide) rfl
      (by decide)⟩

/-- The part of C5 the code meets: for every live parent with no status and no
child workload, a pvcSize of the validated pattern and an image reference that
contains a colon, when every store call succeeds, Reconcile creates exactly one
child, with the parent's name and namespace, one replica and one volume claim
template "data", ReadWriteOnce, sized by the parsed pvcSize; it returns
after(1 minute) with no error and the stored status holds Available=Unknown,
reason Reconciling. -/
theorem Reconcile_creates_child (w : World) (req : NamespacedName) (p : HanaExpress)
    (image : String) (hf : NoFaults w) (hp : storedParent w req = some p)
    (hlive : p.DeletionTimestamp = none) (hst : p.Status.Conditions = [])
    (hch : storedChild w p.key = none)
    (hsize : matchesPVCSizePattern p.Spec.PVCSize = true)
    (henv : w.env "HANAEXPRESS_IMAGE" = some image) (hc : ':' ∈ image.data) :
    (Reconcile w req).1 =
      Outcome.returned { Requeue := false, RequeueAfter := Minute } none ∧
    (∃ sts q, childCreates (issued w req) = [sts] ∧ childUpdates (issued w req) = [] ∧
      sts.Name = p.Name ∧ sts.Namespace = p.Namespace ∧ sts.Spec.Replicas = some 1 ∧
      sts.Spec.VolumeClaimTemplates =
        [ { Name := "data", AccessModes := ["ReadWriteOnce"],
            Requests := [("storage", q)] } ] ∧
      ParseQuantity p.Spec.PVCSize = some q ∧
      storedChild (Reconcile w req).2 p.key = some sts) ∧
    (∃ p1, storedParent (Reconcile w req).2 req = some p1 ∧
      holdsCondition p1 typeAvailableHanaExpress ConditionStatus.ConditionUnknown
        "Reconciling") := by
  have hpa := hf.parentAt hp
  have hW := afterFetch_at hpa
  have hcs : ∀ op, CallsSucceed (afterFetch w req p) op := fun op n => by
    rw [afterFetch_faults]; exact hf op n
  have hch1 : storedChild (afterFetch w req p) (stampedParent w p).key = none := by
    unfold storedChild; rw [afterFetch_children, stampedParent_key]; exact hch
  have henv1 : (afterFetch w req p).env "HANAEXPRESS_IMAGE" = some image := by
    rw [afterFetch_env]; exact henv
  obtain ⟨sts, hsts, hn, hns, hrep, hvct⟩ :=
    statefulSetForHanaExpress_tagged (stampedParent w p) henv1 hc
  have hkey : sts.key = (stampedParent w p).key := by
    simp [StatefulSet.key, HanaExpress.key, hn, hns]
  have hR : Reconcile w req =
      (Outcome.returned { Requeue := false, RequeueAfter := Minute } none,
        ((afterFetch w req p).issue (Call.getChild (stampedParent w p).key)).childStored
          (Call.createChild sts) ((afterFetch w req p).children ++ [sts])) := by
    rw [Reconcile_fetch hpa (fun _ => hf.calls _)]
    simp only [hlive, Option.isSome_none, Bool.false_eq_true, if_false]
    rw [Reconcile_statefulSet_create (hcs _) (hcs _) hch1 hsts hkey]
  have hiss : issued w req = fetchCalls w req p ++
      [Call.getChild (stampedParent w p).key, Call.createChild sts] := by
    unfold issued
    rw [hR]
    simp only [childStored_trace, issue_trace, afterFetch_trace, List.append_assoc,
      List.drop_left, List.singleton_append]
  have he : p.Status.Conditions.isEmpty = true := by simp [hst]
  have hq := ParseQuantity_of_pattern hsize
  refine ⟨by rw [hR], ⟨sts, _, ?_, ?_, by simpa using hn, by simpa using hns, hrep, ?_, hq, ?_⟩,
    ⟨stampedParent w p, ?_, ?_⟩⟩
  · rw [hiss]
    by_cases hm : ContainsFinalizer p hanaExpressFinalizer <;>
      simp [childCreates, fetchCalls, he, hm]
  · rw [hiss]
    by_cases hm : ContainsFinalizer p hanaExpressFinalizer <;>
      simp [childUpdates, fetchCalls, he, hm]
  · rw [hvct]
    simp [resourceQuantity, hq]
  · rw [hR]
    unfold storedChild at hch ⊢
    simp only [childStored_children, afterFetch_children]
    have hk2 : p.key = sts.key := by rw [hkey]; simp
    rw [hk2] at hch ⊢
    exact storeGet_append_new _ hch
  · rw [hR]
    exact ((hW.issue _).childStored _ _).2
  · have : stampedParent w p = setCondition (w.issue (Call.getParent p.key)) p condStarting := by
      simp [stampedParent, he]
    rw [this]
    exact holdsCondition_setCondition _ _ condStarting

/-- The creation of the child, at the fresh parent `exParent` with a tagged
image. -/
theorem Reconcile_creates_child_witness :
    (Reconcile (exWorld [exParent] [] (some "saplabs/hanaexpress:2.00.061")) exReq).1 =
      Outcome.returned { Requeue := false, RequeueAfter := Minute } none :=
  (Reconcile_creates_child (exWorld [exParent] [] (some "saplabs/hanaexpress:2.00.061")) exReq
    exParent "saplabs/hanaexpress:2.00.061" (fun _ _ => rfl) (by decide) (by decide)
    (by decide) (by decide) (by decide) rfl (by decide)).1

-- ===========================================================================
-- C6: the replica count
-- ===========================================================================

/-- C6: for every live parent with a non-empty status whose child workload is
stored with a replica count other than 1, when every store call succeeds,
Reconcile creates no child and updates the child exactly once, with the
observed child in which only the replica count is changed, to 1; it writes no
status, the stored status is the one found, and the directive is immediate
(Requeue set, no delay) with no error. -/
theorem Reconcile_resizes_child (w : World) (req : NamespacedName) (p : HanaExpress)
    (c : StatefulSet) (r : Int) (hf : NoFaults w) (hp : storedParent w req = some p)
    (hlive : p.DeletionTimestamp = none) (hst : p.Status.Conditions ≠ [])
    (hch : storedChild w p.key = some c) (hr : c.Spec.Replicas = some r) (hne : r ≠ 1) :
    (Reconcile w req).1 = Outcome.returned { Requeue := true, RequeueAfter := 0 } none ∧
    childCreates (issued w req) = [] ∧
    childUpdates (issued w req) = [{ c with Spec := { c.Spec with Replicas := some 1 } }] ∧
    storedChild (Reconcile w req).2 p.key =
      some { c with Spec := { c.Spec with Replicas := some 1 } } ∧
    statusWrites (issued w req) = [] ∧
    (∃ p1, storedParent (Reconcile w req).2 req = some p1 ∧
      p1.Status.Conditions = p.Status.Conditions) := by
  have hpa := hf.parentAt hp
  have hW := afterFetch_at hpa
  have hcs : ∀ op, CallsSucceed (afterFetch w req p) op := fun op n => by
    rw [afterFetch_faults]; exact hf op n
  have hch1 : storedChild (afterFetch w req p) (stampedParent w p).key = some c := by
    unfold storedChild; rw [afterFetch_children, stampedParent_key]; exact hch
  have he : p.Status.Conditions.isEmpty = false := by
    cases hcs2 : p.Status.Conditions with
    | nil => exact absurd hcs2 hst
    | cons x xs => rfl
  have hsp : stampedParent w p = p := by simp [stampedParent, he]
  have hR : Reconcile w req =
      (Outcome.returned Result.immediate none,
        ((afterFetch w req p).issue (Call.getChild (stampedParent w p).key)).childStored
          (Call.updateChild { c with Spec := { c.Spec with Replicas := some 1 } })
          (storePut StatefulSet.key (afterFetch w req p).children
            { c with Spec := { c.Spec with Replicas := some 1 } })) := by
    rw [Reconcile_fetch hpa (fun _ => hf.calls _)]
    simp only [hlive, Option.isSome_none, Bool.false_eq_true, if_false]
    rw [Reconcile_statefulSet_resize (hcs _) (hcs _) hch1 hr hne]
  have hiss : issued w req = fetchCalls w req p ++
      [Call.getChild (stampedParent w p).key,
        Call.updateChild { c with Spec := { c.Spec with Replicas := some 1 } }] := by
    unfold issued
    rw [hR]
    simp only [childStored_trace, issue_trace, afterFetch_trace, List.append_assoc,
      List.drop_left, List.singleton_append]
  have hck : c.key = p.key := storeGet_key _ hch
  refine ⟨by rw [hR]; rfl, ?_, ?_, ?_, ?_, ⟨p, ?_, rfl⟩⟩
  · rw [hiss]
    by_cases hm : ContainsFinalizer p hanaExpressFinalizer <;>
      simp [childCreates, fetchCalls, he, hm]
  · rw [hiss]
    by_cases hm : ContainsFinalizer p hanaExpressFinalizer <;>
      simp [childUpdates, fetchCalls, he, hm]
  · rw [hR]
    unfold storedChild at hch ⊢
    simp only [childStored_children, afterFetch_children]
    have hk2 : p.key =
        StatefulSet.key { c with Spec := { c.Spec with Replicas := some 1 } } := hck.symm
    rw [hk2] at hch ⊢
    exact storeGet_storePut_self _ hch
  · rw [hiss]
    by_cases hm : ContainsFinalizer p hanaExpressFinalizer <;>
      simp [statusWrites, fetchCalls, he, hm]
  · rw [hR]
    have := ((hW.issue (Call.getChild (stampedParent w p).key)).childStored
      (Call.updateChild { c with Spec := { c.Spec with Replicas := some 1 } })
      (storePut StatefulSet.key (afterFetch w req p).children
        { c with Spec := { c.Spec with Replicas := some 1 } })).2
    rw [hsp] at this
    exact this

/-- C6, at the parent `exActive` whose child is stored with no replica. -/
theorem Reconcile_resizes_child_witness :
    (NoFaults (exWorld [exActive] [exChild 0] none) ∧
      storedParent (exWorld [exActive] [exChild 0] none) exReq = some exActive ∧
      exActive.DeletionTimestamp = none ∧ exActive.Status.Conditions ≠ [] ∧
      storedChild (exWorld [exActive] [exChild 0] none) exActive.key = some (exChild 0) ∧
      (exChild 0).Spec.Replicas = some 0 ∧ (0 : Int) ≠ 1) ∧
    (Reconcile (exWorld [exActive] [exChild 0] none) exReq).1 =
      Outcome.returned { Requeue := true, RequeueAfter := 0 } none ∧
    childUpdates (issued (exWorld [exActive] [exChild 0] none) exReq) = [exChild 1] ∧
    statusWrites (issued (exWorld [exActive] [exChild 0] none) exReq) = [] :=
  have h := Reconcile_resizes_child (exWorld [exActive] [exChild 0] none) exReq exActive
    (exChild 0) 0 (fun _ _ => rfl) (by decide) (by decide) (by decide) (by decide) rfl
    (by decide)
  ⟨⟨fun _ _ => rfl, by decide, by decide, by decide, by decide, rfl, by decide⟩,
    h.1, h.2.2.1, h.2.2.2.2.1⟩

-- ===========================================================================
-- C7: the missing image configuration
-- ===========================================================================

theorem occursIn_mid (a s b : String) : occursIn s (a ++ s ++ b) := by
  unfold occursIn
  exact ⟨a.data, b.data, by simp [String.data_append]⟩

/-- C7: for every live parent without a child workload, when the lookup of
HANAEXPRESS_IMAGE finds nothing and every store call succeeds, Reconcile
returns the configuration error (not nil) with the directive none, creates no
child, and the stored status holds an Available condition that is False with
reason Reconciling and whose message contains the parent's name and the text of
the returned error. -/
theorem Reconcile_image_unset (w : World) (req : NamespacedName) (p : HanaExpress)
    (hf : NoFaults w) (hp : storedParent w req = some p)
    (hlive : p.DeletionTimestamp = none) (hch : storedChild w p.key = none)
    (henv : w.env "HANAEXPRESS_IMAGE" = none) :
    ∃ err, (Reconcile w req).1 = Outcome.returned Result.none (some err) ∧
      imageForHanaExpress w.env = Except.error err ∧
      childCreates (issued w req) = [] ∧
      (Reconcile w req).2.children = w.children ∧
      ∃ p1 c, storedParent (Reconcile w req).2 req = some p1 ∧
        FindStatusCondition p1.Status.Conditions typeAvailableHanaExpress = some c ∧
        c.Status = ConditionStatus.ConditionFalse ∧ c.Reason = "Reconciling" ∧
        occursIn p.Name c.Message ∧ occursIn err.text c.Message := by
  have hpa := hf.parentAt hp
  have hW := afterFetch_at hpa
  have hcs : ∀ op, CallsSucceed (afterFetch w req p) op := fun op n => by
    rw [afterFetch_faults]; exact hf op n
  have hch1 : storedChild (afterFetch w req p) (stampedParent w p).key = none := by
    unfold storedChild; rw [afterFetch_children, stampedParent_key]; exact hch
  have henv1 : (afterFetch w req p).env "HANAEXPRESS_IMAGE" = none := by
    rw [afterFetch_env]; exact henv
  have hrun := Reconcile_statefulSet_unset hW (hcs _) (hcs _) hch1 henv1
  have hR : Reconcile w req = Reconcile_statefulSet (afterFetch w req p) req
      (stampedParent w p) := by
    rw [Reconcile_fetch hpa (fun _ => hf.calls _)]
    simp only [hlive, Option.isSome_none, Bool.false_eq_true, if_false]
  rw [hrun] at hR
  obtain ⟨c, hc1, hc2, hc3, hc4⟩ := FindStatusCondition_set
    ((afterFetch w req p).issue (Call.getChild (stampedParent w p).key)).now
    (stampedParent w p).Status.Conditions
    (condCreateFailed (stampedParent w p).Name
      { reason := none
        text := "Unable to find HANAEXPRESS_IMAGE environment variable with the image" })
  refine ⟨_, by rw [hR], imageForHanaExpress_unset henv, ?_, by rw [hR]; simp,
    setCondition ((afterFetch w req p).issue (Call.getChild (stampedParent w p).key))
      (stampedParent w p) (condCreateFailed (stampedParent w p).Name
        { reason := none
          text := "Unable to find HANAEXPRESS_IMAGE environment variable with the image" }),
    c, ?_, hc1, hc2, hc3, ?_, ?_⟩
  · unfold issued
    rw [hR]
    simp only [stored_trace, issue_trace, afterFetch_trace, List.append_assoc,
      List.drop_left, List.singleton_append]
    by_cases he : p.Status.Conditions.isEmpty <;>
      by_cases hm : ContainsFinalizer p hanaExpressFinalizer <;>
        simp [childCreates, fetchCalls, he, hm]
  · rw [hR]
    exact ((hW.issue _).stored _ (show (setCondition _ (stampedParent w p) _).key = req
      from hW.key)).2
  · rw [hc4]
    simp only [condCreateFailed, newCondition, stampedParent_Name]
    rw [String.append_assoc, String.append_assoc]
    exact occursIn_mid _ _ _
  · rw [hc4]
    simp only [condCreateFailed, newCondition, stampedParent_Name]
    exact occursIn_mid _ _ _

/-- C7, at the fresh parent `exParent` with HANAEXPRESS_IMAGE unset. -/
theorem Reconcile_image_unset_witness :
    (NoFaults (exWorld [exParent] [] none) ∧
      storedParent (exWorld [exParent] [] none) exReq = some exParent ∧
      exParent.DeletionTimestamp = none ∧
      storedChild (exWorld [exParent] [] none) exParent.key = none ∧
      (exWorld [exParent] [] none).env "HANAEXPRESS_IMAGE" = none) ∧
    ∃ err, (Reconcile (exWorld [exParent] [] none) exReq).1 =
        Outcome.returned Result.none (some err) ∧
      imageForHanaExpress (exWorld [exParent] [] none).env = Except.error err ∧
      childCreates (issued (exWorld [exParent] [] none) exReq) = [] :=
  have h := Reconcile_image_unset (exWorld [exParent] [] none) exReq exParent
    (fun _ _ => rfl) (by decide) (by decide) (by decide) rfl
  ⟨⟨fun _ _ => rfl, by decide, by decide, by decide, rfl⟩,
    h.choose, h.choose_spec.1, h.choose_spec.2.1, h.choose_spec.2.2.1⟩

-- ===========================================================================
-- C8: two runs in succession
-- ===========================================================================

/-- C8, counterexample: from the store in which the live parent `exProgressing`
holds a Progressing condition and no Available condition, and its child is
stored with no replica, every store call succeeding, the first run only sets
the replica count and the second run adds an Available condition: the condition
types are [Progressing] after the first run and [Progressing, Available] after
the second. -/
theorem Reconcile_twice_adds_condition :
    NoFaults (exWorld [exProgressing] [exChild 0] none) ∧
    (storedParent (Reconcile (exWorld [exProgressing] [exChild 0] none) exReq).2 exReq).map
      conditionTypes = some ["Progressing"] ∧
    (storedParent
      (Reconcile (Reconcile (exWorld [exProgressing] [exChild 0] none) exReq).2 exReq).2
      exReq).map conditionTypes = some ["Progressing", "Available"] :=
  ⟨fun _ _ => rfl, by decide, by decide⟩

/-- C8 amended: for every store state in which the parent under the identifier,
if any, has no condition yet or already holds an Available condition, when
every store call succeeds, the second of two successive runs of Reconcile
leaves the list of condition types of the stored parent as the first run left
it and neither creates nor updates the child workload. -/
theorem Reconcile_second_run_settled (w : World) (req : NamespacedName) (hf : NoFaults w)
    (hav : ∀ p, storedParent w req = some p →
      p.Status.Conditions = [] ∨ typeAvailableHanaExpress ∈ conditionTypes p) :
    (storedParent (Reconcile (Reconcile w req).2 req).2 req).map conditionTypes =
      (storedParent (Reconcile w req).2 req).map conditionTypes ∧
    childCreates (issued (Reconcile w req).2 req) = [] ∧
    childUpdates (issued (Reconcile w req).2 req) = [] := by
  cases hp : storedParent w req with
  | none =>
    have h1 := Reconcile_absent (hf.calls _) hp
    have hf1 : NoFaults (w.issue (Call.getParent req)) := hf
    have hp1 : storedParent (w.issue (Call.getParent req)) req = none := hp
    have h2 := Reconcile_absent (hf1.calls _) hp1
    rw [h1]
    refine ⟨by rw [h2]; rfl, ?_, ?_⟩
    · unfold issued; rw [h2]; simp [childCreates]
    · unfold issued; rw [h2]; simp [childUpdates]
  | some p =>
    obtain ⟨q, hs, hf1⟩ := Reconcile_settles hf hp (hav p hp)
    obtain ⟨h1, h2, h3⟩ := Reconcile_settled hf1 hs
    refine ⟨?_, h2, h3⟩
    rw [h1, hs.1]
    rfl

/-- C8 amended, at the fresh parent `exParent` with a tagged image. -/
theorem Reconcile_second_run_settled_witness :
    (NoFaults (exWorld [exParent] [] (some "saplabs/hanaexpress:2.00.061")) ∧
      ∀ p, storedParent (exWorld [exParent] [] (some "saplabs/hanaexpress:2.00.061")) exReq
          = some p →
        p.Status.Conditions = [] ∨ typeAvailableHanaExpress ∈ conditionTypes p) ∧
    (storedParent (Reconcile (Reconcile
        (exWorld [exParent] [] (some "saplabs/hanaexpress:2.00.061")) exReq).2 exReq).2
        exReq).map conditionTypes =
      (storedParent (Reconcile
        (exWorld [exParent] [] (some "saplabs/hanaexpress:2.00.061")) exReq).2
        exReq).map conditionTypes ∧
    childCreates (issued (Reconcile
      (exWorld [exParent] [] (some "saplabs/hanaexpress:2.00.061")) exReq).2 exReq) = [] ∧
    childUpdates (issued (Reconcile
      (exWorld [exParent] [] (some "saplabs/hanaexpress:2.00.061")) exReq).2 exReq) = [] :=
  have hav : ∀ p, storedParent (exWorld [exParent] [] (some "saplabs/hanaexpress:2.00.061"))
      exReq = some p →
      p.Status.Conditions = [] ∨ typeAvailableHanaExpress ∈ conditionTypes p := by
    intro p hp
    have h0 : storedParent (exWorld [exParent] [] (some "saplabs/hanaexpress:2.00.061"))
        exReq = some exParent := by decide
    rw [h0] at hp
    cases hp
    exact Or.inl rfl
  ⟨⟨fun _ _ => rfl, hav⟩,
    Reconcile_second_run_settled (exWorld [exParent] [] (some "saplabs/hanaexpress:2.00.061")) exReq
      (fun _ _ => rfl) hav⟩

-- ===========================================================================
-- C9: failing calls on the child workload
-- ===========================================================================

theorem StatusUpdate_fault {w : World} {e : GoError} (obj : HanaExpress)
    (hs : CallFails w Op.updateStatus e) :
    StatusUpdate w obj = (some e, obj, w.issue (Call.updateStatus obj)) := by
  simp [StatusUpdate, hs w.calls]

/-- A failing replica update followed by a failing status write: the error of
the status write is returned. -/
theorem Reconcile_statefulSet_resize_status_fault {w : World} {req : NamespacedName}
    {p : HanaExpress} {c : StatefulSet} {r : Int} {e e2 : GoError}
    (h : ParentAt w req p) (hs : CallFails w Op.updateStatus e2)
    (hg : CallsSucceed w Op.getChild) (hu : CallFails w Op.updateChild e)
    (hc : storedChild w p.key = some c) (hr : c.Spec.Replicas = some r) (hne : r ≠ 1) :
    (Reconcile_statefulSet w req p).1 = Outcome.returned Result.none (some e2) := by
  unfold Reconcile_statefulSet
  erw [GetStatefulSet_ok hg hc]
  simp only [hr, ne_eq, hne, not_false_eq_true, if_true]
  erw [UpdateStatefulSet_fault (w := w.issue (Call.getChild p.key)) _ hu]
  simp only []
  erw [GetHanaExpress_at ((h.issue _).issue _)]
  simp only []
  erw [StatusUpdate_fault (w := ((w.issue _).issue _).issue _) _ hs]

theorem statusWrites_append (a b : List Call) :
    statusWrites (a ++ b) = statusWrites a ++ statusWrites b := by
  simp [statusWrites]

theorem fetchCalls_statusWrites (w : World) (req : NamespacedName) (p : HanaExpress) :
    statusWrites (fetchCalls w req p) =
      if p.Status.Conditions.isEmpty then [stampedParent w p] else [] := by
  by_cases he : p.Status.Conditions.isEmpty <;>
    by_cases hm : ContainsFinalizer p hanaExpressFinalizer <;>
      simp [statusWrites, fetchCalls, he, hm]

/-- C9, counterexample: with the live parent `exActive` stored and every read
of the child failing with an internal error (not a not-found answer), Reconcile
returns that error, issues no status write at all, and the stored parent is
what it was: no condition records the failure. -/
theorem Reconcile_child_read_fault_unrecorded :
    IsNotFound exInternalError = false ∧
    (Reconcile (exFaultyWorld Op.getChild [exActive] [] none) exReq).1 =
      Outcome.returned Result.none (some exInternalError) ∧
    statusWrites (issued (exFaultyWorld Op.getChild [exActive] [] none) exReq) = [] ∧
    storedParent (Reconcile (exFaultyWorld Op.getChild [exActive] [] none) exReq).2 exReq =
      some exActive := by
  decide

/-- C9 amended: for every live parent, on a run whose calls of lines 75-118
succeed (nothing is assumed of any other call):
(1) when the read of the child fails with an error other than not-found, and
(2) when the read of the child answers not-found, the child can be built and
its creation fails (by an answer of the store or because the child is already
stored), Reconcile returns that error and writes no status beyond the starting
stamp of a parent that had no condition;
(3) when the replica update fails, Reconcile fetches the parent again and
writes a status: if both calls succeed it returns the update error and the
stored status holds Available=False with reason Resizing and a message
containing the parent's name and the error text; if that status write fails it
returns the error of the status write, and if the fetch fails the error of the
fetch, the stored parent being left as it was. -/
theorem Reconcile_child_fault (w : World) (req : NamespacedName) (p : HanaExpress)
    (e : GoError) (hp : storedParent w req = some p) (hlive : p.DeletionTimestamp = none)
    (hfs : FetchSucceeds w p) :
    (w.faults Op.getChild (w.calls + fetchLength p) = some e → IsNotFound e = false →
      (Reconcile w req).1 = Outcome.returned Result.none (some e) ∧
      statusWrites (issued w req) =
        (if p.Status.Conditions.isEmpty then [stampedParent w p] else [])) ∧
    (∀ image,
      ((w.faults Op.getChild (w.calls + fetchLength p) = none ∧ storedChild w p.key = none) ∨
        (∃ e0, w.faults Op.getChild (w.calls + fetchLength p) = some e0 ∧
          IsNotFound e0 = true)) →
      w.env "HANAEXPRESS_IMAGE" = some image → ':' ∈ image.data →
      (w.faults Op.createChild (w.calls + fetchLength p + 1) = some e ∨
        (w.faults Op.createChild (w.calls + fetchLength p + 1) = none ∧
          (∃ c, storedChild w p.key = some c) ∧ e = alreadyExistsError p.key)) →
      (Reconcile w req).1 = Outcome.returned Result.none (some e) ∧
      statusWrites (issued w req) =
        (if p.Status.Conditions.isEmpty then [stampedParent w p] else [])) ∧
    (∀ c r, w.faults Op.getChild (w.calls + fetchLength p) = none →
      storedChild w p.key = some c → c.Spec.Replicas = some r → r ≠ 1 →
      w.faults Op.updateChild (w.calls + fetchLength p + 1) = some e →
      (w.faults Op.getParent (w.calls + fetchLength p + 2) = none →
        w.faults Op.updateStatus (w.calls + fetchLength p + 3) = none →
        (Reconcile w req).1 = Outcome.returned Result.none (some e) ∧
        ∃ p1 cnd, storedParent (Reconcile w req).2 req = some p1 ∧
          FindStatusCondition p1.Status.Conditions typeAvailableHanaExpress = some cnd ∧
          cnd.Status = ConditionStatus.ConditionFalse ∧ cnd.Reason = "Resizing" ∧
          occursIn p.Name cnd.Message ∧ occursIn e.text cnd.Message) ∧
      (∀ e2, w.faults Op.getParent (w.calls + fetchLength p + 2) = none →
        w.faults Op.updateStatus (w.calls + fetchLength p + 3) = some e2 →
        (Reconcile w req).1 = Outcome.returned Result.none (some e2) ∧
        storedParent (Reconcile w req).2 req = some (stampedParent w p)) ∧
      (∀ e3, w.faults Op.getParent (w.calls + fetchLength p + 2) = some e3 →
        (Reconcile w req).1 = Outcome.returned Result.none (some e3) ∧
        statusWrites (issued w req) =
          (if p.Status.Conditions.isEmpty then [stampedParent w p] else []) ∧
        storedParent (Reconcile w req).2 req = some (stampedParent w p))) := by
  have hp0 : storeGet HanaExpress.key w.parents req = some p := hp
  have hWp := afterFetch_stored hp0
  have hlive1 : p.DeletionTimestamp.isSome = false := by simp [hlive]
  have hfl : ∀ op k, (afterFetch w req p).faults op ((afterFetch w req p).calls + k) =
      w.faults op (w.calls + fetchLength p + k) := fun op k => by
    rw [afterFetch_faults, afterFetch_calls]
  have hfl0 : ∀ op, (afterFetch w req p).faults op (afterFetch w req p).calls =
      w.faults op (w.calls + fetchLength p) := fun op => by
    rw [afterFetch_faults, afterFetch_calls]
  have hchild : ∀ x, storedChild w p.key = x →
      storedChild (afterFetch w req p) (stampedParent w p).key = x := by
    intro x hx
    unfold storedChild at hx ⊢
    rw [afterFetch_children, stampedParent_key]; exact hx
  have hR0 : Reconcile w req = Reconcile_statefulSet (afterFetch w req p) req
      (stampedParent w p) := by
    rw [Reconcile_fetch_pt hp0 hfs]
    simp only [hlive1, Bool.false_eq_true, if_false]
  refine ⟨?_, ?_, ?_⟩
  · intro hg hne
    have hR := hR0
    rw [Reconcile_statefulSet_get_fault_pt (by rw [hfl0]; exact hg) hne] at hR
    refine ⟨by rw [hR], ?_⟩
    rw [issued_of_run (p := p) (t := [Call.getChild (stampedParent w p).key]) hR (by simp),
      statusWrites_append, fetchCalls_statusWrites]
    simp [statusWrites]
  · intro image hread henv hc hcr
    have henv1 : (afterFetch w req p).env "HANAEXPRESS_IMAGE" = some image := by
      rw [afterFetch_env]; exact henv
    obtain ⟨sts, hsts, hn, hns, -⟩ :=
      statefulSetForHanaExpress_tagged (stampedParent w p) henv1 hc
    have hkey : sts.key = p.key := by
      simp [StatefulSet.key, HanaExpress.key, hn, hns]
    have hread1 : ((afterFetch w req p).faults Op.getChild (afterFetch w req p).calls = none ∧
          storedChild (afterFetch w req p) (stampedParent w p).key = none) ∨
        (∃ e0, (afterFetch w req p).faults Op.getChild (afterFetch w req p).calls = some e0 ∧
          IsNotFound e0 = true) := by
      rcases hread with ⟨hg, hch⟩ | ⟨e0, hg, hnf⟩
      · exact Or.inl ⟨by rw [hfl0]; exact hg, hchild _ hch⟩
      · exact Or.inr ⟨e0, by rw [hfl0]; exact hg, hnf⟩
    have hcr1 : (afterFetch w req p).faults Op.createChild ((afterFetch w req p).calls + 1)
          = some e ∨
        ((afterFetch w req p).faults Op.createChild ((afterFetch w req p).calls + 1) = none ∧
          (∃ c, storedChild (afterFetch w req p) sts.key = some c) ∧
          e = alreadyExistsError sts.key) := by
      rcases hcr with hf | ⟨hf, ⟨c, hch⟩, he⟩
      · exact Or.inl (by rw [hfl]; exact hf)
      · refine Or.inr ⟨by rw [hfl]; exact hf, ⟨c, ?_⟩, by rw [hkey]; exact he⟩
        have := hchild _ hch
        rw [stampedParent_key, ← hkey] at this
        exact this
    have hR := hR0
    rw [Reconcile_statefulSet_create_fault_any hread1 hsts hcr1] at hR
    refine ⟨by rw [hR], ?_⟩
    rw [issued_of_run (p := p)
      (t := [Call.getChild (stampedParent w p).key, Call.createChild sts])
      hR (by simp), statusWrites_append, fetchCalls_statusWrites]
    simp [statusWrites]
  · intro c r hg hch hr hne hu
    have hg1 : (afterFetch w req p).faults Op.getChild (afterFetch w req p).calls = none := by
      rw [hfl0]; exact hg
    have hu1 : (afterFetch w req p).faults Op.updateChild ((afterFetch w req p).calls + 1)
        = some e := by rw [hfl]; exact hu
    refine ⟨?_, ?_, ?_⟩
    · intro hgp hs
      have hR := hR0
      rw [Reconcile_statefulSet_resize_fault_pt hWp hg1 hu1 (by rw [hfl]; exact hgp)
        (by rw [hfl]; exact hs) (hchild _ hch) hr hne] at hR
      obtain ⟨cnd, hc1, hc2, hc3, hc4⟩ := FindStatusCondition_set
        ((((afterFetch w req p).issue (Call.getChild (stampedParent w p).key)).issue
          (Call.updateChild { c with Spec := { c.Spec with Replicas := some 1 } })).issue
          (Call.getParent req)).now
        (stampedParent w p).Status.Conditions
        (condResizeFailed (stampedParent w p).Name e)
      have hk : (stampedParent w p).key = req := storeGet_key _ hWp
      refine ⟨by rw [hR],
        setCondition ((((afterFetch w req p).issue
          (Call.getChild (stampedParent w p).key)).issue
          (Call.updateChild { c with Spec := { c.Spec with Replicas := some 1 } })).issue
          (Call.getParent req)) (stampedParent w p)
          (condResizeFailed (stampedParent w p).Name e),
        cnd, ?_, hc1, hc2, hc3, ?_, ?_⟩
      · rw [hR]
        have h1 : storeGet HanaExpress.key (afterFetch w req p).parents
            (setCondition ((((afterFetch w req p).issue
              (Call.getChild (stampedParent w p).key)).issue
              (Call.updateChild { c with Spec := { c.Spec with Replicas := some 1 } })).issue
              (Call.getParent req)) (stampedParent w p)
              (condResizeFailed (stampedParent w p).Name e)).key
            = some (stampedParent w p) := by
          rw [setCondition_key, hk]; exact hWp
        have h2 := storeGet_storePut_self HanaExpress.key h1
        rw [setCondition_key, hk] at h2
        exact h2
      · rw [hc4]
        simp only [condResizeFailed, newCondition, stampedParent_Name]
        rw [String.append_assoc, String.append_assoc]
        exact occursIn_mid _ _ _
      · rw [hc4]
        simp only [condResizeFailed, newCondition, stampedParent_Name]
        exact occursIn_mid _ _ _
    · intro e2 hgp hs
      have hR := hR0
      rw [Reconcile_statefulSet_resize_unrecorded_pt hWp hg1 hu1 (by rw [hfl]; exact hgp)
        (by rw [hfl]; exact hs) (hchild _ hch) hr hne] at hR
      exact ⟨by rw [hR], by rw [hR]; exact hWp⟩
    · intro e3 hgp
      have hR := hR0
      rw [Reconcile_statefulSet_resize_refetch_pt hg1 hu1 (by rw [hfl]; exact hgp)
        (hchild _ hch) hr hne] at hR
      refine ⟨by rw [hR], ?_, by rw [hR]; exact hWp⟩
      rw [issued_of_run (p := p)
        (t := [Call.getChild (stampedParent w p).key,
          Call.updateChild { c with Spec := { c.Spec with Replicas := some 1 } },
          Call.getParent req])
        hR (by simp), statusWrites_append, fetchCalls_statusWrites]
      simp [statusWrites]

/-- C9 amended, at the parent `exMarked`, which has no condition yet: the
starting stamp succeeds, the replica update fails and the status write that
records it fails with a conflict, which is the error returned; and at the
parent `exActive`, where that status write succeeds and the update error is
returned. -/
theorem Reconcile_child_fault_witness :
    (storedParent exRecordingFaultWorld exReq = some exMarked ∧
      exMarked.DeletionTimestamp = none ∧ exMarked.Status.Conditions = [] ∧
      FetchSucceeds exRecordingFaultWorld exMarked ∧
      storedParent (exFaultyWorld Op.updateChild [exActive] [exChild 0] none) exReq =
        some exActive ∧
      FetchSucceeds (exFaultyWorld Op.updateChild [exActive] [exChild 0] none) exActive) ∧
    ((Reconcile exRecordingFaultWorld exReq).1 =
        Outcome.returned Result.none (some exConflictError) ∧
      storedParent (Reconcile exRecordingFaultWorld exReq).2 exReq =
        some (stampedParent exRecordingFaultWorld exMarked)) ∧
    ((Reconcile (exFaultyWorld Op.updateChild [exActive] [exChild 0] none) exReq).1 =
      Outcome.returned Result.none (some exInternalError) ∧
    ∃ p1 cnd, storedParent
        (Reconcile (exFaultyWorld Op.updateChild [exActive] [exChild 0] none) exReq).2 exReq =
        some p1 ∧
      FindStatusCondition p1.Status.Conditions typeAvailableHanaExpress = some cnd ∧
      cnd.Status = ConditionStatus.ConditionFalse ∧ cnd.Reason = "Resizing" ∧
      occursIn exActive.Name cnd.Message ∧ occursIn exInternalError.text cnd.Message) :=
  have hf1 : FetchSucceeds exRecordingFaultWorld exMarked :=
    ⟨by decide, fun _ => ⟨by decide, by decide⟩, fun h => absurd h (by decide)⟩
  have hf2 : FetchSucceeds (exFaultyWorld Op.updateChild [exActive] [exChild 0] none)
      exActive :=
    ⟨by decide, fun h => absurd h (by decide), fun h => absurd h (by decide)⟩
  ⟨⟨by decide, by decide, by decide, hf1, by decide, hf2⟩,
    ((Reconcile_child_fault exRecordingFaultWorld exReq exMarked exInternalError
      (by decide) (by decide) hf1).2.2 (exChild 0) 0 (by decide) (by decide) rfl
      (by decide) (by decide)).2.1 exConflictError (by decide) (by decide),
    ((Reconcile_child_fault (exFaultyWorld Op.updateChild [exActive] [exChild 0] none) exReq
      exActive exInternalError (by decide) (by decide) hf2).2.2 (exChild 0) 0 (by decide)
      (by decide) rfl (by decide) (by decide)).1 (by decide) (by decide)⟩

-- ===========================================================================
-- C10: the finalizer is not attached again
-- ===========================================================================

/-- C10: for every parent for which deletion has been requested and which does
not carry the finalizer, whatever the store answers, no object that Reconcile
passes to a write of the parent or of its status carries
"db.sap-redhat.io/finalizer", the parent stored afterwards does not carry it,
and no event is emitted; and when every store call succeeds, Reconcile returns
the directive none with no error. -/
theorem Reconcile_removed_stays_removed (w : World) (req : NamespacedName) (p : HanaExpress)
    (hp : storedParent w req = some p) (hdel : p.DeletionTimestamp.isSome = true)
    (hfin : ContainsFinalizer p hanaExpressFinalizer = false) :
    (∀ o ∈ parentWrites (issued w req), ContainsFinalizer o hanaExpressFinalizer = false) ∧
    (∀ o ∈ statusWrites (issued w req), ContainsFinalizer o hanaExpressFinalizer = false) ∧
    (∃ p1, storedParent (Reconcile w req).2 req = some p1 ∧
      ContainsFinalizer p1 hanaExpressFinalizer = false) ∧
    events (issued w req) = [] ∧
    (NoFaults w → (Reconcile w req).1 = Outcome.returned Result.none none) := by
  obtain ⟨⟨tr, htr, hq1, hq2, hq3⟩, ⟨q, hq, hmq, -⟩⟩ := Reconcile_quiet hp hfin hdel
  have hiss : issued w req = tr := by
    unfold issued
    rw [htr, List.drop_left]
  refine ⟨by rw [hiss]; exact hq1, by rw [hiss]; exact hq2, ⟨q, hq, hmq⟩,
    by rw [hiss]; exact hq3, ?_⟩
  intro hf
  have hpa := hf.parentAt hp
  rw [Reconcile_fetch hpa (fun _ => hf.calls _), if_pos hdel,
    Reconcile_finalize_removed _ _ (by rw [ContainsFinalizer_stamped]; exact hfin)]

/-- C10, at the parent `exRemoved`. -/
theorem Reconcile_removed_stays_removed_witness :
    (storedParent (exWorld [exRemoved] [] none) exReq = some exRemoved ∧
      exRemoved.DeletionTimestamp.isSome = true ∧
      ContainsFinalizer exRemoved hanaExpressFinalizer = false) ∧
    (∀ o ∈ parentWrites (issued (exWorld [exRemoved] [] none) exReq),
      ContainsFinalizer o hanaExpressFinalizer = false) ∧
    (∀ o ∈ statusWrites (issued (exWorld [exRemoved] [] none) exReq),
      ContainsFinalizer o hanaExpressFinalizer = false) ∧
    (∃ p1, storedParent (Reconcile (exWorld [exRemoved] [] none) exReq).2 exReq = some p1 ∧
      ContainsFinalizer p1 hanaExpressFinalizer = false) ∧
    events (issued (exWorld [exRemoved] [] none) exReq) = [] ∧
    (NoFaults (exWorld [exRemoved] [] none) →
      (Reconcile (exWorld [exRemoved] [] none) exReq).1 = Outcome.returned Result.none none) :=
  ⟨⟨by decide, by decide, by decide⟩,
    Reconcile_removed_stays_removed (exWorld [exRemoved] [] none) exReq exRemoved
      (by decide) (by decide) (by decide)⟩

-- ===========================================================================
-- C11: the child workload already has one replica
-- ===========================================================================

/-- C11: for every live parent whose child workload is stored with a replica
count of exactly 1, when every store call succeeds, Reconcile neither creates
nor updates the child, which stays stored as it was; the stored status holds an
Available condition that is True with reason Reconciling and whose message
contains the parent's name; and the directive is none with no error. -/
theorem Reconcile_child_available (w : World) (req : NamespacedName) (p : HanaExpress)
    (c : StatefulSet) (hf : NoFaults w) (hp : storedParent w req = some p)
    (hlive : p.DeletionTimestamp = none) (hch : storedChild w p.key = some c)
    (hr : c.Spec.Replicas = some 1) :
    (Reconcile w req).1 = Outcome.returned Result.none none ∧
    childCreates (issued w req) = [] ∧
    childUpdates (issued w req) = [] ∧
    (Reconcile w req).2.children = w.children ∧
    ∃ p1 cnd, storedParent (Reconcile w req).2 req = some p1 ∧
      FindStatusCondition p1.Status.Conditions typeAvailableHanaExpress = some cnd ∧
      cnd.Status = ConditionStatus.ConditionTrue ∧ cnd.Reason = "Reconciling" ∧
      occursIn p.Name cnd.Message := by
  have hpa := hf.parentAt hp
  have hW := afterFetch_at hpa
  have hcs : ∀ op, CallsSucceed (afterFetch w req p) op := fun op n => by
    rw [afterFetch_faults]; exact hf op n
  have hch1 : storedChild (afterFetch w req p) (stampedParent w p).key = some c := by
    unfold storedChild; rw [afterFetch_children, stampedParent_key]; exact hch
  have hrun := Reconcile_statefulSet_available hW (hcs _) (hcs _) hch1 hr
  have hR : Reconcile w req = Reconcile_statefulSet (afterFetch w req p) req
      (stampedParent w p) := by
    rw [Reconcile_fetch hpa (fun _ => hf.calls _)]
    simp only [hlive, Option.isSome_none, Bool.false_eq_true, if_false]
  rw [hrun] at hR
  have hiss := issued_of_run (p := p)
    (t := [Call.getChild (stampedParent w p).key,
      Call.updateStatus (setCondition
        ((afterFetch w req p).issue (Call.getChild (stampedParent w p).key))
        (stampedParent w p) (condAvailable (stampedParent w p).Name 1))])
    hR (by simp)
  obtain ⟨cnd, hc1, hc2, hc3, hc4⟩ := FindStatusCondition_set
    ((afterFetch w req p).issue (Call.getChild (stampedParent w p).key)).now
    (stampedParent w p).Status.Conditions (condAvailable (stampedParent w p).Name 1)
  refine ⟨by rw [hR], ?_, ?_, by rw [hR]; simp,
    setCondition ((afterFetch w req p).issue (Call.getChild (stampedParent w p).key))
      (stampedParent w p) (condAvailable (stampedParent w p).Name 1),
    cnd, ?_, hc1, hc2, hc3, ?_⟩
  · rw [hiss, childCreates_append, fetchCalls_childCreates]
    simp [childCreates]
  · rw [hiss, childUpdates_append, fetchCalls_childUpdates]
    simp [childUpdates]
  · rw [hR]
    exact ((hW.issue _).stored _ (show (setCondition _ (stampedParent w p) _).key = req
      from hW.key)).2
  · rw [hc4]
    simp only [condAvailable, newCondition, stampedParent_Name]
    rw [String.append_assoc, String.append_assoc]
    exact occursIn_mid _ _ _

/-- C11, at the parent `exActive` whose child is stored with one replica. -/
theorem Reconcile_child_available_witness :
    (NoFaults (exWorld [exActive] [exChild 1] none) ∧
      storedParent (exWorld [exActive] [exChild 1] none) exReq = some exActive ∧
      exActive.DeletionTimestamp = none ∧
      storedChild (exWorld [exActive] [exChild 1] none) exActive.key = some (exChild 1) ∧
      (exChild 1).Spec.Replicas = some 1) ∧
    (Reconcile (exWorld [exActive] [exChild 1] none) exReq).1 =
      Outcome.returned Result.none none ∧
    childCreates (issued (exWorld [exActive] [exChild 1] none) exReq) = [] ∧
    childUpdates (issued (exWorld [exActive] [exChild 1] none) exReq) = [] ∧
    (Reconcile (exWorld [exActive] [exChild 1] none) exReq).2.children = [exChild 1] ∧
    ∃ p1 cnd, storedParent (Reconcile (exWorld [exActive] [exChild 1] none) exReq).2 exReq =
        some p1 ∧
      FindStatusCondition p1.Status.Conditions typeAvailableHanaExpress = some cnd ∧
      cnd.Status = ConditionStatus.ConditionTrue ∧ cnd.Reason = "Reconciling" ∧
      occursIn exActive.Name cnd.Message :=
  ⟨⟨fun _ _ => rfl, by decide, by decide, by decide, rfl⟩,
    Reconcile_child_available (exWorld [exActive] [exChild 1] none) exReq exActive
      (exChild 1) (fun _ _ => rfl) (by decide) (by decide) (by decide) rfl⟩

-- ===========================================================================
-- C12: the initial read of the parent fails
-- ===========================================================================

theorem GetHanaExpress_world (w : World) (key : NamespacedName) (obj : HanaExpress) :
    (GetHanaExpress w key obj).2.2 = w.issue (Call.getParent key) := by
  unfold GetHanaExpress
  cases w.faults Op.getParent w.calls with
  | some e => rfl
  | none =>
    cases storeGet HanaExpress.key w.parents key with
    | some stored => rfl
    | none => rfl

/-- The initial read of a parent that the store does not hold, the read itself
not failing, answers not-found. -/
theorem GetHanaExpress_of_absent {w : World} {req : NamespacedName}
    (hg : w.faults Op.getParent w.calls = none) (hp : storedParent w req = none) :
    (GetHanaExpress w req HanaExpress.zero).1 = some (notFoundError req) ∧
      IsNotFound (notFoundError req) = true := by
  unfold storedParent at hp
  simp [GetHanaExpress, hg, hp, IsNotFound_notFoundError]

/-- C12: whenever the initial read of the parent answers with an error, Reconcile
returns the directive none, with no error when the answer is not-found and with
exactly that error otherwise; in both cases the read is the only call issued:
no parent update, no status update, no child create or update and no event, and
the store is left as it was. -/
theorem Reconcile_initial_read_error (w : World) (req : NamespacedName) (e : GoError)
    (h : (GetHanaExpress w req HanaExpress.zero).1 = some e) :
    (IsNotFound e = true → (Reconcile w req).1 = Outcome.returned Result.none none) ∧
    (IsNotFound e = false → (Reconcile w req).1 = Outcome.returned Result.none (some e)) ∧
    issued w req = [Call.getParent req] ∧
    parentWrites (issued w req) = [] ∧ statusWrites (issued w req) = [] ∧
    childCreates (issued w req) = [] ∧ childUpdates (issued w req) = [] ∧
    events (issued w req) = [] ∧
    (Reconcile w req).2.parents = w.parents ∧ (Reconcile w req).2.children = w.children := by
  have hw := GetHanaExpress_world w req HanaExpress.zero
  have hR : Reconcile w req =
      (if IsNotFound e then Outcome.returned Result.none none
        else Outcome.returned Result.none (some e), w.issue (Call.getParent req)) := by
    unfold Reconcile
    rcases hG : GetHanaExpress w req HanaExpress.zero with ⟨r, held, W⟩
    rw [hG] at h hw
    simp only at h hw
    subst h
    subst hw
    simp only []
    split <;> rfl
  have hiss : issued w req = [Call.getParent req] := by
    unfold issued
    rw [hR]
    simp only [issue_trace, List.drop_left]
  refine ⟨fun hn => by rw [hR]; simp [hn], fun hn => by rw [hR]; simp [hn], hiss,
    by rw [hiss]; rfl, by rw [hiss]; rfl, by rw [hiss]; rfl, by rw [hiss]; rfl,
    by rw [hiss]; rfl, by rw [hR]; rfl, by rw [hR]; rfl⟩

/-- C12, at an identifier the store does not hold, and at a store whose reads of
the parent fail with an internal error. -/
theorem Reconcile_initial_read_error_witness :
    ((GetHanaExpress (exWorld [] [] none) exReq HanaExpress.zero).1 =
        some (notFoundError exReq) ∧
      IsNotFound (notFoundError exReq) = true ∧
      (GetHanaExpress (exFaultyWorld Op.getParent [exActive] [] none) exReq
        HanaExpress.zero).1 = some exInternalError ∧
      IsNotFound exInternalError = false) ∧
    (Reconcile (exWorld [] [] none) exReq).1 = Outcome.returned Result.none none ∧
    issued (exWorld [] [] none) exReq = [Call.getParent exReq] ∧
    (Reconcile (exFaultyWorld Op.getParent [exActive] [] none) exReq).1 =
      Outcome.returned Result.none (some exInternalError) ∧
    issued (exFaultyWorld Op.getParent [exActive] [] none) exReq = [Call.getParent exReq] :=
  have h1 := Reconcile_initial_read_error (exWorld [] [] none) exReq (notFoundError exReq)
    (by decide)
  have h2 := Reconcile_initial_read_error (exFaultyWorld Op.getParent [exActive] [] none)
    exReq exInternalError (by decide)
  ⟨⟨by decide, by decide, by decide, by decide⟩,
    h1.1 (by decide), h1.2.2.1, h2.2.1 (by decide), h2.2.2.1⟩


end HanaOperator
